import Mathlib

/-!
# KDC replay lookaside cache, dispatcher and authenticated request builder

A shallow embedding of `src/kdc/replay.c`, `src/kdc/dispatch.c` and
`src/lib/krb5/krb/mk_req_ext.c`.

Modelling conventions.

* A `krb5_data` (length + byte pointer) is the list of its bytes; its `length`
  field is the length of the list (an `unsigned int`, so below `2^32`).
* `krb5_ui_4` values are naturals reduced modulo `2^32` after every operation
  that can overflow.
* `size_t` is 64 bits wide (LP64); `total_size` and `entry_size` are naturals
  reduced modulo `2^64`.
* `krb5_timestamp` is a signed 32-bit integer; the subtraction of the `STALE`
  macro wraps modulo `2^32` (two's complement).  Its `abs` is undefined at
  `INT_MIN`, where the test counts the entry as stale.
* The `int` diagnostic counters (`hits`, `calls`, `num_hits`, ...) are integers;
  signed overflow of a counter is undefined behaviour in C and is not modelled.
* Heap objects of type `struct entry` are identified by their address, a
  natural number.  The heap is the field `mem`; the hash buckets and the
  expiration queue are lists of addresses, head first.
* Results of collaborators that are not part of these files (the clock, the
  allocator, the decoders and request processors) are explicit arguments.
* A call of `krb5_mk_req_extended` yields, next to its results, the list of
  the collaborator calls it made, in order; the answers of the collaborators
  are the fields of `mk_req_collab`.
-/

namespace Kdc

/-! ## Byte buffers and 32-bit helpers -/

/-- The bytes of a `krb5_data`. -/
abbrev krb5_data := List UInt8

/-- Equality test `data_eq` of two buffers: same length and same bytes. -/
def data_eq (d1 d2 : krb5_data) : Bool :=
  d1.length == d2.length && d1 == d2

/-- Byte `p[i]` of a buffer, as an `unsigned char` promoted to an integer. -/
def byte_at (d : krb5_data) (i : Nat) : Nat := (d.getD i 0).toNat

/-- Return x rotated to the left by r bits (32-bit). -/
def rotl32 (x : Nat) (r : Nat) : Nat :=
  ((x <<< r) % 2 ^ 32) ||| (x >>> (32 - r))

/-- Modelled from the spec: `load_32_le`, the little-endian load of the four
bytes at offset `off`, which the hash uses for each complete block. -/
def load_32_le (d : krb5_data) (off : Nat) : Nat :=
  byte_at d off ||| (byte_at d (off + 1) <<< 8) ||| (byte_at d (off + 2) <<< 16)
    ||| (byte_at d (off + 3) <<< 24)

def LOOKASIDE_HASH_SIZE : Nat := 16384

def LOOKASIDE_MAX_SIZE : Nat := 10 * 1024 * 1024

def STALE_TIME : Int := 2 * 60

/-- Constants of MurmurHash3: `c1 = 0xcc9e2d51`, `c2 = 0x1b873593`, the block
addend `0xe6546b64`, and the finaliser multipliers `0x85ebca6b`, `0xc2b2ae35`. -/
def murmur_c1 : Nat := 0xcc9e2d51

def murmur_c2 : Nat := 0x1b873593

def murmur_n : Nat := 0xe6546b64

def fmix_m1 : Nat := 0x85ebca6b

def fmix_m2 : Nat := 0xc2b2ae35

/-- One iteration of the block loop of `murmurhash3` on the loaded word `k`. -/
def murmur_loop_body (h k : Nat) : Nat :=
  let h := h ^^^ ((rotl32 ((k * murmur_c1) % 2 ^ 32) 15 * murmur_c2) % 2 ^ 32)
  (rotl32 h 13 * 5 + murmur_n) % 2 ^ 32

/-- The function `murmurhash3` of replay.c, with the global `seed` as an
argument: block loop over `p = start, start + 4, ... < endblocks`, tail,
finaliser, result modulo `LOOKASIDE_HASH_SIZE`. -/
def murmurhash3 (seed : Nat) (data : krb5_data) : Nat :=
  let tail_len := (data.length % 4)
  let endblocks := data.length - tail_len
  let h := (List.range (endblocks / 4)).foldl
    (fun h i => murmur_loop_body h (load_32_le data (4 * i))) seed
  let p := endblocks
  let final := 0
  let final := final ||| (if tail_len ≥ 3 then byte_at data (p + 2) <<< 16 else 0)
  let final := final ||| (if tail_len ≥ 2 then byte_at data (p + 1) <<< 8 else 0)
  let final := final ||| (if tail_len ≥ 1 then byte_at data p else 0)
  let h := h ^^^ ((rotl32 ((final * murmur_c1) % 2 ^ 32) 15 * murmur_c2) % 2 ^ 32)
  let h := h ^^^ (data.length % 2 ^ 32)
  let h := ((h ^^^ (h >>> 16)) * fmix_m1) % 2 ^ 32
  let h := ((h ^^^ (h >>> 13)) * fmix_m2) % 2 ^ 32
  let h := h ^^^ (h >>> 16)
  h % LOOKASIDE_HASH_SIZE

/-! ### Reference MurmurHash3_x86_32 -/

/-- A `struct entry`.  The link fields `bucket_links` and `expire_links` are
represented by the position of the entry's address in the bucket list and in
the expiration queue. -/
structure entry where
  num_hits : Int
  timein : Int
  req_packet : krb5_data
  reply_packet : krb5_data

/-- The static variables of replay.c together with the heap of entries. -/
structure lookaside where
  mem : Nat → entry
  hash_table : Nat → List Nat
  expiration_queue : List Nat
  hits : Int
  calls : Int
  max_hits_per_entry : Int
  num_entries : Int
  total_size : Nat
  seed : Nat

/-- Width of `size_t` arithmetic. -/
def SIZE_MOD : Nat := 2 ^ 64

/-- The value of `sizeof(struct entry)` on LP64: two list links of two pointers
each (32 bytes), `num_hits` and `timein` (8 bytes), two `krb5_data` of 16 bytes. -/
def sizeof_entry : Nat := 72

/-- Reduction of an integer to the range of a signed 32-bit integer. -/
def wrap32 (x : Int) : Int := (x + 2 ^ 31) % 2 ^ 32 - 2 ^ 31

/-- The C library `abs` on a 32-bit `int`.  The value of `abs(INT_MIN)` is
undefined in C; it is taken as `2^31`, so that the comparison
`abs(d) >= STALE_TIME` holds at `d = INT_MIN` as it does at every other
`d <= -STALE_TIME` (the comparison as a compiler evaluates it, a range test
on `d`). -/
def c_abs (x : Int) : Int := if x < 0 then -x else x

/-- The macro `STALE(ptr, now)`: `abs(ptr->timein - now) >= STALE_TIME`. -/
def STALE (timein now : Int) : Bool :=
  decide (c_abs (wrap32 (timein - now)) ≥ STALE_TIME)

/-- Return the rough memory footprint of an entry containing req and rep
(`rep` may be `NULL`, here `none`). -/
def entry_size (req : krb5_data) (rep : Option krb5_data) : Nat :=
  (sizeof_entry + req.length +
    (match rep with
     | none => 0
     | some r => r.length)) % SIZE_MOD

/-- Remove entry from its hash bucket and the expiration queue, and free it.
`LIST_REMOVE` unlinks the entry from whichever bucket holds it. -/
def discard_entry (s : lookaside) (e : Nat) : lookaside :=
  { s with
    total_size := (s.total_size + SIZE_MOD -
      entry_size (s.mem e).req_packet (some (s.mem e).reply_packet)) % SIZE_MOD
    hash_table := fun i => (s.hash_table i).erase e
    expiration_queue := s.expiration_queue.erase e }

/-- Return the entry for req_packet, or `none` (NULL) if we don't have one. -/
def find_entry (s : lookaside) (req_packet : krb5_data) : Option Nat :=
  let hash := murmurhash3 s.seed req_packet
  (s.hash_table hash).find? (fun e => data_eq (s.mem e).req_packet req_packet)

/-- The values of the static variables at program start. -/
def static_init : lookaside :=
  { mem := fun _ => ⟨0, 0, [], []⟩
    hash_table := fun _ => []
    expiration_queue := []
    hits := 0
    calls := 0
    max_hits_per_entry := 0
    num_entries := 0
    total_size := 0
    seed := 0 }

/-- Initialize the lookaside cache structures and randomize the hash seed.
`random` is the result of `krb5_c_random_make_octets`: its return code and the
four octets written over `seed`. -/
def kdc_init_lookaside (s : lookaside) (random : Int × Nat) : Int × lookaside :=
  (random.1,
   { s with
     hash_table := fun _ => []
     expiration_queue := []
     seed := random.2 % 2 ^ 32 })

/-- Remove the lookaside cache entry for a packet. -/
def kdc_remove_lookaside (s : lookaside) (req_packet : krb5_data) : lookaside :=
  match find_entry s req_packet with
  | some e => discard_entry s e
  | none => s

/-- Modelled from the spec: `krb5_copy_data`, which returns a freshly allocated
copy of the buffer, or fails (returning nothing) when the allocation fails. -/
def krb5_copy_data (alloc_ok : Bool) (d : krb5_data) : Option krb5_data :=
  if alloc_ok then some d else none

/-- Return true and fill in reply_packet_out if req_packet is in the lookaside
cache; otherwise return false.  The result is the new state, the returned
boolean and `*reply_packet_out`. -/
def kdc_check_lookaside (s : lookaside) (req_packet : krb5_data) (alloc_ok : Bool) :
    lookaside × Bool × Option krb5_data :=
  let s := { s with calls := s.calls + 1 }
  match find_entry s req_packet with
  | none => (s, false, none)
  | some e =>
    let s := { s with
      mem := fun p => if p = e then { s.mem e with num_hits := (s.mem e).num_hits + 1 }
        else s.mem p }
    let s := { s with hits := s.hits + 1 }
    match krb5_copy_data alloc_ok (s.mem e).reply_packet with
    | some r => (s, true, some r)
    | none => (s, false, none)

/-- What the environment answers during one call of `kdc_insert_lookaside`:
the clock reading of `krb5_timeofday` (`none` when it fails), the address
returned by `calloc` (`none` for NULL), and whether the copies of the request
and of the reply succeed. -/
structure insert_env where
  timeofday : Option Int
  calloc : Option Nat
  copy_req : Bool
  copy_reply : Bool

/-- The statement `max_hits_per_entry = max(max_hits_per_entry, e->num_hits)`. -/
def note_max_hits (s : lookaside) (e : Nat) : lookaside :=
  { s with max_hits_per_entry := max s.max_hits_per_entry (s.mem e).num_hits }

/-- The purge loop of `kdc_insert_lookaside`, a `TAILQ_FOREACH_SAFE` over the
expiration queue as it was when the loop started. -/
def purge (timenow : Int) (esize : Nat) : lookaside → List Nat → lookaside
  | s, [] => s
  | s, e :: next =>
    if !STALE (s.mem e).timein timenow &&
        decide ((s.total_size + esize) % SIZE_MOD ≤ LOOKASIDE_MAX_SIZE) then s
    else purge timenow esize (discard_entry (note_max_hits s e) e) next

/-- Insert a request and reply into the lookaside cache.  Assumes it's not
already there, and can fail silently on memory exhaustion. -/
def kdc_insert_lookaside (s : lookaside) (req_packet : krb5_data)
    (reply_packet : Option krb5_data) (env : insert_env) : lookaside :=
  let hash := murmurhash3 s.seed req_packet
  let esize := entry_size req_packet reply_packet
  match env.timeofday with
  | none => s
  | some timenow =>
    let s := purge timenow esize s s.expiration_queue
    match env.calloc with
    | none => s
    | some e =>
      if !env.copy_req then s
      else if reply_packet.isSome && !env.copy_reply then s
      else
        { s with
          mem := fun p => if p = e then
              { num_hits := 0, timein := timenow, req_packet := req_packet,
                reply_packet := reply_packet.getD [] }
            else s.mem p
          expiration_queue := s.expiration_queue ++ [e]
          hash_table := fun i => if i = hash then e :: s.hash_table i else s.hash_table i
          num_entries := s.num_entries + 1
          total_size := (s.total_size + esize) % SIZE_MOD }

/-- The loop of `kdc_free_lookaside` over the queue as it was at loop start. -/
def free_loop : lookaside → List Nat → lookaside
  | s, [] => s
  | s, e :: next => free_loop (discard_entry s e) next

/-- Free all entries in the lookaside cache. -/
def kdc_free_lookaside (s : lookaside) : lookaside :=
  free_loop s s.expiration_queue

/-! ## The dispatcher (dispatch.c) -/

/-- Modelled from the spec: the "unrecognized message type" error code
`KRB5KRB_AP_ERR_MSG_TYPE`, a non-zero constant of the krb5 error table
(base -1765328384, entry 40). -/
def KRB5KRB_AP_ERR_MSG_TYPE : Int := -1765328344

/-- The collaborators of `dispatch`: the message classifiers, the decoders
(return code and decoded request), the request processors (return code and the
value left in `*response`), and whether the file is compiled with `KRB4`. -/
structure collaborators (Req Addr : Type) where
  krb5_is_tgs_req : krb5_data → Bool
  krb5_is_as_req : krb5_data → Bool
  decode_krb5_tgs_req : krb5_data → Int × Req
  decode_krb5_as_req : krb5_data → Int × Req
  process_tgs_req : Req → Addr → Int × Option krb5_data
  process_as_req : Req → Addr → Int × Option krb5_data
  KRB4 : Bool
  process_v4 : krb5_data → Addr → Int × Option krb5_data

/-- The calls `dispatch` makes, in order, recorded for one invocation. -/
inductive dispatch_call where
  | check_lookaside
  | is_tgs_req
  | decode_tgs_req
  | process_tgs_req
  | is_as_req
  | decode_as_req
  | process_as_req
  | process_v4
  | free_kdc_req
  | insert_lookaside
  deriving DecidableEq, Repr

/-- Outcome of one `dispatch` call: return value, `*response`, the cache
afterwards and the calls made. -/
structure dispatch_result where
  retval : Int
  response : Option krb5_data
  cache : lookaside
  trace : List dispatch_call

/-- The classification and processing part of `dispatch`, after a lookaside
miss: return value, `*response` and the calls made. -/
def dispatch_process {Req Addr : Type} (c : collaborators Req Addr) (pkt : krb5_data)
    (src : Addr) : Int × Option krb5_data × List dispatch_call :=
  if c.krb5_is_tgs_req pkt then
    let d := c.decode_krb5_tgs_req pkt
    if d.1 = 0 then
      let r := c.process_tgs_req d.2 src
      (r.1, r.2, [.is_tgs_req, .decode_tgs_req, .process_tgs_req, .free_kdc_req])
    else (d.1, none, [.is_tgs_req, .decode_tgs_req])
  else if c.krb5_is_as_req pkt then
    let d := c.decode_krb5_as_req pkt
    if d.1 = 0 then
      let r := c.process_as_req d.2 src
      (r.1, r.2, [.is_tgs_req, .is_as_req, .decode_as_req, .process_as_req, .free_kdc_req])
    else (d.1, none, [.is_tgs_req, .is_as_req, .decode_as_req])
  else if c.KRB4 && pkt.head? == some 4 then
    let r := c.process_v4 pkt src
    (r.1, r.2, [.is_tgs_req, .is_as_req, .process_v4])
  else (KRB5KRB_AP_ERR_MSG_TYPE, none, [.is_tgs_req, .is_as_req])

/-- The function `dispatch`: try the replay lookaside buffer, else classify,
decode and process, and put a successful response into the lookaside buffer.
`copy_ok` is the outcome of the reply copy made by the lookup and `ienv` what
the environment answers during the insert. -/
def dispatch {Req Addr : Type} (c : collaborators Req Addr) (s : lookaside) (pkt : krb5_data)
    (src : Addr) (copy_ok : Bool) (ienv : insert_env) : dispatch_result :=
  let chk := kdc_check_lookaside s pkt copy_ok
  if chk.2.1 then
    { retval := 0, response := chk.2.2, cache := chk.1, trace := [.check_lookaside] }
  else
    let p := dispatch_process c pkt src
    if p.1 = 0 then
      { retval := p.1, response := p.2.1,
        cache := kdc_insert_lookaside chk.1 pkt p.2.1 ienv,
        trace := .check_lookaside :: (p.2.2 ++ [.insert_lookaside]) }
    else
      { retval := p.1, response := p.2.1, cache := chk.1,
        trace := .check_lookaside :: p.2.2 }

/-! ## Sequences of cache operations -/

/-- One call of a cache function together with what the environment answers. -/
inductive cache_op where
  | insert (req : krb5_data) (reply : Option krb5_data) (env : insert_env)
  | check (req : krb5_data) (alloc_ok : Bool)
  | remove (req : krb5_data)
  | free

/-- The effect of one cache call on the state. -/
def apply_op (s : lookaside) : cache_op → lookaside
  | .insert req reply env => kdc_insert_lookaside s req reply env
  | .check req alloc_ok => (kdc_check_lookaside s req alloc_ok).1
  | .remove req => kdc_remove_lookaside s req
  | .free => kdc_free_lookaside s

/-- The state after a sequence of cache calls. -/
def run_ops : lookaside → List cache_op → lookaside
  | s, [] => s
  | s, op :: rest => run_ops (apply_op s op) rest

/-- The initialised empty cache, for the hash seed drawn at start-up. -/
def empty_cache (random : Int × Nat) : lookaside :=
  (kdc_init_lookaside static_init random).2

/-- The entry an insert call creates, if it creates one: the clock reading and
the address, present when the clock read and every allocation succeed. -/
def insert_creates (reply : Option krb5_data) (env : insert_env) : Option (Int × Nat) :=
  match env.timeofday, env.calloc with
  | some t, some e =>
    if !env.copy_req then none
    else if reply.isSome && !env.copy_reply then none
    else some (t, e)
  | _, _ => none

/-- A clock reading, when there is one, fits `krb5_timestamp`. -/
def clock_in_range : Option Int → Prop
  | none => True
  | some t => -(2 : Int) ^ 31 ≤ t ∧ t < 2 ^ 31

/-- The address returned by `calloc`, when there is one, is not in `q`. -/
def fresh_address (q : List Nat) : Option Nat → Prop
  | none => True
  | some e => e ∉ q

/-- The expiration queue at the time `calloc` is called: the queue left by the
purge (empty list when the clock read fails and `calloc` is never reached). -/
def queue_at_calloc (s : lookaside) (req : krb5_data) (reply : Option krb5_data)
    (env : insert_env) : List Nat :=
  match env.timeofday with
  | none => []
  | some t => (purge t (entry_size req reply) s s.expiration_queue).expiration_queue

/-- What the C types and the allocator guarantee for an insert call: the
lengths fit `unsigned int`, the clock reading fits `krb5_timestamp`, and
`calloc` returns an address that is not the address of a live entry (of an
entry still in the cache after the purge). -/
def insert_valid (s : lookaside) (req : krb5_data) (reply : Option krb5_data)
    (env : insert_env) : Prop :=
  req.length < 2 ^ 32 ∧ (reply.getD []).length < 2 ^ 32 ∧
  clock_in_range env.timeofday ∧ fresh_address (queue_at_calloc s req reply env) env.calloc

/-- Validity of one call in a state. -/
def op_valid (s : lookaside) : cache_op → Prop
  | .insert req reply env => insert_valid s req reply env
  | _ => True

/-- Validity of a sequence of calls started in a state. -/
def ops_valid : lookaside → List cache_op → Prop
  | _, [] => True
  | s, op :: rest => op_valid s op ∧ ops_valid (apply_op s op) rest

/-- The unreduced footprint of the entry at address `p`. -/
def footprint (s : lookaside) (p : Nat) : Nat :=
  sizeof_entry + (s.mem p).req_packet.length + (s.mem p).reply_packet.length

/-- Sum of the footprints of the entries in the expiration queue. -/
def queue_footprint (s : lookaside) : Nat :=
  (s.expiration_queue.map (footprint s)).sum

instance (o : Option Int) : Decidable (clock_in_range o) :=
  match o with
  | none => isTrue trivial
  | some t => inferInstanceAs (Decidable (-(2 : Int) ^ 31 ≤ t ∧ t < 2 ^ 31))

instance (q : List Nat) (o : Option Nat) : Decidable (fresh_address q o) :=
  match o with
  | none => isTrue trivial
  | some e => inferInstanceAs (Decidable (e ∉ q))

instance (s : lookaside) (req : krb5_data) (reply : Option krb5_data) (env : insert_env) :
    Decidable (insert_valid s req reply env) :=
  inferInstanceAs (Decidable (_ ∧ _ ∧ _ ∧ _))

instance (s : lookaside) (op : cache_op) : Decidable (op_valid s op) :=
  match op with
  | .insert req reply env => inferInstanceAs (Decidable (insert_valid s req reply env))
  | .check _ _ => isTrue trivial
  | .remove _ => isTrue trivial
  | .free => isTrue trivial

/-- Decision procedure for the validity of a sequence of calls. -/
def ops_valid_dec : (s : lookaside) → (ops : List cache_op) → Decidable (ops_valid s ops)
  | _, [] => isTrue trivial
  | s, op :: rest =>
    match (inferInstance : Decidable (op_valid s op)), ops_valid_dec (apply_op s op) rest with
    | isTrue h1, isTrue h2 => isTrue ⟨h1, h2⟩
    | isFalse h1, _ => isFalse (fun h => h1 h.1)
    | _, isFalse h2 => isFalse (fun h => h2 h.2)

instance (s : lookaside) (ops : List cache_op) : Decidable (ops_valid s ops) :=
  ops_valid_dec s ops

/-! ## Sample inputs -/

/-- An environment in which the clock reads `t`, `calloc` returns `p` and both
copies succeed. -/
def env_ok (t : Int) (p : Nat) : insert_env :=
  { timeofday := some t, calloc := some p, copy_req := true, copy_reply := true }

/-- The request bytes `"AAAA"`. -/
def req_A : krb5_data := [65, 65, 65, 65]

/-- The request bytes `"BBBB"`. -/
def req_B : krb5_data := [66, 66, 66, 66]

/-- The reply bytes `"ok"`. -/
def reply_ok : krb5_data := [111, 107]

/-- The empty cache with hash seed 7. -/
def cache0 : lookaside := empty_cache (0, 7)

/-- A cache that already holds an entry for `"AAAA"` with reply `"no"`. -/
def cache_old_A : lookaside :=
  kdc_insert_lookaside cache0 req_A (some [110, 111]) (env_ok 1000 1)

/-! ## Predicates used in the statements -/

/-- The (request, stored reply) pairs of the insert calls of a sequence; a
`NULL` reply is stored as the empty buffer. -/
def inserted_pairs : List cache_op → List (krb5_data × krb5_data)
  | [] => []
  | .insert req reply _ :: rest => (req, reply.getD []) :: inserted_pairs rest
  | _ :: rest => inserted_pairs rest

/-- Every entry linked in a bucket carries a (request, reply) pair of `L`. -/
def logged (L : List (krb5_data × krb5_data)) (s : lookaside) : Prop :=
  ∀ i p, p ∈ s.hash_table i → ((s.mem p).req_packet, (s.mem p).reply_packet) ∈ L

/-- The state `s2` holds a part of the entries of `s1`, unchanged and in the
same order: what a run of `discard_entry` calls does. -/
def shrinks (s1 s2 : lookaside) : Prop :=
  s2.mem = s1.mem ∧ s2.seed = s1.seed ∧
  (∀ i, (s2.hash_table i).Sublist (s1.hash_table i)) ∧
  s2.expiration_queue.Sublist s1.expiration_queue

/-- The request bytes `"KB"`, which fall in the bucket of `"AAAA"` for seed 7. -/
def req_K : krb5_data := [75, 66]

/-- Two inserts whose requests share a bucket. -/
def ops_collide : List cache_op :=
  [.insert req_A (some reply_ok) (env_ok 1000 1), .insert req_K (some [110, 111]) (env_ok 1001 2)]

/-- The state a lookup leaves when it finds the entry at `e`: the call and hit
counters and the entry's own hit counter are incremented. -/
def count_hit (s : lookaside) (e : Nat) : lookaside :=
  { s with
    calls := s.calls + 1
    hits := s.hits + 1
    mem := fun p => if p = e then { s.mem e with num_hits := (s.mem e).num_hits + 1 }
      else s.mem p }

/-- Collaborators that classify every packet as a TGS request, decode it, and
whose processor returns the given code and response. -/
def collab_tgs (rc : Int) (resp : Option krb5_data) : collaborators Unit Unit :=
  { krb5_is_tgs_req := fun _ => true
    krb5_is_as_req := fun _ => false
    decode_krb5_tgs_req := fun _ => (0, ())
    decode_krb5_as_req := fun _ => (0, ())
    process_tgs_req := fun _ _ => (rc, resp)
    process_as_req := fun _ _ => (rc, resp)
    KRB4 := false
    process_v4 := fun _ _ => (rc, resp) }

/-- The cache after `"AAAA"` was dispatched once and answered with `"ok"`. -/
def cache_dispatched_A : lookaside :=
  (dispatch (collab_tgs 0 (some reply_ok)) cache0 req_A () true (env_ok 1000 1)).cache

/-- Well-formedness of the cache: the expiration queue and the buckets hold
distinct addresses, every bucket member is in the queue, `total_size` is the
sum of the footprints of the queued entries, the stored lengths fit
`unsigned int`, and `total_size` exceeds `LOOKASIDE_MAX_SIZE` only when the
queue holds a single entry. -/
structure cache_inv (s : lookaside) : Prop where
  nodup : s.expiration_queue.Nodup
  bucket_nodup : ∀ i, (s.hash_table i).Nodup
  bucket_sub : ∀ i p, p ∈ s.hash_table i → p ∈ s.expiration_queue
  total : s.total_size = queue_footprint s
  lens : ∀ p ∈ s.expiration_queue,
    (s.mem p).req_packet.length < 2 ^ 32 ∧ (s.mem p).reply_packet.length < 2 ^ 32
  bound : s.total_size ≤ LOOKASIDE_MAX_SIZE ∨ s.expiration_queue.length ≤ 1

/-- A run that ends with a lookup between inserts and a removal. -/
def ops_mixed : List cache_op :=
  [.insert req_A (some reply_ok) (env_ok 1000 1), .check req_A true,
   .insert req_B none (env_ok 1010 2),
   .insert req_K (some reply_ok)
     { timeofday := some 1020, calloc := some 3, copy_req := false, copy_reply := true },
   .remove req_A, .insert req_K (some [1, 2, 3]) (env_ok 1030 1)]

/-- The clock readings of the insert calls of a sequence, in order. -/
def clock_readings : List cache_op → List Int
  | [] => []
  | .insert _ _ env :: rest =>
    (match env.timeofday with
     | some t => [t]
     | none => []) ++ clock_readings rest
  | _ :: rest => clock_readings rest

/-- The expiration queue is ordered by insertion time, and every queued
timestamp is non-negative and not later than the clock readings still to come. -/
structure time_inv (s : lookaside) (future : List Int) : Prop where
  sorted : (s.expiration_queue.map (fun p => (s.mem p).timein)).Pairwise (· ≤ ·)
  range : ∀ p ∈ s.expiration_queue,
    0 ≤ (s.mem p).timein ∧ ∀ t ∈ future, (s.mem p).timein ≤ t

/-- Inserts at times 1000 and 1100, then an insert when the clock reads 900. -/
def ops_clock_back : List cache_op :=
  [.insert req_A (some reply_ok) (env_ok 1000 1), .insert req_B (some reply_ok) (env_ok 1100 2),
   .insert req_K (some reply_ok) (env_ok 900 3)]

/-- An insert at the smallest timestamp, then one at the largest timestamp. -/
def ops_clock_far : List cache_op :=
  [.insert req_A (some reply_ok) (env_ok (-2147483648) 1),
   .insert req_B (some reply_ok) (env_ok 2147483647 2)]

/-- Inserts at times 1000, 1001 and 1002, then one 121 seconds later. -/
def ops_scenario_B : List cache_op :=
  [.insert req_A (some reply_ok) (env_ok 1000 1), .insert req_B (some reply_ok) (env_ok 1001 2),
   .insert req_K (some reply_ok) (env_ok 1002 3)]

/-- Every queued entry is linked in the bucket of the hash of its request, and
a bucket holds only entries whose request hashes to its index. -/
structure bucket_inv (s : lookaside) : Prop where
  in_bucket : ∀ p ∈ s.expiration_queue,
    p ∈ s.hash_table (murmurhash3 s.seed (s.mem p).req_packet)
  hash_ok : ∀ i p, p ∈ s.hash_table i → murmurhash3 s.seed (s.mem p).req_packet = i

/-- Two inserts of the same request, with no lookup in between. -/
def ops_twice_A : List cache_op :=
  [.insert req_A (some reply_ok) (env_ok 1000 1), .insert req_A (some [110, 111]) (env_ok 1001 2)]

/-- One eviction of the purge loop: note the hit count, discard the entry. -/
def evict (s : lookaside) (e : Nat) : lookaside :=
  discard_entry (note_max_hits s e) e

/-- The state after the purge loop evicted the entries of `l`, in order. -/
def evict_all (s : lookaside) (l : List Nat) : lookaside :=
  l.foldl evict s

/-- The `break` test of the purge loop at entry `e`: the entry is not stale and
`total_size + esize <= LOOKASIDE_MAX_SIZE`. -/
def sweep_stops (timenow : Int) (esize : Nat) (s : lookaside) (e : Nat) : Bool :=
  !STALE (s.mem e).timein timenow &&
    decide ((s.total_size + esize) % SIZE_MOD ≤ LOOKASIDE_MAX_SIZE)

/-- The expiration queue is ordered by insertion time and no queued timestamp
is later than a clock reading still to come. -/
structure order_inv (s : lookaside) (future : List Int) : Prop where
  sorted : (s.expiration_queue.map (fun p => (s.mem p).timein)).Pairwise (· ≤ ·)
  bounded : ∀ p ∈ s.expiration_queue, ∀ t ∈ future, (s.mem p).timein ≤ t

/-- Inserts at the two smallest timestamps, with a non-decreasing clock. -/
def ops_clock_span : List cache_op :=
  [.insert req_A (some reply_ok) (env_ok (-2147483648) 1),
   .insert req_B (some reply_ok) (env_ok (-2147483647) 2)]

/-- One `dispatch` call: the packet and its source, the behaviour of the
collaborators at that call, and what the environment answers. -/
structure dispatch_input (Req Addr : Type) where
  collab : collaborators Req Addr
  pkt : krb5_data
  src : Addr
  copy_ok : Bool
  ienv : insert_env

/-- The cache after a sequence of `dispatch` calls. -/
def run_dispatch {Req Addr : Type} : lookaside → List (dispatch_input Req Addr) → lookaside
  | s, [] => s
  | s, d :: rest =>
    run_dispatch (dispatch d.collab s d.pkt d.src d.copy_ok d.ienv).cache rest

/-- Whether a `dispatch` call reaches `kdc_insert_lookaside`: the lookup
returned false and the processing returned 0. -/
def dispatch_inserts {Req Addr : Type} (s : lookaside) (d : dispatch_input Req Addr) : Bool :=
  !(kdc_check_lookaside s d.pkt d.copy_ok).2.1 && decide ((dispatch_process d.collab d.pkt d.src).1 = 0)

/-- Validity of a sequence of `dispatch` calls: each insert it makes is valid
in the state the lookup left. -/
def dispatch_valid {Req Addr : Type} : lookaside → List (dispatch_input Req Addr) → Prop
  | _, [] => True
  | s, d :: rest =>
    (dispatch_inserts s d = true →
      insert_valid (kdc_check_lookaside s d.pkt d.copy_ok).1 d.pkt
        (dispatch_process d.collab d.pkt d.src).2.1 d.ienv) ∧
    dispatch_valid (dispatch d.collab s d.pkt d.src d.copy_ok d.ienv).cache rest

/-- Decision procedure for the validity of a sequence of `dispatch` calls. -/
def dispatch_valid_dec {Req Addr : Type} :
    (s : lookaside) → (l : List (dispatch_input Req Addr)) → Decidable (dispatch_valid s l)
  | _, [] => isTrue trivial
  | s, d :: rest =>
    match (inferInstance : Decidable (dispatch_inserts s d = true →
        insert_valid (kdc_check_lookaside s d.pkt d.copy_ok).1 d.pkt
          (dispatch_process d.collab d.pkt d.src).2.1 d.ienv)),
      dispatch_valid_dec (dispatch d.collab s d.pkt d.src d.copy_ok d.ienv).cache rest with
    | isTrue h1, isTrue h2 => isTrue ⟨h1, h2⟩
    | isFalse h1, _ => isFalse (fun h => h1 h.1)
    | _, isFalse h2 => isFalse (fun h => h2 h.2)

instance {Req Addr : Type} (s : lookaside) (l : List (dispatch_input Req Addr)) :
    Decidable (dispatch_valid s l) :=
  dispatch_valid_dec s l

/-- No two entries of the expiration queue carry the same request bytes. -/
def no_dup_req (s : lookaside) : Prop :=
  ∀ p ∈ s.expiration_queue, ∀ q ∈ s.expiration_queue,
    (s.mem p).req_packet = (s.mem q).req_packet → p = q

/-- The packet `"AAAA"` dispatched twice, then `"BBBB"`, then `"AAAA"` again;
the processor answers `"ok"` each time. -/
def steps_A_A_B_A : List (dispatch_input Unit Unit) :=
  [{ collab := collab_tgs 0 (some reply_ok), pkt := req_A, src := (), copy_ok := true,
     ienv := env_ok 1000 1 },
   { collab := collab_tgs 0 (some reply_ok), pkt := req_A, src := (), copy_ok := true,
     ienv := env_ok 1001 1 },
   { collab := collab_tgs 0 (some reply_ok), pkt := req_B, src := (), copy_ok := true,
     ienv := env_ok 1002 2 },
   { collab := collab_tgs 0 (some reply_ok), pkt := req_A, src := (), copy_ok := true,
     ienv := env_ok 1003 3 }]

/-! ## The authenticated request builder (mk_req_ext.c) -/

/-- Modelled from the spec: the request option "use existing session key",
the flag bit `AP_OPTS_USE_SESSION_KEY` of `ap_req_options`. -/
def AP_OPTS_USE_SESSION_KEY : Nat := 0x40000000

/-- Modelled from the spec: the value `ETYPE_UNKNOWN` of a key block's
encryption type, meaning "use the default of the key type". -/
def ETYPE_UNKNOWN : Nat := 0x1FF

/-- Modelled from the spec: the "no ticket supplied" error code, a non-zero
constant of the krb5 error table (base -1765328384, entry 143). -/
def KRB5_NO_TKT_SUPPLIED : Int := -1765328241

/-- Modelled from the spec: the "unsupported encryption type" error code
(krb5 error table, entry 150). -/
def KRB5_PROG_ETYPE_NOSUPP : Int := -1765328234

/-- Modelled from the spec: the "unsupported key type" error code (krb5 error
table, entry 151). -/
def KRB5_PROG_KEYTYPE_NOSUPP : Int := -1765328233

/-- The system error code `ENOMEM`. -/
def ENOMEM : Int := 12

/-- A `krb5_keyblock`: key type, encryption type and key bytes. -/
structure krb5_keyblock where
  keytype : Nat
  etype : Nat
  contents : krb5_data
  deriving DecidableEq

/-- The fields of `krb5_creds` the function reads: the client principal and
the authorization data (pointers), the session key and the ticket bytes. -/
structure krb5_creds where
  client : Nat
  keyblock : krb5_keyblock
  ticket : krb5_data
  authdata : Nat
  deriving DecidableEq

/-- A `krb5_authenticator`; `client`, `checksum` and `authorization_data` are
pointers (0 for NULL), `subkey` the key block it points to, if any. -/
structure krb5_authenticator where
  client : Nat
  checksum : Nat
  subkey : Option krb5_keyblock
  seq_number : Int
  authorization_data : Nat
  ctime : Int
  cusec : Int
  deriving DecidableEq

/-- A `krb5_enc_data`: encryption type, key version number and ciphertext
(`ciphertext.length` is the length of the list). -/
structure krb5_enc_data where
  etype : Nat
  kvno : Nat
  ciphertext : krb5_data
  deriving DecidableEq

/-- A `krb5_ap_req` whose decoded ticket has type `T`. -/
structure krb5_ap_req (T : Type) where
  ap_options : Nat
  ticket : T
  authenticator : krb5_enc_data

/-- The collaborators of `krb5_mk_req_extended` and what the allocator answers:
each function gives the return code and the value written through the output
argument.  `proto_enctype` stands for
`krb5_keytype_array[keytype]->system->proto_enctype`; `realloc_ok`/`malloc_ok`
tell whether the call returns non-NULL, `realloc_residue`/`malloc_residue` the
indeterminate bytes of newly allocated memory. -/
structure mk_req_collab (T : Type) where
  krb5_get_credentials : Nat → Nat → krb5_creds → Int × krb5_creds
  valid_keytype : Nat → Bool
  valid_etype : Nat → Bool
  proto_enctype : Nat → Nat
  decode_krb5_ticket : krb5_data → Int × T
  krb5_generate_subkey : krb5_keyblock → Int × krb5_keyblock
  krb5_copy_keyblock : krb5_keyblock → Int
  krb5_us_timeofday : Int × Int × Int
  encode_krb5_authenticator : krb5_authenticator → Int × krb5_data
  krb5_encrypt_size : Nat → Nat → Nat
  realloc_ok : Bool
  realloc_residue : Nat → UInt8
  malloc_ok : Bool
  malloc_residue : Nat → UInt8
  krb5_process_key : Nat → krb5_keyblock → Int
  krb5_encrypt : krb5_data → Nat → Nat → krb5_keyblock → Int × krb5_data
  krb5_finish_key : Nat → Int
  encode_krb5_ap_req : krb5_ap_req T → Int × krb5_data

/-- The calls `krb5_mk_req_extended` makes, in order.  `encode_authenticator`
records the encoded bytes (`none` on failure), `realloc` and `malloc` the
requested size, `encrypt` the plaintext buffer, the size argument and the
capacity of the ciphertext buffer.  `free_scratch` is `cleanup_scratch`,
`free_encpart` is `cleanup_encpart`. -/
inductive mk_req_call where
  | get_credentials
  | decode_ticket
  | generate_subkey
  | copy_keyblock
  | us_timeofday
  | encode_authenticator (out : Option krb5_data)
  | free_authenticator_contents
  | use_cstype
  | realloc (size : Nat)
  | malloc (size : Nat)
  | process_key
  | encrypt (inbuf : krb5_data) (size : Nat) (capacity : Nat)
  | finish_key
  | encode_ap_req
  | xfree_toutbuf
  | free_ticket
  | free_keyblock
  | free_scratch
  | xfree_scratch
  | free_encpart
  deriving DecidableEq

/-- Outcome of one call: the return value, the credentials afterwards, the
values stored through `newkey`, `authentp` and `outbuf` (`none` when nothing
was stored) and the calls made. -/
structure mk_req_result where
  retval : Int
  creds : krb5_creds
  newkey : Option krb5_keyblock
  authentp : Option krb5_authenticator
  outbuf : Option krb5_data
  trace : List mk_req_call

/-- The block `realloc` returns for the new size `m`: the old bytes, then
indeterminate bytes. -/
def realloc_bytes (old : krb5_data) (m : Nat) (residue : Nat → UInt8) : krb5_data :=
  (List.range m).map (fun i => if i < old.length then old.getD i 0 else residue i)

/-- The effect of `memset(buf + start, 0, len)` on the bytes of the buffer. -/
def memset_zero (buf : krb5_data) (start len : Nat) : krb5_data :=
  (List.range buf.length).map (fun i => if start ≤ i ∧ i < start + len then 0 else buf.getD i 0)

/-- A buffer of `m` bytes after `out` was written at its start. -/
def write_bytes (m : Nat) (old : Nat → UInt8) (out : krb5_data) : krb5_data :=
  (List.range m).map (fun i => out.getD i (old i))

/-- The macro `cleanup_key`: `if (newkey) krb5_free_keyblock(*newkey)`. -/
def cleanup_key (newkey : Bool) : List mk_req_call :=
  if newkey then [.free_keyblock] else []

/-- The selection of the encryption type: the key block's own, or the default
of its key type when it is `ETYPE_UNKNOWN`. -/
def select_etype {T : Type} (c : mk_req_collab T) (kb : krb5_keyblock) : Nat :=
  if kb.etype = ETYPE_UNKNOWN then c.proto_enctype kb.keytype else kb.etype

/-- The static function `krb5_generate_authenticator`: return code, the
authenticator as filled in, and the calls made.  When the key copy fails the
remaining fields are left unassigned (shown as 0). -/
def krb5_generate_authenticator {T : Type} (c : mk_req_collab T) (client cksum : Nat)
    (key : Option krb5_keyblock) (seq_number : Int) (authorization : Nat) :
    Int × krb5_authenticator × List mk_req_call :=
  match key with
  | some k =>
    if c.krb5_copy_keyblock k ≠ 0 then
      (c.krb5_copy_keyblock k,
       { client := client, checksum := cksum, subkey := none, seq_number := 0,
         authorization_data := 0, ctime := 0, cusec := 0 }, [.copy_keyblock])
    else
      (c.krb5_us_timeofday.1,
       { client := client, checksum := cksum, subkey := some k, seq_number := seq_number,
         authorization_data := authorization, ctime := c.krb5_us_timeofday.2.1,
         cusec := c.krb5_us_timeofday.2.2 }, [.copy_keyblock, .us_timeofday])
  | none =>
    (c.krb5_us_timeofday.1,
     { client := client, checksum := cksum, subkey := none, seq_number := seq_number,
       authorization_data := authorization, ctime := c.krb5_us_timeofday.2.1,
       cusec := c.krb5_us_timeofday.2.2 }, [.us_timeofday])

/-- The part of `krb5_mk_req_extended` from `krb5_use_cstype` on: pad the
encoded authenticator `scratch`, encrypt it and encode the request.  `key` is
the value of `*newkey`, `aout` the value stored through `authentp`, `tr` the
calls made so far. -/
def mk_req_encrypt {T : Type} (c : mk_req_collab T) (ap_req_options : Nat) (newkey : Bool)
    (creds : krb5_creds) (etype : Nat) (ticket : T) (key : Option krb5_keyblock)
    (aout : Option krb5_authenticator) (scratch : krb5_data) (tr : List mk_req_call) :
    mk_req_result :=
  let m := c.krb5_encrypt_size scratch.length etype
  if !c.realloc_ok then
    { retval := ENOMEM, creds := creds, newkey := key, authentp := aout, outbuf := none,
      trace := tr ++ [.use_cstype, .realloc m, .xfree_scratch] ++ cleanup_key newkey
        ++ [.free_ticket] }
  else
    let plain := memset_zero (realloc_bytes scratch m c.realloc_residue) scratch.length
      (m - scratch.length)
    if !c.malloc_ok then
      { retval := ENOMEM, creds := creds, newkey := key, authentp := aout, outbuf := none,
        trace := tr ++ [.use_cstype, .realloc m, .malloc m, .free_scratch]
          ++ cleanup_key newkey ++ [.free_ticket] }
    else if c.krb5_process_key etype creds.keyblock ≠ 0 then
      { retval := c.krb5_process_key etype creds.keyblock, creds := creds, newkey := key,
        authentp := aout, outbuf := none,
        trace := tr ++ [.use_cstype, .realloc m, .malloc m, .process_key, .free_encpart,
          .free_scratch] ++ cleanup_key newkey ++ [.free_ticket] }
    else if (c.krb5_encrypt plain scratch.length etype creds.keyblock).1 ≠ 0 then
      { retval := (c.krb5_encrypt plain scratch.length etype creds.keyblock).1,
        creds := creds, newkey := key, authentp := aout, outbuf := none,
        trace := tr ++ [.use_cstype, .realloc m, .malloc m, .process_key,
          .encrypt plain scratch.length m, .finish_key, .free_encpart, .free_scratch]
          ++ cleanup_key newkey ++ [.free_ticket] }
    else
      let cipher := write_bytes m c.malloc_residue
        (c.krb5_encrypt plain scratch.length etype creds.keyblock).2
      if c.krb5_finish_key etype ≠ 0 then
        { retval := c.krb5_finish_key etype, creds := creds, newkey := key,
          authentp := aout, outbuf := none,
          trace := tr ++ [.use_cstype, .realloc m, .malloc m, .process_key,
            .encrypt plain scratch.length m, .free_scratch, .finish_key, .free_encpart] }
      else
        let request : krb5_ap_req T :=
          { ap_options := ap_req_options, ticket := ticket,
            authenticator := { etype := etype, kvno := 0, ciphertext := cipher } }
        if (c.encode_krb5_ap_req request).1 = 0 then
          { retval := (c.encode_krb5_ap_req request).1, creds := creds, newkey := key,
            authentp := aout, outbuf := some (c.encode_krb5_ap_req request).2,
            trace := tr ++ [.use_cstype, .realloc m, .malloc m, .process_key,
              .encrypt plain scratch.length m, .free_scratch, .finish_key, .encode_ap_req,
              .xfree_toutbuf, .free_ticket, .free_encpart] }
        else
          { retval := (c.encode_krb5_ap_req request).1, creds := creds, newkey := key,
            authentp := aout, outbuf := none,
            trace := tr ++ [.use_cstype, .realloc m, .malloc m, .process_key,
              .encrypt plain scratch.length m, .free_scratch, .finish_key, .encode_ap_req,
              .free_ticket, .free_encpart] }

/-- The part of `krb5_mk_req_extended` after the subkey step: generate and
encode the authenticator, hand it out or release it, then encrypt. -/
def mk_req_authent {T : Type} (c : mk_req_collab T) (ap_req_options checksum : Nat)
    (sequence : Int) (newkey : Bool) (creds : krb5_creds) (authentp : Bool) (etype : Nat)
    (ticket : T) (key : Option krb5_keyblock) (tr : List mk_req_call) : mk_req_result :=
  let a := krb5_generate_authenticator c creds.client checksum key sequence creds.authdata
  if a.1 ≠ 0 then
    { retval := a.1, creds := creds, newkey := key, authentp := none, outbuf := none,
      trace := tr ++ a.2.2 ++ cleanup_key newkey ++ [.free_ticket] }
  else if (c.encode_krb5_authenticator a.2.1).1 ≠ 0 then
    { retval := (c.encode_krb5_authenticator a.2.1).1, creds := creds, newkey := key,
      authentp := none, outbuf := none,
      trace := tr ++ a.2.2 ++ [.encode_authenticator none] ++ cleanup_key newkey
        ++ [.free_ticket] }
  else
    let authent : krb5_authenticator :=
      { a.2.1 with client := 0, checksum := 0, authorization_data := 0 }
    let scratch := (c.encode_krb5_authenticator a.2.1).2
    if authentp then
      mk_req_encrypt c ap_req_options newkey creds etype ticket key (some authent) scratch
        (tr ++ a.2.2 ++ [.encode_authenticator (some scratch)])
    else
      mk_req_encrypt c ap_req_options newkey creds etype ticket key none scratch
        (tr ++ a.2.2 ++ [.encode_authenticator (some scratch), .free_authenticator_contents])

/-- The part of `krb5_mk_req_extended` once the credentials hold ticket bytes
or were fetched: validate key type and encryption type, decode the ticket,
generate the subkey when `newkey` is given. -/
def mk_req_with_creds {T : Type} (c : mk_req_collab T) (ap_req_options checksum : Nat)
    (sequence : Int) (newkey : Bool) (creds : krb5_creds) (authentp : Bool)
    (tr : List mk_req_call) : mk_req_result :=
  if !c.valid_keytype creds.keyblock.keytype then
    { retval := KRB5_PROG_KEYTYPE_NOSUPP, creds := creds, newkey := none, authentp := none,
      outbuf := none, trace := tr }
  else if !c.valid_etype (select_etype c creds.keyblock) then
    { retval := KRB5_PROG_ETYPE_NOSUPP, creds := creds, newkey := none, authentp := none,
      outbuf := none, trace := tr }
  else if (c.decode_krb5_ticket creds.ticket).1 ≠ 0 then
    { retval := (c.decode_krb5_ticket creds.ticket).1, creds := creds, newkey := none,
      authentp := none, outbuf := none, trace := tr ++ [.decode_ticket] }
  else if newkey then
    if (c.krb5_generate_subkey creds.keyblock).1 ≠ 0 then
      { retval := (c.krb5_generate_subkey creds.keyblock).1, creds := creds, newkey := none,
        authentp := none, outbuf := none,
        trace := tr ++ [.decode_ticket, .generate_subkey, .free_ticket] }
    else
      mk_req_authent c ap_req_options checksum sequence newkey creds authentp
        (select_etype c creds.keyblock) (c.decode_krb5_ticket creds.ticket).2
        (some (c.krb5_generate_subkey creds.keyblock).2)
        (tr ++ [.decode_ticket, .generate_subkey])
  else
    mk_req_authent c ap_req_options checksum sequence newkey creds authentp
      (select_etype c creds.keyblock) (c.decode_krb5_ticket creds.ticket).2 none
      (tr ++ [.decode_ticket])

/-- The function `krb5_mk_req_extended`.  `newkey` and `authentp` tell whether
the pointer arguments of that name are non-NULL; `checksum` and `ccache` are
pointers, passed on as they are. -/
def krb5_mk_req_extended {T : Type} (c : mk_req_collab T) (ap_req_options checksum : Nat)
    (kdc_options : Nat) (sequence : Int) (newkey : Bool) (ccache : Nat) (creds : krb5_creds)
    (authentp : Bool) : mk_req_result :=
  if (ap_req_options &&& AP_OPTS_USE_SESSION_KEY) ≠ 0 ∧ creds.ticket.length = 0 then
    { retval := KRB5_NO_TKT_SUPPLIED, creds := creds, newkey := none, authentp := none,
      outbuf := none, trace := [] }
  else if creds.ticket.length = 0 then
    if (c.krb5_get_credentials kdc_options ccache creds).1 ≠ 0 then
      { retval := (c.krb5_get_credentials kdc_options ccache creds).1,
        creds := (c.krb5_get_credentials kdc_options ccache creds).2, newkey := none,
        authentp := none, outbuf := none, trace := [.get_credentials] }
    else
      mk_req_with_creds c ap_req_options checksum sequence newkey
        (c.krb5_get_credentials kdc_options ccache creds).2 authentp [.get_credentials]
  else
    mk_req_with_creds c ap_req_options checksum sequence newkey creds authentp []

/-- The credentials the validation and the pipeline work on: the caller's, or
those `krb5_get_credentials` returned when the ticket was empty. -/
def creds_in_use {T : Type} (c : mk_req_collab T) (kdc_options ccache : Nat)
    (creds : krb5_creds) : krb5_creds :=
  if creds.ticket.length = 0 then (c.krb5_get_credentials kdc_options ccache creds).2
  else creds

/-- The calls made before the validation: the credential fetch, if any. -/
def calls_before_validation (creds : krb5_creds) : List mk_req_call :=
  if creds.ticket.length = 0 then [.get_credentials] else []

/-- Sample collaborators: every key type and encryption type below 32 is
valid, the ticket decodes to its bytes, the subkey is the session key, the
authenticator encodes to five bytes, the encryption size rounds up to a
multiple of 8 and the cipher is the reversed plaintext; `fk` is the return
code of `krb5_finish_key`. -/
def collab_sample (fk : Int) : mk_req_collab krb5_data :=
  { krb5_get_credentials := fun _ _ cr => (0, { cr with ticket := [1, 2, 3] })
    valid_keytype := fun k => decide (k < 32)
    valid_etype := fun e => decide (e < 32)
    proto_enctype := fun k => k
    decode_krb5_ticket := fun d => (0, d)
    krb5_generate_subkey := fun k => (0, k)
    krb5_copy_keyblock := fun _ => 0
    krb5_us_timeofday := (0, 1000, 5)
    encode_krb5_authenticator := fun _ => (0, [10, 11, 12, 13, 14])
    krb5_encrypt_size := fun n _ => (n + 8) / 8 * 8
    realloc_ok := true
    realloc_residue := fun _ => 255
    malloc_ok := true
    malloc_residue := fun _ => 255
    krb5_process_key := fun _ _ => 0
    krb5_encrypt := fun p _ _ _ => (0, p.reverse)
    krb5_finish_key := fun _ => fk
    encode_krb5_ap_req := fun r => (0, r.ticket ++ r.authenticator.ciphertext) }

/-- Sample credentials with a supplied ticket. -/
def creds_sample : krb5_creds :=
  { client := 100, keyblock := { keytype := 1, etype := 1, contents := [9, 9] },
    ticket := [7, 7, 7], authdata := 0 }

/-- Sample credentials with an empty ticket. -/
def creds_no_ticket : krb5_creds :=
  { client := 100, keyblock := { keytype := 1, etype := 1, contents := [9, 9] },
    ticket := [], authdata := 0 }

/-- The calls that carry pipeline data: a successful authenticator encoding,
the two allocations of the padded length, and the encryption. -/
def carries_data : mk_req_call → Bool
  | .encode_authenticator (some _) => true
  | .realloc _ => true
  | .malloc _ => true
  | .encrypt _ _ _ => true
  | _ => false

/-- The buffer handed to `krb5_encrypt` for the encoded authenticator
`scratch` and the padded length `m`: the block returned by `realloc`, with
the tail from `scratch->length` on zeroed by `memset`. -/
def padded_plaintext {T : Type} (c : mk_req_collab T) (scratch : krb5_data) (m : Nat) :
    krb5_data :=
  memset_zero (realloc_bytes scratch m c.realloc_residue) scratch.length (m - scratch.length)

/-- The data-carrying calls of the encryption part for the encoded
authenticator `scratch`: `realloc`, then `malloc`, then `krb5_encrypt`, as far
as the call gets. -/
def encrypt_data_calls {T : Type} (c : mk_req_collab T) (etype : Nat) (scratch : krb5_data)
    (l : List mk_req_call) : Prop :=
  l = [.realloc (c.krb5_encrypt_size scratch.length etype)] ∨
  l = [.realloc (c.krb5_encrypt_size scratch.length etype),
       .malloc (c.krb5_encrypt_size scratch.length etype)] ∨
  l = [.realloc (c.krb5_encrypt_size scratch.length etype),
       .malloc (c.krb5_encrypt_size scratch.length etype),
       .encrypt (padded_plaintext c scratch (c.krb5_encrypt_size scratch.length etype))
         scratch.length (c.krb5_encrypt_size scratch.length etype)]

/-- Sample collaborators with a key-type table: the default encryption type of
key type 1 is 3 (valid), that of every other key type is 40 (not valid); the
request encoder writes the options, the encryption type and the key version
number in front of the ticket and the ciphertext. -/
def collab_table : mk_req_collab krb5_data :=
  { collab_sample 0 with
    proto_enctype := fun k => if k = 1 then 3 else 40
    encode_krb5_ap_req := fun r =>
      (0, [UInt8.ofNat r.ap_options, UInt8.ofNat r.authenticator.etype,
           UInt8.ofNat r.authenticator.kvno] ++ r.ticket ++ r.authenticator.ciphertext) }

/-- Sample credentials whose encryption type is `ETYPE_UNKNOWN`, with key
type 1. -/
def creds_unknown_etype : krb5_creds :=
  { client := 100, keyblock := { keytype := 1, etype := ETYPE_UNKNOWN, contents := [9, 9] },
    ticket := [7, 7, 7], authdata := 0 }

theorem or_eq_xor_of_lt (c a k : Nat) (ha : a < 2 ^ k) : (c <<< k) ||| a = (c <<< k) ^^^ a := by
  apply Nat.eq_of_testBit_eq
  intro i
  simp only [Nat.testBit_or, Nat.testBit_xor, Nat.testBit_shiftLeft]
  by_cases hi : k ≤ i
  · have : a.testBit i = false :=
      Nat.testBit_eq_false_of_lt (lt_of_lt_of_le ha (Nat.pow_le_pow_right (by decide) hi))
    simp [this]
  · simp [hi]

theorem byte_lt (b : UInt8) : b.toNat < 2 ^ 8 := by
  have := b.val.isLt
  simpa [UInt8.toNat] using this

theorem tail_word2 (b0 b1 : UInt8) :
    (((0 ||| 0) ||| (b1.toNat <<< 8)) ||| b0.toNat) = (b1.toNat <<< 8) ^^^ b0.toNat := by
  have e1 : (b1.toNat <<< 8) ||| b0.toNat = (b1.toNat <<< 8) ^^^ b0.toNat :=
    or_eq_xor_of_lt _ _ 8 (byte_lt b0)
  rw [Nat.zero_or, Nat.zero_or, e1]

theorem data_eq_iff (a b : krb5_data) : data_eq a b = true ↔ a = b := by
  unfold data_eq
  constructor
  · intro h
    simp only [Bool.and_eq_true, beq_iff_eq] at h
    exact h.2
  · rintro rfl
    simp

theorem discard_entry_seed (s : lookaside) (e : Nat) : (discard_entry s e).seed = s.seed := rfl

theorem discard_entry_mem (s : lookaside) (e : Nat) : (discard_entry s e).mem = s.mem := rfl

theorem discard_entry_queue (s : lookaside) (e : Nat) :
    (discard_entry s e).expiration_queue = s.expiration_queue.erase e := rfl

theorem discard_entry_bucket (s : lookaside) (e i : Nat) :
    (discard_entry s e).hash_table i = (s.hash_table i).erase e := rfl

theorem purge_seed (t : Int) (n : Nat) (q : List Nat) (s : lookaside) :
    (purge t n s q).seed = s.seed := by
  induction q generalizing s with
  | nil => rfl
  | cons e next ih =>
    unfold purge
    split
    · rfl
    · rw [ih]; rfl

theorem purge_mem (t : Int) (n : Nat) (q : List Nat) (s : lookaside) :
    (purge t n s q).mem = s.mem := by
  induction q generalizing s with
  | nil => rfl
  | cons e next ih =>
    unfold purge
    split
    · rfl
    · rw [ih]; rfl

theorem purge_num_entries (t : Int) (n : Nat) (q : List Nat) (s : lookaside) :
    (purge t n s q).num_entries = s.num_entries := by
  induction q generalizing s with
  | nil => rfl
  | cons e next ih =>
    unfold purge
    split
    · rfl
    · rw [ih]; rfl

theorem purge_hits_calls (t : Int) (n : Nat) (q : List Nat) (s : lookaside) :
    (purge t n s q).hits = s.hits ∧ (purge t n s q).calls = s.calls := by
  induction q generalizing s with
  | nil => exact ⟨rfl, rfl⟩
  | cons e next ih =>
    unfold purge
    split
    · exact ⟨rfl, rfl⟩
    · exact ih _

/-- The state an insert call produces when it creates the entry at `e`. -/
theorem kdc_insert_lookaside_of_creates (s : lookaside) (req : krb5_data)
    (reply : Option krb5_data) (env : insert_env) (t : Int) (e : Nat)
    (h : insert_creates reply env = some (t, e)) :
    kdc_insert_lookaside s req reply env =
      let s1 := purge t (entry_size req reply) s s.expiration_queue
      { s1 with
        mem := fun p => if p = e then
            { num_hits := 0, timein := t, req_packet := req, reply_packet := reply.getD [] }
          else s1.mem p
        expiration_queue := s1.expiration_queue ++ [e]
        hash_table := fun i => if i = murmurhash3 s.seed req then e :: s1.hash_table i
          else s1.hash_table i
        num_entries := s1.num_entries + 1
        total_size := (s1.total_size + entry_size req reply) % SIZE_MOD } := by
  unfold insert_creates at h
  unfold kdc_insert_lookaside
  cases ht : env.timeofday with
  | none => simp [ht] at h
  | some t0 =>
    cases hc : env.calloc with
    | none => simp [ht, hc] at h
    | some e0 =>
      simp only [ht, hc] at h ⊢
      by_cases h1 : (!env.copy_req) = true
      · simp [h1] at h
      · by_cases h2 : (reply.isSome && !env.copy_reply) = true
        · simp [h1, h2] at h
        · simp only [h1, h2, if_false, Bool.false_eq_true] at h ⊢
          simp only [Option.some.injEq, Prod.mk.injEq] at h
          obtain ⟨rfl, rfl⟩ := h
          rfl

/-- The state an insert call produces when it creates no entry: the clock
read failed and nothing happened, or the purge ran and an allocation failed. -/
theorem kdc_insert_lookaside_of_not_creates (s : lookaside) (req : krb5_data)
    (reply : Option krb5_data) (env : insert_env)
    (h : insert_creates reply env = none) :
    kdc_insert_lookaside s req reply env =
      match env.timeofday with
      | none => s
      | some t => purge t (entry_size req reply) s s.expiration_queue := by
  unfold insert_creates at h
  unfold kdc_insert_lookaside
  cases ht : env.timeofday with
  | none => rfl
  | some t0 =>
    cases hc : env.calloc with
    | none => rfl
    | some e0 =>
      simp only [ht, hc] at h ⊢
      by_cases h1 : (!env.copy_req) = true
      · simp [h1]
      · by_cases h2 : (reply.isSome && !env.copy_reply) = true
        · simp [h1, h2]
        · simp [h1, h2] at h

/-- C1 (as stated, refuted): the insert of `("AAAA", "ok")` into the empty
cache succeeds (clock read and all three allocations), and the lookup of
`"AAAA"` that follows immediately finds the entry and counts a hit, but its
own copy of the reply fails, so it returns false and no reply. -/
theorem check_after_insert_fails_when_copy_fails :
    insert_creates (some reply_ok) (env_ok 1001 2) = some (1001, 2) ∧
    (kdc_insert_lookaside cache0 req_A (some reply_ok) (env_ok 1001 2)).expiration_queue = [2] ∧
    ((kdc_insert_lookaside cache0 req_A (some reply_ok) (env_ok 1001 2)).mem 2).reply_packet
      = reply_ok ∧
    (kdc_check_lookaside (kdc_insert_lookaside cache0 req_A (some reply_ok) (env_ok 1001 2))
      req_A false).2 = (false, none) ∧
    (kdc_check_lookaside (kdc_insert_lookaside cache0 req_A (some reply_ok) (env_ok 1001 2))
      req_A false).1.hits = 1 := by
  decide

/-- C1 (amended): an insert of `(R, reply)` whose clock read and allocations
succeed, followed immediately by a lookup of `R` whose own copy of the reply
succeeds, returns true with exactly the inserted reply bytes, whatever the
cache held before (an older entry for `R`, or a new entry larger than
`LOOKASIDE_MAX_SIZE`); when the lookup's copy of the reply fails, it returns
false and no reply. -/
theorem insert_then_check_returns_reply (s : lookaside) (R reply : krb5_data)
    (env : insert_env) (t : Int) (e : Nat)
    (hclock : env.timeofday = some t) (halloc : env.calloc = some e)
    (hreq : env.copy_req = true) (hrep : env.copy_reply = true) :
    (kdc_check_lookaside (kdc_insert_lookaside s R (some reply) env) R true).2
      = (true, some reply) ∧
    (kdc_check_lookaside (kdc_insert_lookaside s R (some reply) env) R false).2
      = (false, none) := by
  have hc : insert_creates (some reply) env = some (t, e) := by
    simp [insert_creates, hclock, halloc, hreq, hrep]
  rw [kdc_insert_lookaside_of_creates s R (some reply) env t e hc]
  simp only [kdc_check_lookaside, find_entry, purge_seed]
  simp [data_eq_iff, krb5_copy_data]

theorem insert_then_check_returns_reply_witness :
    (kdc_check_lookaside (kdc_insert_lookaside cache_old_A req_A (some reply_ok) (env_ok 1001 2))
      req_A true).2 = (true, some reply_ok) ∧
    (kdc_check_lookaside (kdc_insert_lookaside cache_old_A req_A (some reply_ok) (env_ok 1001 2))
      req_B true).2 = (false, none) :=
  ⟨(insert_then_check_returns_reply cache_old_A req_A reply_ok (env_ok 1001 2) 1001 2
      rfl rfl rfl rfl).1,
   by decide⟩

/-! ## Lookups return inserted replies -/

theorem shrinks_refl (s : lookaside) : shrinks s s :=
  ⟨rfl, rfl, fun _ => List.Sublist.refl _, List.Sublist.refl _⟩

theorem shrinks_trans {s1 s2 s3 : lookaside} (h12 : shrinks s1 s2) (h23 : shrinks s2 s3) :
    shrinks s1 s3 :=
  ⟨h23.1.trans h12.1, h23.2.1.trans h12.2.1,
   fun i => (h23.2.2.1 i).trans (h12.2.2.1 i), h23.2.2.2.trans h12.2.2.2⟩

theorem shrinks_discard_entry (s : lookaside) (e : Nat) : shrinks s (discard_entry s e) :=
  ⟨rfl, rfl, fun _ => List.erase_sublist _ _, List.erase_sublist _ _⟩

theorem shrinks_purge (t : Int) (n : Nat) (q : List Nat) (s : lookaside) :
    shrinks s (purge t n s q) := by
  induction q generalizing s with
  | nil => exact shrinks_refl s
  | cons e next ih =>
    unfold purge
    split
    · exact shrinks_refl s
    · refine shrinks_trans ?_ (ih _)
      exact ⟨rfl, rfl, fun _ => List.erase_sublist _ _, List.erase_sublist _ _⟩

theorem shrinks_free_loop (q : List Nat) (s : lookaside) : shrinks s (free_loop s q) := by
  induction q generalizing s with
  | nil => exact shrinks_refl s
  | cons e next ih =>
    unfold free_loop
    exact shrinks_trans (shrinks_discard_entry s e) (ih _)

theorem shrinks_remove (s : lookaside) (R : krb5_data) : shrinks s (kdc_remove_lookaside s R) := by
  unfold kdc_remove_lookaside
  split
  · exact shrinks_discard_entry s _
  · exact shrinks_refl s

theorem logged_of_shrinks {L : List (krb5_data × krb5_data)} {s1 s2 : lookaside}
    (h : shrinks s1 s2) (hl : logged L s1) : logged L s2 := by
  intro i p hp
  rw [h.1]
  exact hl i p ((h.2.2.1 i).subset hp)

theorem logged_mono {L L2 : List (krb5_data × krb5_data)} {s : lookaside}
    (hsub : L ⊆ L2) (hl : logged L s) : logged L2 s :=
  fun i p hp => hsub (hl i p hp)

theorem check_hash_table (s : lookaside) (R : krb5_data) (ok : Bool) :
    (kdc_check_lookaside s R ok).1.hash_table = s.hash_table := by
  unfold kdc_check_lookaside
  simp only
  split
  · rfl
  · split <;> rfl

theorem check_queue (s : lookaside) (R : krb5_data) (ok : Bool) :
    (kdc_check_lookaside s R ok).1.expiration_queue = s.expiration_queue := by
  unfold kdc_check_lookaside
  simp only
  split
  · rfl
  · split <;> rfl

theorem check_seed (s : lookaside) (R : krb5_data) (ok : Bool) :
    (kdc_check_lookaside s R ok).1.seed = s.seed := by
  unfold kdc_check_lookaside
  simp only
  split
  · rfl
  · split <;> rfl

theorem check_total_size (s : lookaside) (R : krb5_data) (ok : Bool) :
    (kdc_check_lookaside s R ok).1.total_size = s.total_size := by
  unfold kdc_check_lookaside
  simp only
  split
  · rfl
  · split <;> rfl

/-- A lookup changes nothing in an entry but its hit counter. -/
theorem check_mem (s : lookaside) (R : krb5_data) (ok : Bool) (p : Nat) :
    ((kdc_check_lookaside s R ok).1.mem p).req_packet = (s.mem p).req_packet ∧
    ((kdc_check_lookaside s R ok).1.mem p).reply_packet = (s.mem p).reply_packet ∧
    ((kdc_check_lookaside s R ok).1.mem p).timein = (s.mem p).timein := by
  unfold kdc_check_lookaside
  simp only
  split
  · exact ⟨rfl, rfl, rfl⟩
  · rename_i e _
    by_cases hp : p = e
    · subst hp
      split <;> simp
    · split <;> simp [hp]

theorem logged_check {L : List (krb5_data × krb5_data)} {s : lookaside} (R : krb5_data)
    (ok : Bool) (hl : logged L s) : logged L (kdc_check_lookaside s R ok).1 := by
  intro i p hp
  rw [check_hash_table] at hp
  obtain ⟨h1, h2, _⟩ := check_mem s R ok p
  rw [h1, h2]
  exact hl i p hp

theorem logged_insert {L : List (krb5_data × krb5_data)} {s : lookaside} (req : krb5_data)
    (reply : Option krb5_data) (env : insert_env) (hl : logged L s) :
    logged (L ++ [(req, reply.getD [])]) (kdc_insert_lookaside s req reply env) := by
  cases hc : insert_creates reply env with
  | none =>
    rw [kdc_insert_lookaside_of_not_creates s req reply env hc]
    apply logged_mono (List.subset_append_left _ _)
    split
    · exact hl
    · exact logged_of_shrinks (shrinks_purge _ _ _ _) hl
  | some te =>
    obtain ⟨t, e⟩ := te
    rw [kdc_insert_lookaside_of_creates s req reply env t e hc]
    have hp := logged_of_shrinks (shrinks_purge t (entry_size req reply) s.expiration_queue s) hl
    intro i p hmem
    simp only at hmem ⊢
    by_cases hpe : p = e
    · simp [hpe]
    · simp only [hpe, if_false]
      apply List.mem_append_left
      apply hp i p
      split at hmem
      · exact (List.mem_cons.mp hmem).resolve_left hpe
      · exact hmem

theorem logged_apply_op {L : List (krb5_data × krb5_data)} {s : lookaside} (op : cache_op)
    (hl : logged L s) : logged (L ++ inserted_pairs [op]) (apply_op s op) := by
  cases op with
  | insert req reply env => exact logged_insert req reply env hl
  | check req ok =>
    simpa [inserted_pairs, apply_op] using logged_check req ok hl
  | remove req =>
    simpa [inserted_pairs, apply_op] using logged_of_shrinks (shrinks_remove s req) hl
  | free =>
    simpa [inserted_pairs, apply_op, kdc_free_lookaside] using
      logged_of_shrinks (shrinks_free_loop s.expiration_queue s) hl

theorem inserted_pairs_cons (op : cache_op) (ops : List cache_op) :
    inserted_pairs (op :: ops) = inserted_pairs [op] ++ inserted_pairs ops := by
  cases op <;> simp [inserted_pairs]

theorem logged_run_ops (ops : List cache_op) (L : List (krb5_data × krb5_data)) (s : lookaside)
    (hl : logged L s) : logged (L ++ inserted_pairs ops) (run_ops s ops) := by
  induction ops generalizing L s with
  | nil => simpa [inserted_pairs, run_ops] using hl
  | cons op rest ih =>
    rw [inserted_pairs_cons, ← List.append_assoc]
    exact ih _ _ (logged_apply_op op hl)

theorem logged_empty_cache (random : Int × Nat) : logged [] (empty_cache random) := by
  intro i p hp
  simp [empty_cache, kdc_init_lookaside] at hp

theorem mem_inserted_pairs {ops : List cache_op} {R r : krb5_data}
    (h : (R, r) ∈ inserted_pairs ops) :
    ∃ reply env, cache_op.insert R reply env ∈ ops ∧ reply.getD [] = r := by
  induction ops with
  | nil => simp [inserted_pairs] at h
  | cons op rest ih =>
    cases op with
    | insert req reply env =>
      simp only [inserted_pairs, List.mem_cons, Prod.mk.injEq] at h
      rcases h with ⟨rfl, rfl⟩ | h
      · exact ⟨reply, env, List.mem_cons_self _ _, rfl⟩
      · obtain ⟨reply2, env2, hm, hr⟩ := ih h
        exact ⟨reply2, env2, List.mem_cons_of_mem _ hm, hr⟩
    | check req ok =>
      obtain ⟨reply2, env2, hm, hr⟩ := ih (by simpa [inserted_pairs] using h)
      exact ⟨reply2, env2, List.mem_cons_of_mem _ hm, hr⟩
    | remove req =>
      obtain ⟨reply2, env2, hm, hr⟩ := ih (by simpa [inserted_pairs] using h)
      exact ⟨reply2, env2, List.mem_cons_of_mem _ hm, hr⟩
    | free =>
      obtain ⟨reply2, env2, hm, hr⟩ := ih (by simpa [inserted_pairs] using h)
      exact ⟨reply2, env2, List.mem_cons_of_mem _ hm, hr⟩

/-- What a successful lookup returns: the reply bytes of the first entry of
bucket `hash(R)` whose request bytes equal `R`. -/
theorem check_true_inv (s : lookaside) (R : krb5_data) (ok : Bool) (r : krb5_data)
    (h : (kdc_check_lookaside s R ok).2 = (true, some r)) :
    ∃ e, find_entry s R = some e ∧ e ∈ s.hash_table (murmurhash3 s.seed R) ∧
      (s.mem e).req_packet = R ∧ (s.mem e).reply_packet = r := by
  unfold kdc_check_lookaside at h
  simp only at h
  have hfe : find_entry { s with calls := s.calls + 1 } R = find_entry s R := rfl
  rw [hfe] at h
  cases hf : find_entry s R with
  | none => simp [hf] at h
  | some e =>
    simp only [hf] at h
    have hfind := hf
    unfold find_entry at hfind
    simp only at hfind
    refine ⟨e, rfl, List.mem_of_find?_eq_some hfind, ?_, ?_⟩
    · have := List.find?_some hfind
      exact (data_eq_iff _ _).mp this
    · cases ok with
      | false => simp [krb5_copy_data] at h
      | true => simpa [krb5_copy_data] using h

/-- C2: in every state reached from the empty cache by insert, check, remove
and free calls, a lookup of `R` that returns a reply `r` returns the stored
reply of an entry whose request bytes are exactly `R` (found in bucket
`hash(R)`), and that (request, reply) pair was put there by an earlier insert
call for `R`. -/
theorem check_returns_reply_inserted_for_same_request (random : Int × Nat)
    (ops : List cache_op) (R : krb5_data) (alloc_ok : Bool) (r : krb5_data)
    (h : (kdc_check_lookaside (run_ops (empty_cache random) ops) R alloc_ok).2
      = (true, some r)) :
    (∃ e, find_entry (run_ops (empty_cache random) ops) R = some e ∧
      ((run_ops (empty_cache random) ops).mem e).req_packet = R ∧
      ((run_ops (empty_cache random) ops).mem e).reply_packet = r) ∧
    (∃ reply env, cache_op.insert R reply env ∈ ops ∧ reply.getD [] = r) := by
  obtain ⟨e, hf, hmem, hreq, hrep⟩ := check_true_inv _ R alloc_ok r h
  refine ⟨⟨e, hf, hreq, hrep⟩, ?_⟩
  have hl := logged_run_ops ops [] _ (logged_empty_cache random)
  have := hl _ e hmem
  rw [hreq, hrep, List.nil_append] at this
  exact mem_inserted_pairs this

theorem check_returns_reply_inserted_for_same_request_witness :
    murmurhash3 cache0.seed req_A = murmurhash3 cache0.seed req_K ∧
    (kdc_check_lookaside (run_ops (empty_cache (0, 7)) ops_collide) req_A true).2
      = (true, some reply_ok) ∧
    (∃ e, find_entry (run_ops (empty_cache (0, 7)) ops_collide) req_A = some e ∧
      ((run_ops (empty_cache (0, 7)) ops_collide).mem e).req_packet = req_A ∧
      ((run_ops (empty_cache (0, 7)) ops_collide).mem e).reply_packet = reply_ok) ∧
    (∃ reply env, cache_op.insert req_A reply env ∈ ops_collide ∧ reply.getD [] = reply_ok) :=
  ⟨by decide, by decide,
   check_returns_reply_inserted_for_same_request (0, 7) ops_collide req_A true reply_ok
     (by decide)⟩

/-! ## Effect of a lookup -/

theorem check_of_find_none (s : lookaside) (R : krb5_data) (ok : Bool)
    (h : find_entry s R = none) :
    kdc_check_lookaside s R ok = ({ s with calls := s.calls + 1 }, false, none) := by
  have hfe : find_entry { s with calls := s.calls + 1 } R = find_entry s R := rfl
  unfold kdc_check_lookaside
  simp only [hfe, h]

theorem check_of_find_some (s : lookaside) (R : krb5_data) (ok : Bool) (e : Nat)
    (h : find_entry s R = some e) :
    kdc_check_lookaside s R ok =
      (count_hit s e, ok, if ok then some (s.mem e).reply_packet else none) := by
  have hfe : find_entry { s with calls := s.calls + 1 } R = find_entry s R := rfl
  unfold kdc_check_lookaside
  simp only [hfe, h]
  cases ok <;> simp [krb5_copy_data, count_hit]

theorem check_frame (s : lookaside) (R : krb5_data) (ok : Bool) :
    (kdc_check_lookaside s R ok).1.hash_table = s.hash_table ∧
    (kdc_check_lookaside s R ok).1.expiration_queue = s.expiration_queue ∧
    (kdc_check_lookaside s R ok).1.total_size = s.total_size ∧
    (kdc_check_lookaside s R ok).1.num_entries = s.num_entries ∧
    (kdc_check_lookaside s R ok).1.max_hits_per_entry = s.max_hits_per_entry ∧
    (kdc_check_lookaside s R ok).1.seed = s.seed ∧
    (kdc_check_lookaside s R ok).1.calls = s.calls + 1 ∧
    (∀ p, ((kdc_check_lookaside s R ok).1.mem p).req_packet = (s.mem p).req_packet ∧
      ((kdc_check_lookaside s R ok).1.mem p).reply_packet = (s.mem p).reply_packet ∧
      ((kdc_check_lookaside s R ok).1.mem p).timein = (s.mem p).timein) := by
  refine ⟨check_hash_table s R ok, check_queue s R ok, check_total_size s R ok, ?_, ?_,
    check_seed s R ok, ?_, check_mem s R ok⟩
  · cases h : find_entry s R with
    | none => rw [check_of_find_none s R ok h]
    | some e => rw [check_of_find_some s R ok e h]; rfl
  · cases h : find_entry s R with
    | none => rw [check_of_find_none s R ok h]
    | some e => rw [check_of_find_some s R ok e h]; rfl
  · cases h : find_entry s R with
    | none => rw [check_of_find_none s R ok h]
    | some e => rw [check_of_find_some s R ok e h]; rfl

/-- C10 (as stated, refuted): with an entry for `"AAAA"` in the cache and the
reply copy failing, the lookup returns false (a miss for its caller) and yet
`hits` and the entry's `num_hits` have changed, not only `calls`. -/
theorem check_miss_changes_hit_counters :
    (kdc_check_lookaside cache_old_A req_A false).2 = (false, none) ∧
    (kdc_check_lookaside cache_old_A req_A false).1.hits = cache_old_A.hits + 1 ∧
    ((kdc_check_lookaside cache_old_A req_A false).1.mem 1).num_hits
      = (cache_old_A.mem 1).num_hits + 1 := by
  decide

/-- C10 (amended): a lookup never evicts or reorders: buckets, expiration
queue, request and reply bytes, timestamps, `total_size` and `num_entries` are
unchanged.  When no entry matches `R` the only change is `calls + 1` and the
call returns false.  When an entry matches, the changes are exactly
`calls + 1`, `hits + 1` and `num_hits + 1` on the matched entry, whether the
reply copy succeeds (true, with the stored reply) or fails (false). -/
theorem check_never_evicts (s : lookaside) (R : krb5_data) (alloc_ok : Bool) :
    ((kdc_check_lookaside s R alloc_ok).1.hash_table = s.hash_table ∧
     (kdc_check_lookaside s R alloc_ok).1.expiration_queue = s.expiration_queue ∧
     (kdc_check_lookaside s R alloc_ok).1.total_size = s.total_size ∧
     (kdc_check_lookaside s R alloc_ok).1.num_entries = s.num_entries ∧
     (∀ p, ((kdc_check_lookaside s R alloc_ok).1.mem p).req_packet = (s.mem p).req_packet ∧
       ((kdc_check_lookaside s R alloc_ok).1.mem p).reply_packet = (s.mem p).reply_packet ∧
       ((kdc_check_lookaside s R alloc_ok).1.mem p).timein = (s.mem p).timein)) ∧
    (find_entry s R = none →
      kdc_check_lookaside s R alloc_ok = ({ s with calls := s.calls + 1 }, false, none)) ∧
    (∀ e, find_entry s R = some e →
      kdc_check_lookaside s R alloc_ok =
        (count_hit s e, alloc_ok, if alloc_ok then some (s.mem e).reply_packet else none)) := by
  obtain ⟨h1, h2, h3, h4, _, _, _, h8⟩ := check_frame s R alloc_ok
  exact ⟨⟨h1, h2, h3, h4, h8⟩, check_of_find_none s R alloc_ok,
    fun e => check_of_find_some s R alloc_ok e⟩

theorem check_never_evicts_witness :
    find_entry cache_old_A req_A = some 1 ∧ find_entry cache_old_A req_B = none ∧
    kdc_check_lookaside cache_old_A req_B true
      = ({ cache_old_A with calls := cache_old_A.calls + 1 }, false, none) ∧
    kdc_check_lookaside cache_old_A req_A true
      = (count_hit cache_old_A 1, true,
          if true then some (cache_old_A.mem 1).reply_packet else none) :=
  ⟨by decide, by decide,
   (check_never_evicts cache_old_A req_B true).2.1 (by decide),
   (check_never_evicts cache_old_A req_A true).2.2 1 (by decide)⟩

/-! ## The dispatcher -/

theorem dispatch_of_hit {Req Addr : Type} (c : collaborators Req Addr) (s : lookaside)
    (pkt : krb5_data) (src : Addr) (copy_ok : Bool) (ienv : insert_env)
    (h : (kdc_check_lookaside s pkt copy_ok).2.1 = true) :
    dispatch c s pkt src copy_ok ienv =
      { retval := 0, response := (kdc_check_lookaside s pkt copy_ok).2.2,
        cache := (kdc_check_lookaside s pkt copy_ok).1, trace := [.check_lookaside] } := by
  unfold dispatch
  simp only [h, if_true]

theorem dispatch_of_miss_ok {Req Addr : Type} (c : collaborators Req Addr) (s : lookaside)
    (pkt : krb5_data) (src : Addr) (copy_ok : Bool) (ienv : insert_env)
    (h : (kdc_check_lookaside s pkt copy_ok).2.1 = false)
    (hp : (dispatch_process c pkt src).1 = 0) :
    dispatch c s pkt src copy_ok ienv =
      { retval := 0, response := (dispatch_process c pkt src).2.1,
        cache := kdc_insert_lookaside (kdc_check_lookaside s pkt copy_ok).1 pkt
          (dispatch_process c pkt src).2.1 ienv,
        trace := .check_lookaside ::
          ((dispatch_process c pkt src).2.2 ++ [.insert_lookaside]) } := by
  unfold dispatch
  simp only [h, hp, if_true, Bool.false_eq_true, if_false]

theorem dispatch_of_miss_err {Req Addr : Type} (c : collaborators Req Addr) (s : lookaside)
    (pkt : krb5_data) (src : Addr) (copy_ok : Bool) (ienv : insert_env)
    (h : (kdc_check_lookaside s pkt copy_ok).2.1 = false)
    (hp : (dispatch_process c pkt src).1 ≠ 0) :
    dispatch c s pkt src copy_ok ienv =
      { retval := (dispatch_process c pkt src).1, response := (dispatch_process c pkt src).2.1,
        cache := (kdc_check_lookaside s pkt copy_ok).1,
        trace := .check_lookaside :: (dispatch_process c pkt src).2.2 } := by
  unfold dispatch
  simp only [h, hp, Bool.false_eq_true, if_false]

/-- A failing `dispatch` stopped after the lookup: its cache is the one the
lookup left, and the lookup returned false. -/
theorem dispatch_error_cache {Req Addr : Type} (c : collaborators Req Addr) (s : lookaside)
    (pkt : krb5_data) (src : Addr) (copy_ok : Bool) (ienv : insert_env)
    (h : (dispatch c s pkt src copy_ok ienv).retval ≠ 0) :
    (kdc_check_lookaside s pkt copy_ok).2.1 = false ∧
    (dispatch c s pkt src copy_ok ienv).cache = (kdc_check_lookaside s pkt copy_ok).1 ∧
    (dispatch c s pkt src copy_ok ienv).trace
      = .check_lookaside :: (dispatch_process c pkt src).2.2 := by
  cases hh : (kdc_check_lookaside s pkt copy_ok).2.1 with
  | true =>
    rw [dispatch_of_hit c s pkt src copy_ok ienv hh] at h
    exact absurd rfl h
  | false =>
    by_cases hp : (dispatch_process c pkt src).1 = 0
    · rw [dispatch_of_miss_ok c s pkt src copy_ok ienv hh hp] at h
      exact absurd rfl h
    · rw [dispatch_of_miss_err c s pkt src copy_ok ienv hh hp]
      exact ⟨rfl, rfl, rfl⟩

theorem dispatch_process_trace_no_insert {Req Addr : Type} (c : collaborators Req Addr)
    (pkt : krb5_data) (src : Addr) :
    dispatch_call.insert_lookaside ∉ (dispatch_process c pkt src).2.2 := by
  unfold dispatch_process
  simp only
  split
  · split <;> simp
  · split
    · split <;> simp
    · split <;> simp

/-- C4 (as stated, refuted): `"AAAA"` is in the cache, the lookup's reply copy
fails, and the processor then fails with code 12: `dispatch` returns non-zero
and the global `hits` counter and the entry's `num_hits` have changed too. -/
theorem dispatch_error_changes_hit_counters :
    (dispatch (collab_tgs 12 none) cache_dispatched_A req_A () false (env_ok 1001 2)).retval
      = 12 ∧
    (dispatch (collab_tgs 12 none) cache_dispatched_A req_A () false (env_ok 1001 2)).cache.hits
      = cache_dispatched_A.hits + 1 ∧
    ((dispatch (collab_tgs 12 none) cache_dispatched_A req_A () false
        (env_ok 1001 2)).cache.mem 1).num_hits
      = (cache_dispatched_A.mem 1).num_hits + 1 := by
  decide

/-- C4 (amended): whenever `dispatch` returns a non-zero code, no insert was
made and the cache holds the same buckets and expiration queue, the same
request bytes, reply bytes and timestamps, the same `total_size` and
`num_entries`; `calls` went up by one.  When the cache has no entry for the
packet nothing else changed.  When it has one (its reply copy failed, so the
lookup returned false), `hits` and that entry's `num_hits` went up by one as
well.  A packet that is neither TGS nor AS (and no `KRB4` build) that misses
the cache yields `KRB5KRB_AP_ERR_MSG_TYPE`. -/
theorem dispatch_error_not_cached {Req Addr : Type} (c : collaborators Req Addr)
    (s : lookaside) (pkt : krb5_data) (src : Addr) (copy_ok : Bool) (ienv : insert_env)
    (h : (dispatch c s pkt src copy_ok ienv).retval ≠ 0) :
    ((dispatch c s pkt src copy_ok ienv).cache.hash_table = s.hash_table ∧
     (dispatch c s pkt src copy_ok ienv).cache.expiration_queue = s.expiration_queue ∧
     (dispatch c s pkt src copy_ok ienv).cache.total_size = s.total_size ∧
     (dispatch c s pkt src copy_ok ienv).cache.num_entries = s.num_entries ∧
     (dispatch c s pkt src copy_ok ienv).cache.calls = s.calls + 1 ∧
     (∀ p, ((dispatch c s pkt src copy_ok ienv).cache.mem p).req_packet
          = (s.mem p).req_packet ∧
        ((dispatch c s pkt src copy_ok ienv).cache.mem p).reply_packet
          = (s.mem p).reply_packet ∧
        ((dispatch c s pkt src copy_ok ienv).cache.mem p).timein = (s.mem p).timein)) ∧
    dispatch_call.insert_lookaside ∉ (dispatch c s pkt src copy_ok ienv).trace ∧
    (find_entry s pkt = none →
      (dispatch c s pkt src copy_ok ienv).cache = { s with calls := s.calls + 1 }) ∧
    (∀ e, find_entry s pkt = some e →
      copy_ok = false ∧ (dispatch c s pkt src copy_ok ienv).cache = count_hit s e) ∧
    (c.krb5_is_tgs_req pkt = false → c.krb5_is_as_req pkt = false → c.KRB4 = false →
      (dispatch c s pkt src copy_ok ienv).retval = KRB5KRB_AP_ERR_MSG_TYPE) := by
  obtain ⟨hmiss, hcache, htrace⟩ := dispatch_error_cache c s pkt src copy_ok ienv h
  obtain ⟨h1, h2, h3, h4, _, _, h7, h8⟩ := check_frame s pkt copy_ok
  refine ⟨?_, ?_, ?_, ?_, ?_⟩
  · rw [hcache]
    exact ⟨h1, h2, h3, h4, h7, h8⟩
  · rw [htrace]
    intro hm
    rcases List.mem_cons.mp hm with hm | hm
    · cases hm
    · exact dispatch_process_trace_no_insert c pkt src hm
  · intro hf
    rw [hcache, check_of_find_none s pkt copy_ok hf]
  · intro e hf
    rw [check_of_find_some s pkt copy_ok e hf] at hmiss
    rw [hcache, check_of_find_some s pkt copy_ok e hf]
    exact ⟨hmiss, rfl⟩
  · intro ht ha hk
    have hp : (dispatch_process c pkt src).1 = KRB5KRB_AP_ERR_MSG_TYPE := by
      unfold dispatch_process
      simp [ht, ha, hk]
    have hne : (dispatch_process c pkt src).1 ≠ 0 := by
      rw [hp]; decide
    rw [dispatch_of_miss_err c s pkt src copy_ok ienv hmiss hne]
    exact hp

theorem dispatch_error_not_cached_witness :
    (dispatch (collab_tgs 12 none) cache_dispatched_A req_B () true (env_ok 1001 2)).retval
      ≠ 0 ∧
    (dispatch (collab_tgs 12 none) cache_dispatched_A req_B () true (env_ok 1001 2)).cache
      = { cache_dispatched_A with calls := cache_dispatched_A.calls + 1 } ∧
    (dispatch (collab_tgs 12 none) cache_dispatched_A req_A () false (env_ok 1001 2)).cache
      = count_hit cache_dispatched_A 1 :=
  ⟨by decide,
   (dispatch_error_not_cached (collab_tgs 12 none) cache_dispatched_A req_B () true
      (env_ok 1001 2) (by decide)).2.2.1 (by decide),
   ((dispatch_error_not_cached (collab_tgs 12 none) cache_dispatched_A req_A () false
      (env_ok 1001 2) (by decide)).2.2.2.1 1 (by decide)).2⟩

/-- After an insert that created the entry at `e` for request `R`, the search
for `R` stops at `e`, the head of its bucket. -/
theorem find_entry_after_insert (s : lookaside) (R : krb5_data) (reply : Option krb5_data)
    (env : insert_env) (t : Int) (e : Nat) (hc : insert_creates reply env = some (t, e)) :
    find_entry (kdc_insert_lookaside s R reply env) R = some e ∧
    ((kdc_insert_lookaside s R reply env).mem e).reply_packet = reply.getD [] := by
  rw [kdc_insert_lookaside_of_creates s R reply env t e hc]
  simp only [find_entry, purge_seed]
  simp [data_eq_iff]

/-- C3 (as stated, refuted): `"AAAA"` missed the empty cache, was processed
with reply `"ok"` and inserted; in the next `dispatch` of the same packet the
lookup's reply copy fails, so the packet is classified, decoded and processed
again and inserted a second time. -/
theorem dispatch_replay_reprocesses_when_copy_fails :
    (kdc_check_lookaside cache0 req_A true).2.1 = false ∧
    (dispatch_process (collab_tgs 0 (some reply_ok)) req_A ()).1 = 0 ∧
    (dispatch_process (collab_tgs 0 (some reply_ok)) req_A ()).2.1 = some reply_ok ∧
    cache_dispatched_A.expiration_queue = [1] ∧
    (dispatch (collab_tgs 0 (some reply_ok)) cache_dispatched_A req_A () false
        (env_ok 1001 2)).trace
      = [.check_lookaside, .is_tgs_req, .decode_tgs_req, .process_tgs_req, .free_kdc_req,
          .insert_lookaside] ∧
    (dispatch (collab_tgs 0 (some reply_ok)) cache_dispatched_A req_A () false
        (env_ok 1001 2)).cache.expiration_queue = [1, 2] := by
  decide

/-- C3 (amended): if `dispatch(P)` misses the cache, its processor succeeds
with reply `r`, and the insert's clock read and allocations succeed, then the
next `dispatch(P)` whose lookup copies the reply successfully returns 0 with a
reply equal to `r`, whatever the collaborators and the clock would answer: it
makes no call but the lookup, and its cache is the one the lookup left (same
queue, no insert). -/
theorem dispatch_replays_cached_reply {Req Addr : Type} (c c2 : collaborators Req Addr)
    (s : lookaside) (P r : krb5_data) (src src2 : Addr) (copy_ok : Bool)
    (ienv ienv2 : insert_env) (t : Int) (e : Nat)
    (hmiss : (kdc_check_lookaside s P copy_ok).2.1 = false)
    (hret : (dispatch_process c P src).1 = 0)
    (hreply : (dispatch_process c P src).2.1 = some r)
    (hclock : ienv.timeofday = some t) (halloc : ienv.calloc = some e)
    (hreq : ienv.copy_req = true) (hrep : ienv.copy_reply = true) :
    (dispatch c s P src copy_ok ienv).retval = 0 ∧
    (dispatch c s P src copy_ok ienv).response = some r ∧
    (dispatch c2 (dispatch c s P src copy_ok ienv).cache P src2 true ienv2).retval = 0 ∧
    (dispatch c2 (dispatch c s P src copy_ok ienv).cache P src2 true ienv2).response
      = some r ∧
    (dispatch c2 (dispatch c s P src copy_ok ienv).cache P src2 true ienv2).trace
      = [.check_lookaside] ∧
    (dispatch c2 (dispatch c s P src copy_ok ienv).cache P src2 true ienv2).cache
      = count_hit (dispatch c s P src copy_ok ienv).cache e ∧
    (dispatch c2 (dispatch c s P src copy_ok ienv).cache P src2 true ienv2).cache.expiration_queue
      = (dispatch c s P src copy_ok ienv).cache.expiration_queue := by
  have hc : insert_creates (some r) ienv = some (t, e) := by
    simp [insert_creates, hclock, halloc, hreq, hrep]
  have hd1 := dispatch_of_miss_ok c s P src copy_ok ienv hmiss hret
  rw [hreply] at hd1
  obtain ⟨hfind, hrp⟩ :=
    find_entry_after_insert (kdc_check_lookaside s P copy_ok).1 P (some r) ienv t e hc
  have hchk := check_of_find_some _ P true e hfind
  have hhit : (kdc_check_lookaside (dispatch c s P src copy_ok ienv).cache P true).2.1
      = true := by
    rw [hd1, hchk]
  have hd2 := dispatch_of_hit c2 (dispatch c s P src copy_ok ienv).cache P src2 true ienv2 hhit
  rw [hd2]
  refine ⟨by rw [hd1], by rw [hd1], rfl, ?_, rfl, ?_, ?_⟩
  · show (kdc_check_lookaside (dispatch c s P src copy_ok ienv).cache P true).2.2 = some r
    rw [hd1, hchk]
    simp [hrp]
  · show (kdc_check_lookaside (dispatch c s P src copy_ok ienv).cache P true).1 = _
    rw [hd1, hchk]
  · show (kdc_check_lookaside (dispatch c s P src copy_ok ienv).cache P true).1.expiration_queue
      = _
    exact check_queue _ _ _

theorem dispatch_replays_cached_reply_witness :
    (dispatch (collab_tgs 0 (some reply_ok)) cache0 req_A () true (env_ok 1000 1)).retval = 0 ∧
    (dispatch (collab_tgs 12 none)
      (dispatch (collab_tgs 0 (some reply_ok)) cache0 req_A () true (env_ok 1000 1)).cache
      req_A () true (env_ok 5 2)).response = some reply_ok ∧
    (dispatch (collab_tgs 12 none)
      (dispatch (collab_tgs 0 (some reply_ok)) cache0 req_A () true (env_ok 1000 1)).cache
      req_A () true (env_ok 5 2)).trace = [.check_lookaside] :=
  ⟨(dispatch_replays_cached_reply (collab_tgs 0 (some reply_ok)) (collab_tgs 12 none) cache0
      req_A reply_ok () () true (env_ok 1000 1) (env_ok 5 2) 1000 1
      (by decide) (by decide) (by decide) rfl rfl rfl rfl).1,
   (dispatch_replays_cached_reply (collab_tgs 0 (some reply_ok)) (collab_tgs 12 none) cache0
      req_A reply_ok () () true (env_ok 1000 1) (env_ok 5 2) 1000 1
      (by decide) (by decide) (by decide) rfl rfl rfl rfl).2.2.2.1,
   (dispatch_replays_cached_reply (collab_tgs 0 (some reply_ok)) (collab_tgs 12 none) cache0
      req_A reply_ok () () true (env_ok 1000 1) (env_ok 5 2) 1000 1
      (by decide) (by decide) (by decide) rfl rfl rfl rfl).2.2.2.2.1⟩

/-! ## Failed inserts -/

/-- The purge removes entries from the old end of the queue only: what is left
is a suffix of the queue. -/
theorem purge_queue_suffix (t : Int) (n : Nat) (q : List Nat) (s : lookaside)
    (hq : s.expiration_queue = q) :
    (purge t n s q).expiration_queue <:+ q := by
  induction q generalizing s with
  | nil => simp [purge, hq]
  | cons e next ih =>
    unfold purge
    split
    · rw [hq]
    · have hnext : (discard_entry (note_max_hits s e) e).expiration_queue = next := by
        simp [discard_entry, note_max_hits, hq]
      exact (ih _ hnext).trans (List.suffix_cons e next)

/-- The purge evicts nothing when the queue is empty or its oldest entry is
neither stale nor in the way of the size limit. -/
theorem purge_nothing (t : Int) (n : Nat) (s : lookaside)
    (h : ∀ e, s.expiration_queue.head? = some e →
      STALE (s.mem e).timein t = false ∧ (s.total_size + n) % SIZE_MOD ≤ LOOKASIDE_MAX_SIZE) :
    purge t n s s.expiration_queue = s := by
  cases hq : s.expiration_queue with
  | nil => rfl
  | cons e next =>
    obtain ⟨h1, h2⟩ := h e (by simp [hq])
    unfold purge
    simp [h1, h2]

theorem insert_creates_none_of_alloc_fails (reply : Option krb5_data) (env : insert_env)
    (h : env.calloc = none ∨ env.copy_req = false ∨
      (reply.isSome = true ∧ env.copy_reply = false)) :
    insert_creates reply env = none := by
  unfold insert_creates
  cases ht : env.timeofday with
  | none => rfl
  | some t =>
    cases hc : env.calloc with
    | none => rfl
    | some e =>
      rcases h with h | h | ⟨h1, h2⟩
      · rw [hc] at h; cases h
      · simp [h]
      · simp [h1, h2]

/-- C8 (as stated, refuted): the cache holds one entry inserted at time 1000;
an insert at time 2000 whose `calloc` fails still runs the purge first, so the
stale entry is evicted and `total_size` drops from 78 to 0. -/
theorem failed_insert_still_purges :
    cache_old_A.expiration_queue = [1] ∧ cache_old_A.total_size = 78 ∧
    (kdc_insert_lookaside cache_old_A req_B (some reply_ok)
      { timeofday := some 2000, calloc := none, copy_req := true, copy_reply := true }
      ).expiration_queue = [] ∧
    (kdc_insert_lookaside cache_old_A req_B (some reply_ok)
      { timeofday := some 2000, calloc := none, copy_req := true, copy_reply := true }
      ).total_size = 0 := by
  decide

/-- C8 (amended): an insert call in which an allocation fails (the entry, the
request copy or the reply copy) adds no entry and reports nothing: the state
it leaves is exactly the state after the purge that precedes the allocation.
The expiration queue is a suffix of the old queue, every bucket a sublist of
the old bucket, the heap, `num_entries`, `hits` and `calls` are unchanged; and
when the purge has nothing to evict (empty queue, or oldest entry neither
stale nor in the way of the size limit) the whole state is unchanged. -/
theorem failed_insert_adds_no_entry (s : lookaside) (req : krb5_data)
    (reply : Option krb5_data) (env : insert_env) (t : Int)
    (hclock : env.timeofday = some t)
    (hfail : env.calloc = none ∨ env.copy_req = false ∨
      (reply.isSome = true ∧ env.copy_reply = false)) :
    kdc_insert_lookaside s req reply env
      = purge t (entry_size req reply) s s.expiration_queue ∧
    (kdc_insert_lookaside s req reply env).expiration_queue <:+ s.expiration_queue ∧
    (∀ i, ((kdc_insert_lookaside s req reply env).hash_table i).Sublist (s.hash_table i)) ∧
    (kdc_insert_lookaside s req reply env).mem = s.mem ∧
    (kdc_insert_lookaside s req reply env).num_entries = s.num_entries ∧
    (kdc_insert_lookaside s req reply env).hits = s.hits ∧
    (kdc_insert_lookaside s req reply env).calls = s.calls ∧
    ((∀ e, s.expiration_queue.head? = some e →
        STALE (s.mem e).timein t = false ∧
        (s.total_size + entry_size req reply) % SIZE_MOD ≤ LOOKASIDE_MAX_SIZE) →
      kdc_insert_lookaside s req reply env = s) := by
  have hnone := insert_creates_none_of_alloc_fails reply env hfail
  have heq : kdc_insert_lookaside s req reply env
      = purge t (entry_size req reply) s s.expiration_queue := by
    rw [kdc_insert_lookaside_of_not_creates s req reply env hnone, hclock]
  have hsh := shrinks_purge t (entry_size req reply) s.expiration_queue s
  rw [heq]
  refine ⟨rfl, purge_queue_suffix _ _ _ s rfl, hsh.2.2.1, hsh.1, purge_num_entries _ _ _ _,
    (purge_hits_calls _ _ _ _).1, (purge_hits_calls _ _ _ _).2, ?_⟩
  intro h
  exact purge_nothing t _ s h

theorem failed_insert_adds_no_entry_witness :
    kdc_insert_lookaside cache_old_A req_B (some reply_ok)
      { timeofday := some 1001, calloc := some 2, copy_req := true, copy_reply := false }
      = cache_old_A :=
  (failed_insert_adds_no_entry cache_old_A req_B (some reply_ok)
    { timeofday := some 1001, calloc := some 2, copy_req := true, copy_reply := false } 1001
    rfl (Or.inr (Or.inr ⟨rfl, rfl⟩))).2.2.2.2.2.2.2 (by decide)

/-! ## The size accounting invariant -/

theorem sum_map_erase (f : Nat → Nat) (q : List Nat) (e : Nat) (he : e ∈ q) :
    (q.map f).sum = f e + ((q.erase e).map f).sum := by
  induction q with
  | nil => cases he
  | cons a rest ih =>
    by_cases hae : a = e
    · subst hae
      simp
    · have hmem : e ∈ rest := by
        rcases List.mem_cons.mp he with h | h
        · exact absurd h.symm hae
        · exact h
      rw [List.erase_cons_tail (by simpa using hae)]
      simp only [List.map_cons, List.sum_cons]
      rw [ih hmem]
      omega

theorem footprint_lt (s : lookaside) (p : Nat)
    (h : (s.mem p).req_packet.length < 2 ^ 32 ∧ (s.mem p).reply_packet.length < 2 ^ 32) :
    footprint s p < 2 ^ 34 := by
  unfold footprint sizeof_entry
  omega

theorem queue_footprint_le_of_length_le_one (s : lookaside)
    (hl : ∀ p ∈ s.expiration_queue,
      (s.mem p).req_packet.length < 2 ^ 32 ∧ (s.mem p).reply_packet.length < 2 ^ 32)
    (h1 : s.expiration_queue.length ≤ 1) : queue_footprint s < 2 ^ 34 := by
  unfold queue_footprint
  match hq : s.expiration_queue with
  | [] => simp
  | [p] =>
    have := footprint_lt s p (hl p (by simp [hq]))
    simpa using this
  | a :: b :: rest => simp [hq] at h1

theorem cache_inv_total_lt {s : lookaside} (h : cache_inv s) : s.total_size < 2 ^ 34 := by
  rcases h.bound with hb | hb
  · have : LOOKASIDE_MAX_SIZE < 2 ^ 34 := by decide
    omega
  · rw [h.total]
    exact queue_footprint_le_of_length_le_one s h.lens hb

theorem entry_size_eq_footprint (s : lookaside) (p : Nat)
    (h : (s.mem p).req_packet.length < 2 ^ 32 ∧ (s.mem p).reply_packet.length < 2 ^ 32) :
    entry_size (s.mem p).req_packet (some (s.mem p).reply_packet) = footprint s p := by
  have := footprint_lt s p h
  unfold entry_size SIZE_MOD
  unfold footprint at this ⊢
  simp only
  exact Nat.mod_eq_of_lt (by omega)

/-- Discarding a queued entry keeps the cache well-formed and lowers
`total_size` by the entry's footprint. -/
theorem cache_inv_discard_entry {s : lookaside} (h : cache_inv s) (e : Nat)
    (he : e ∈ s.expiration_queue) :
    cache_inv (discard_entry s e) ∧
    (discard_entry s e).total_size + footprint s e = s.total_size := by
  have hfp := sum_map_erase (footprint s) s.expiration_queue e he
  have hlt := cache_inv_total_lt h
  have hes := entry_size_eq_footprint s e (h.lens e he)
  have htot : s.total_size = footprint s e +
      ((s.expiration_queue.erase e).map (footprint s)).sum := by
    rw [h.total]; exact hfp
  have hnew : (discard_entry s e).total_size
      = ((s.expiration_queue.erase e).map (footprint s)).sum := by
    show (s.total_size + SIZE_MOD -
      entry_size (s.mem e).req_packet (some (s.mem e).reply_packet)) % SIZE_MOD = _
    rw [hes]
    unfold SIZE_MOD
    have h2 : s.total_size + 2 ^ 64 - footprint s e
        = ((s.expiration_queue.erase e).map (footprint s)).sum + 2 ^ 64 := by omega
    rw [h2, Nat.add_mod_right]
    exact Nat.mod_eq_of_lt (by omega)
  refine ⟨⟨?_, ?_, ?_, ?_, ?_, ?_⟩, ?_⟩
  · exact h.nodup.erase e
  · intro i
    exact (h.bucket_nodup i).erase e
  · intro i p hp
    have hp' : p ∈ (s.hash_table i).erase e := hp
    have hne : p ≠ e := fun hpe => by
      rw [hpe] at hp'
      exact (List.Nodup.not_mem_erase (h.bucket_nodup i)) hp'
    have hq := h.bucket_sub i p (List.mem_of_mem_erase hp')
    exact (List.mem_erase_of_ne hne).mpr hq
  · rw [hnew]; rfl
  · intro p hp
    exact h.lens p (List.mem_of_mem_erase hp)
  · rcases h.bound with hb | hb
    · left; rw [hnew]; omega
    · right
      have : (s.expiration_queue.erase e).length ≤ s.expiration_queue.length :=
        (List.erase_sublist e s.expiration_queue).length_le
      exact le_trans this hb
  · rw [hnew]; omega

theorem cache_inv_note_max_hits {s : lookaside} (h : cache_inv s) (e : Nat) :
    cache_inv (note_max_hits s e) :=
  ⟨h.nodup, h.bucket_nodup, h.bucket_sub, h.total, h.lens, h.bound⟩

/-- The purge keeps the cache well-formed, never raises `total_size`, and
stops either with an empty queue or with room for the new entry. -/
theorem cache_inv_purge (t : Int) (n : Nat) (q : List Nat) (s : lookaside)
    (h : cache_inv s) (hq : s.expiration_queue = q) :
    cache_inv (purge t n s q) ∧ (purge t n s q).total_size ≤ s.total_size ∧
    ((purge t n s q).expiration_queue = [] ∨
      ((purge t n s q).total_size + n) % SIZE_MOD ≤ LOOKASIDE_MAX_SIZE) := by
  induction q generalizing s with
  | nil =>
    refine ⟨h, le_refl _, Or.inl ?_⟩
    simpa [purge] using hq
  | cons e next ih =>
    unfold purge
    split
    · rename_i hc
      refine ⟨h, le_refl _, Or.inr ?_⟩
      simp only [Bool.and_eq_true, decide_eq_true_eq] at hc
      exact hc.2
    · have hm := cache_inv_note_max_hits h e
      have he : e ∈ (note_max_hits s e).expiration_queue := by
        show e ∈ s.expiration_queue
        rw [hq]; exact List.mem_cons_self _ _
      obtain ⟨hd, hsz⟩ := cache_inv_discard_entry hm e he
      have hnext : (discard_entry (note_max_hits s e) e).expiration_queue = next := by
        simp [discard_entry, note_max_hits, hq]
      obtain ⟨i1, i2, i3⟩ := ih _ hd hnext
      refine ⟨i1, ?_, i3⟩
      have hts : (note_max_hits s e).total_size = s.total_size := rfl
      omega

theorem cache_inv_free_loop (q : List Nat) (s : lookaside)
    (h : cache_inv s) (hq : s.expiration_queue = q) :
    cache_inv (free_loop s q) ∧ (free_loop s q).total_size ≤ s.total_size ∧
    (free_loop s q).expiration_queue = [] := by
  induction q generalizing s with
  | nil => exact ⟨h, le_refl _, by simpa [free_loop] using hq⟩
  | cons e next ih =>
    unfold free_loop
    obtain ⟨hd, hsz⟩ := cache_inv_discard_entry h e (by rw [hq]; exact List.mem_cons_self _ _)
    have hnext : (discard_entry s e).expiration_queue = next := by
      simp [discard_entry, hq]
    obtain ⟨i1, i2, i3⟩ := ih _ hd hnext
    exact ⟨i1, le_trans i2 (by omega), i3⟩

theorem cache_inv_remove (s : lookaside) (R : krb5_data) (h : cache_inv s) :
    cache_inv (kdc_remove_lookaside s R) ∧
    (kdc_remove_lookaside s R).total_size ≤ s.total_size := by
  unfold kdc_remove_lookaside
  cases hf : find_entry s R with
  | none => exact ⟨h, le_refl _⟩
  | some e =>
    have hb : e ∈ s.hash_table (murmurhash3 s.seed R) := by
      unfold find_entry at hf
      exact List.mem_of_find?_eq_some hf
    obtain ⟨hd, hsz⟩ := cache_inv_discard_entry h e (h.bucket_sub _ e hb)
    exact ⟨hd, by simp only; omega⟩

theorem footprint_check (s : lookaside) (R : krb5_data) (ok : Bool) (p : Nat) :
    footprint (kdc_check_lookaside s R ok).1 p = footprint s p := by
  obtain ⟨h1, h2, _⟩ := check_mem s R ok p
  unfold footprint
  rw [h1, h2]

theorem cache_inv_check (s : lookaside) (R : krb5_data) (ok : Bool) (h : cache_inv s) :
    cache_inv (kdc_check_lookaside s R ok).1 := by
  have hq := check_queue s R ok
  have hb := check_hash_table s R ok
  have ht := check_total_size s R ok
  refine ⟨by rw [hq]; exact h.nodup, by rw [hb]; exact h.bucket_nodup,
    by rw [hb, hq]; exact h.bucket_sub, ?_, ?_, by rw [hq, ht]; exact h.bound⟩
  · rw [ht, h.total]
    unfold queue_footprint
    rw [hq]
    congr 1
    apply List.map_congr_left
    intro p _
    exact (footprint_check s R ok p).symm
  · intro p hp
    rw [hq] at hp
    obtain ⟨h1, h2, _⟩ := check_mem s R ok p
    rw [h1, h2]
    exact h.lens p hp

theorem insert_creates_some {reply : Option krb5_data} {env : insert_env} {t : Int} {e : Nat}
    (h : insert_creates reply env = some (t, e)) :
    env.timeofday = some t ∧ env.calloc = some e := by
  unfold insert_creates at h
  cases ht : env.timeofday with
  | none => simp [ht] at h
  | some t0 =>
    cases hc : env.calloc with
    | none => simp [ht, hc] at h
    | some e0 =>
      simp only [ht, hc] at h
      split at h
      · cases h
      · split at h
        · cases h
        · simp only [Option.some.injEq, Prod.mk.injEq] at h
          rw [h.1, h.2]
          exact ⟨rfl, rfl⟩

theorem entry_size_eq (req : krb5_data) (reply : Option krb5_data)
    (h1 : req.length < 2 ^ 32) (h2 : (reply.getD []).length < 2 ^ 32) :
    entry_size req reply = sizeof_entry + req.length + (reply.getD []).length := by
  unfold entry_size SIZE_MOD sizeof_entry
  cases reply with
  | none => simp; omega
  | some r =>
    simp only [Option.getD_some] at h2 ⊢
    exact Nat.mod_eq_of_lt (by omega)

/-- An insert that creates an entry keeps the cache well-formed; afterwards
`total_size` is within the limit or the new entry is alone in the queue. -/
theorem cache_inv_insert_creates (s : lookaside) (req : krb5_data) (reply : Option krb5_data)
    (env : insert_env) (t : Int) (e : Nat) (h : cache_inv s)
    (hv : insert_valid s req reply env) (hc : insert_creates reply env = some (t, e)) :
    cache_inv (kdc_insert_lookaside s req reply env) ∧
    ((kdc_insert_lookaside s req reply env).total_size ≤ LOOKASIDE_MAX_SIZE ∨
      ((kdc_insert_lookaside s req reply env).expiration_queue = [e] ∧
       (kdc_insert_lookaside s req reply env).total_size = entry_size req reply)) := by
  obtain ⟨hclock, halloc⟩ := insert_creates_some hc
  obtain ⟨hl1, hl2, _, hfr⟩ := hv
  have hfresh : e ∉ (purge t (entry_size req reply) s s.expiration_queue).expiration_queue := by
    simpa [queue_at_calloc, hclock, halloc, fresh_address] using hfr
  obtain ⟨inv1, _, hpost⟩ := cache_inv_purge t (entry_size req reply) s.expiration_queue s h rfl
  have hes := entry_size_eq req reply hl1 hl2
  have hlt1 := cache_inv_total_lt inv1
  rw [kdc_insert_lookaside_of_creates s req reply env t e hc]
  generalize hs1 : purge t (entry_size req reply) s s.expiration_queue = s1 at *
  have hfoot : ∀ p ∈ s1.expiration_queue,
      footprint { s1 with
        mem := fun p => if p = e then
            { num_hits := 0, timein := t, req_packet := req, reply_packet := reply.getD [] }
          else s1.mem p
        expiration_queue := s1.expiration_queue ++ [e]
        hash_table := fun i => if i = murmurhash3 s.seed req then e :: s1.hash_table i
          else s1.hash_table i
        num_entries := s1.num_entries + 1
        total_size := (s1.total_size + entry_size req reply) % SIZE_MOD } p
      = footprint s1 p := by
    intro p hp
    have hne : p ≠ e := fun hpe => hfresh (hpe ▸ hp)
    simp [footprint, hne]
  have hsum : (s1.total_size + entry_size req reply) % SIZE_MOD
      = s1.total_size + entry_size req reply := by
    unfold SIZE_MOD
    apply Nat.mod_eq_of_lt
    rw [hes]
    unfold sizeof_entry
    omega
  refine ⟨⟨?_, ?_, ?_, ?_, ?_, ?_⟩, ?_⟩
  · simp only
    rw [List.nodup_append]
    refine ⟨inv1.nodup, List.nodup_singleton e, ?_⟩
    intro a ha hb
    rw [List.mem_singleton] at hb
    exact hfresh (hb ▸ ha)
  · intro i
    simp only
    split
    · refine List.nodup_cons.mpr ⟨?_, inv1.bucket_nodup i⟩
      intro hmem
      exact hfresh (inv1.bucket_sub i e hmem)
    · exact inv1.bucket_nodup i
  · intro i p hp
    simp only at hp ⊢
    split at hp
    · rcases List.mem_cons.mp hp with hp | hp
      · rw [hp]; simp
      · exact List.mem_append_left _ (inv1.bucket_sub i p hp)
    · exact List.mem_append_left _ (inv1.bucket_sub i p hp)
  · show (s1.total_size + entry_size req reply) % SIZE_MOD = _
    rw [hsum]
    unfold queue_footprint
    simp only [List.map_append, List.sum_append, List.map_cons, List.map_nil, List.sum_cons,
      List.sum_nil, Nat.add_zero]
    rw [List.map_congr_left hfoot]
    have : (s1.expiration_queue.map (footprint s1)).sum = s1.total_size := inv1.total.symm
    rw [this, hes]
    simp [footprint]
  · intro p hp
    simp only at hp ⊢
    by_cases hpe : p = e
    · simp only [hpe, if_true]
      exact ⟨hl1, hl2⟩
    · simp only [hpe, if_false]
      rcases List.mem_append.mp hp with hp | hp
      · exact inv1.lens p hp
      · exact absurd (List.mem_singleton.mp hp) hpe
  · rcases hpost with hq | hq
    · right
      simp [hq]
    · left
      exact hq
  · rcases hpost with hq | hq
    · right
      have h0 : s1.total_size = 0 := by
        rw [inv1.total]
        simp [queue_footprint, hq]
      refine ⟨by simp [hq], ?_⟩
      show (s1.total_size + entry_size req reply) % SIZE_MOD = _
      rw [hsum, h0, Nat.zero_add]
    · left
      exact hq

/-- An insert that creates no entry keeps the cache well-formed and does not
raise `total_size`; if the clock was read, `total_size` ends within the limit. -/
theorem cache_inv_insert_not_creates (s : lookaside) (req : krb5_data)
    (reply : Option krb5_data) (env : insert_env) (h : cache_inv s)
    (hv : insert_valid s req reply env) (hc : insert_creates reply env = none) :
    cache_inv (kdc_insert_lookaside s req reply env) ∧
    (kdc_insert_lookaside s req reply env).total_size ≤ s.total_size ∧
    (∀ t, env.timeofday = some t →
      (kdc_insert_lookaside s req reply env).total_size ≤ LOOKASIDE_MAX_SIZE) := by
  rw [kdc_insert_lookaside_of_not_creates s req reply env hc]
  cases ht : env.timeofday with
  | none =>
    refine ⟨h, le_refl _, ?_⟩
    intro t h2
    cases h2
  | some t =>
    obtain ⟨inv1, hle, hpost⟩ :=
      cache_inv_purge t (entry_size req reply) s.expiration_queue s h rfl
    refine ⟨inv1, hle, ?_⟩
    intro t2 _
    simp only
    rcases inv1.bound with hb | hb
    · exact hb
    · rcases hpost with hq | hq
      · have h0 : (purge t (entry_size req reply) s s.expiration_queue).total_size = 0 := by
          rw [inv1.total]
          simp [queue_footprint, hq]
        rw [h0]
        exact Nat.zero_le _
      · have hlt := cache_inv_total_lt inv1
        have hes := entry_size_eq req reply hv.1 hv.2.1
        have hE : entry_size req reply < 2 ^ 34 := by
          rw [hes]
          unfold sizeof_entry
          have := hv.1
          have := hv.2.1
          omega
        unfold SIZE_MOD at hq
        rw [Nat.mod_eq_of_lt (by omega)] at hq
        omega

theorem cache_inv_empty_cache (random : Int × Nat) : cache_inv (empty_cache random) := by
  refine ⟨?_, ?_, ?_, ?_, ?_, ?_⟩ <;>
    simp [empty_cache, kdc_init_lookaside, static_init, queue_footprint]

theorem cache_inv_free (s : lookaside) (h : cache_inv s) :
    cache_inv (kdc_free_lookaside s) ∧ (kdc_free_lookaside s).total_size ≤ s.total_size :=
  ⟨(cache_inv_free_loop s.expiration_queue s h rfl).1,
   (cache_inv_free_loop s.expiration_queue s h rfl).2.1⟩

theorem cache_inv_apply_op (s : lookaside) (op : cache_op) (h : cache_inv s)
    (hv : op_valid s op) : cache_inv (apply_op s op) := by
  cases op with
  | insert req reply env =>
    cases hc : insert_creates reply env with
    | none => exact (cache_inv_insert_not_creates s req reply env h hv hc).1
    | some te => exact (cache_inv_insert_creates s req reply env te.1 te.2 h hv hc).1
  | check req ok => exact cache_inv_check s req ok h
  | remove req => exact (cache_inv_remove s req h).1
  | free => exact (cache_inv_free s h).1

theorem cache_inv_run_ops (ops : List cache_op) (s : lookaside) (h : cache_inv s)
    (hv : ops_valid s ops) : cache_inv (run_ops s ops) := by
  induction ops generalizing s with
  | nil => exact h
  | cons op rest ih => exact ih _ (cache_inv_apply_op s op h hv.1) hv.2

/-- C7: in every state reached from the initialised empty cache by insert
(successful or failing at any point), check, remove and free calls,
`total_size` equals the sum over the expiration queue of
`sizeof(struct entry)` + request length + reply length; an entry inserted with
no reply stores an empty reply, of length 0. -/
theorem total_size_is_sum_of_footprints (random : Int × Nat) (ops : List cache_op)
    (hv : ops_valid (empty_cache random) ops) :
    (run_ops (empty_cache random) ops).total_size =
      ((run_ops (empty_cache random) ops).expiration_queue.map (fun p =>
        sizeof_entry + ((run_ops (empty_cache random) ops).mem p).req_packet.length +
          ((run_ops (empty_cache random) ops).mem p).reply_packet.length)).sum ∧
    (∀ req env t e, insert_creates none env = some (t, e) →
      ((kdc_insert_lookaside (run_ops (empty_cache random) ops) req none env).mem
        e).reply_packet.length = 0) := by
  refine ⟨(cache_inv_run_ops ops _ (cache_inv_empty_cache random) hv).total, ?_⟩
  intro req env t e hc
  rw [(find_entry_after_insert _ req none env t e hc).2]
  rfl

theorem total_size_is_sum_of_footprints_witness :
    ops_valid (empty_cache (0, 7)) ops_mixed ∧
    (run_ops (empty_cache (0, 7)) ops_mixed).expiration_queue = [2, 1] ∧
    (run_ops (empty_cache (0, 7)) ops_mixed).total_size = 76 + 77 ∧
    (run_ops (empty_cache (0, 7)) ops_mixed).total_size =
      ((run_ops (empty_cache (0, 7)) ops_mixed).expiration_queue.map (fun p =>
        sizeof_entry + ((run_ops (empty_cache (0, 7)) ops_mixed).mem p).req_packet.length +
          ((run_ops (empty_cache (0, 7)) ops_mixed).mem p).reply_packet.length)).sum :=
  ⟨by decide, by decide, by decide,
   (total_size_is_sum_of_footprints (0, 7) ops_mixed (by decide)).1⟩

/-! ## The soft size bound -/

/-- Without 32-bit overflow, `STALE` compares the age with `STALE_TIME`. -/
theorem STALE_of_le (T now : Int) (h0 : 0 ≤ T) (h1 : T ≤ now) (h2 : now < 2 ^ 31) :
    STALE T now = decide (120 ≤ now - T) := by
  have hw : wrap32 (T - now) = T - now := by
    unfold wrap32
    rw [Int.emod_eq_of_lt (by omega) (by omega)]
    omega
  have ha : c_abs (T - now) = now - T := by
    unfold c_abs
    by_cases hlt : T - now < 0
    · rw [if_pos hlt]
      omega
    · rw [if_neg hlt]
      omega
  unfold STALE STALE_TIME
  rw [hw, ha]
  simp

theorem time_inv_of_shrinks {s1 s2 : lookaside} {F : List Int} (h : shrinks s1 s2)
    (ht : time_inv s1 F) : time_inv s2 F := by
  constructor
  · rw [h.1]
    exact ht.sorted.sublist (h.2.2.2.map _)
  · intro p hp
    rw [h.1]
    exact ht.range p (h.2.2.2.subset hp)

theorem time_inv_future_tail {s : lookaside} {t : Int} {F : List Int}
    (ht : time_inv s (t :: F)) : time_inv s F :=
  ⟨ht.sorted, fun p hp => ⟨(ht.range p hp).1, fun u hu =>
    (ht.range p hp).2 u (List.mem_cons_of_mem _ hu)⟩⟩

/-- With an ordered queue of timestamps not later than `now`, the purge at
`now` leaves no entry aged `STALE_TIME` or more. -/
theorem purge_leaves_no_stale (now : Int) (n : Nat) (q : List Nat) (s : lookaside)
    (hq : s.expiration_queue = q)
    (hs : (q.map (fun p => (s.mem p).timein)).Pairwise (· ≤ ·))
    (hr : ∀ p ∈ q, 0 ≤ (s.mem p).timein ∧ (s.mem p).timein ≤ now) (hnow : now < 2 ^ 31) :
    ∀ p ∈ (purge now n s q).expiration_queue, now - (s.mem p).timein < 120 := by
  induction q generalizing s with
  | nil =>
    intro p hp
    simp [purge, hq] at hp
  | cons e next ih =>
    unfold purge
    split
    · rename_i hc
      simp only [Bool.and_eq_true, Bool.not_eq_true', decide_eq_true_eq] at hc
      have hre := hr e (List.mem_cons_self _ _)
      rw [STALE_of_le _ now hre.1 hre.2 hnow] at hc
      have he : now - (s.mem e).timein < 120 := by
        have := hc.1
        simp only [decide_eq_false_iff_not, not_le] at this
        exact this
      intro p hp
      rw [hq] at hp
      rcases List.mem_cons.mp hp with hp | hp
      · rw [hp]; exact he
      · simp only [List.map_cons, List.pairwise_cons] at hs
        have hle : (s.mem e).timein ≤ (s.mem p).timein :=
          hs.1 _ (List.mem_map_of_mem (fun p => (s.mem p).timein) hp)
        omega
    · have hnext : (discard_entry (note_max_hits s e) e).expiration_queue = next := by
        simp [discard_entry, note_max_hits, hq]
      simp only [List.map_cons, List.pairwise_cons] at hs
      exact ih (discard_entry (note_max_hits s e) e) hnext hs.2
        (fun p hp => hr p (List.mem_cons_of_mem _ hp))

/-- After an insert call at `now` that read the clock, in a well-formed cache
whose queue is ordered with timestamps in `[0, now]`, every queued entry is
younger than `STALE_TIME`; the queue stays ordered for later readings. -/
theorem time_inv_insert (s : lookaside) (req : krb5_data) (reply : Option krb5_data)
    (env : insert_env) (now : Int) (F : List Int)
    (ht : time_inv s (now :: F)) (hv : insert_valid s req reply env)
    (hnow : env.timeofday = some now) (h0 : 0 ≤ now) (hF : ∀ t ∈ F, now ≤ t) :
    time_inv (kdc_insert_lookaside s req reply env) F ∧
    ∀ p ∈ (kdc_insert_lookaside s req reply env).expiration_queue,
      0 ≤ now - ((kdc_insert_lookaside s req reply env).mem p).timein ∧
      now - ((kdc_insert_lookaside s req reply env).mem p).timein < 120 := by
  have hrange : now < 2 ^ 31 := by
    have := hv.2.2.1
    rw [hnow] at this
    exact this.2
  have hsh := shrinks_purge now (entry_size req reply) s.expiration_queue s
  have ht1 := time_inv_of_shrinks hsh ht
  have hfresh1 := purge_leaves_no_stale now (entry_size req reply) s.expiration_queue s rfl
    ht.sorted (fun p hp => ⟨(ht.range p hp).1, (ht.range p hp).2 now (List.mem_cons_self _ _)⟩)
    hrange
  cases hc : insert_creates reply env with
  | none =>
    rw [kdc_insert_lookaside_of_not_creates s req reply env hc, hnow]
    refine ⟨time_inv_future_tail ht1, ?_⟩
    intro p hp
    simp only at hp ⊢
    rw [hsh.1]
    have := (ht.range p (hsh.2.2.2.subset hp)).2 now (List.mem_cons_self _ _)
    exact ⟨by omega, hfresh1 p hp⟩
  | some te =>
    obtain ⟨t, e⟩ := te
    obtain ⟨hclock, halloc⟩ := insert_creates_some hc
    rw [hnow] at hclock
    cases hclock
    have hfresh : e ∉ (purge now (entry_size req reply) s s.expiration_queue).expiration_queue := by
      simpa [queue_at_calloc, hnow, halloc, fresh_address] using hv.2.2.2
    rw [kdc_insert_lookaside_of_creates s req reply env now e hc]
    generalize hs1 : purge now (entry_size req reply) s s.expiration_queue = s1 at *
    have hmem : ∀ p ∈ s1.expiration_queue,
        (if p = e then
          ({ num_hits := 0, timein := now, req_packet := req, reply_packet := reply.getD [] }
            : entry)
        else s1.mem p) = s1.mem p := by
      intro p hp
      have hne : p ≠ e := fun hpe => hfresh (hpe ▸ hp)
      simp [hne]
    refine ⟨⟨?_, ?_⟩, ?_⟩
    · simp only [List.map_append, List.map_cons, List.map_nil, if_true]
      rw [List.pairwise_append]
      refine ⟨?_, List.pairwise_singleton _ _, ?_⟩
      · rw [List.map_congr_left (fun p hp => by rw [hmem p hp])]
        exact ht1.sorted
      · intro a ha b hb
        rw [List.mem_singleton] at hb
        obtain ⟨p, hp, rfl⟩ := List.mem_map.mp ha
        rw [hb, hmem p hp]
        exact (ht1.range p hp).2 now (List.mem_cons_self _ _)
    · intro p hp
      simp only at hp ⊢
      rcases List.mem_append.mp hp with hp | hp
      · rw [hmem p hp]
        exact ⟨(ht1.range p hp).1, fun u hu =>
          (ht1.range p hp).2 u (List.mem_cons_of_mem _ hu)⟩
      · rw [List.mem_singleton.mp hp]
        simp only [if_true]
        exact ⟨h0, hF⟩
    · intro p hp
      simp only at hp ⊢
      rcases List.mem_append.mp hp with hp | hp
      · rw [hmem p hp]
        have h1 := hfresh1 p hp
        rw [← hsh.1] at h1
        have h2 := (ht1.range p hp).2 now (List.mem_cons_self _ _)
        exact ⟨by omega, h1⟩
      · rw [List.mem_singleton.mp hp]
        simp

theorem clock_readings_cons (op : cache_op) (rest : List cache_op) :
    clock_readings (op :: rest) = clock_readings [op] ++ clock_readings rest := by
  cases op <;> simp [clock_readings]

theorem time_inv_check {s : lookaside} {F : List Int} (R : krb5_data) (ok : Bool)
    (ht : time_inv s F) : time_inv (kdc_check_lookaside s R ok).1 F := by
  have hq := check_queue s R ok
  have hm : ∀ p, ((kdc_check_lookaside s R ok).1.mem p).timein = (s.mem p).timein :=
    fun p => (check_mem s R ok p).2.2
  constructor
  · rw [hq, List.map_congr_left (fun p _ => hm p)]
    exact ht.sorted
  · intro p hp
    rw [hq] at hp
    rw [hm p]
    exact ht.range p hp

theorem time_inv_apply_op (s : lookaside) (op : cache_op) (F : List Int)
    (ht : time_inv s (clock_readings [op] ++ F)) (hv : op_valid s op)
    (hmono : (clock_readings [op] ++ F).Pairwise (· ≤ ·))
    (hpos : ∀ t ∈ clock_readings [op] ++ F, 0 ≤ t) : time_inv (apply_op s op) F := by
  cases op with
  | insert req reply env =>
    cases hclock : env.timeofday with
    | none =>
      have hs : kdc_insert_lookaside s req reply env = s := by
        unfold kdc_insert_lookaside
        simp [hclock]
      simp only [clock_readings, hclock, List.append_nil, List.nil_append] at ht
      simpa [apply_op, hs] using ht
    | some now =>
      simp only [clock_readings, hclock, List.append_nil, List.singleton_append] at ht hmono hpos
      exact (time_inv_insert s req reply env now F ht hv hclock
        (hpos now (List.mem_cons_self _ _)) (List.pairwise_cons.mp hmono).1).1
  | check req ok =>
    simp only [clock_readings, List.nil_append] at ht
    exact time_inv_check req ok ht
  | remove req =>
    simp only [clock_readings, List.nil_append] at ht
    exact time_inv_of_shrinks (shrinks_remove s req) ht
  | free =>
    simp only [clock_readings, List.nil_append] at ht
    exact time_inv_of_shrinks (shrinks_free_loop s.expiration_queue s) ht

theorem time_inv_run_ops (ops : List cache_op) (s : lookaside) (F : List Int)
    (ht : time_inv s (clock_readings ops ++ F)) (hv : ops_valid s ops)
    (hmono : (clock_readings ops ++ F).Pairwise (· ≤ ·))
    (hpos : ∀ t ∈ clock_readings ops ++ F, 0 ≤ t) : time_inv (run_ops s ops) F := by
  induction ops generalizing s with
  | nil => simpa [clock_readings, run_ops] using ht
  | cons op rest ih =>
    rw [clock_readings_cons, List.append_assoc] at ht hmono hpos
    have h1 := time_inv_apply_op s op (clock_readings rest ++ F) ht hv.1 hmono hpos
    exact ih (apply_op s op) h1 hv.2 (List.Pairwise.sublist (List.sublist_append_right _ _) hmono)
      (fun t h => hpos t (List.mem_append_right _ h))

theorem time_inv_empty_cache (random : Int × Nat) (F : List Int) :
    time_inv (empty_cache random) F := by
  constructor <;> simp [empty_cache, kdc_init_lookaside, static_init]

/-- C5 (as stated, refuted).  Clock moving backward: entries are inserted at
1000 and 1100, then an insert runs when the clock reads 900; the entry of 1100
has `|900 - 1100| >= 120` but the purge stops at the entry of 1000, which is
not stale, so the lookup of `"BBBB"` still returns it.  32-bit overflow: an
entry inserted at -2147483648 is not stale for an insert at 2147483647, because
the difference wraps to 1. -/
theorem stale_entry_survives_insert :
    ops_valid (empty_cache (0, 7)) ops_clock_back ∧
    (run_ops (empty_cache (0, 7)) ops_clock_back).expiration_queue = [1, 2, 3] ∧
    ((run_ops (empty_cache (0, 7)) ops_clock_back).mem 2).timein = 1100 ∧
    STALE_TIME ≤ |(900 : Int) - 1100| ∧
    (kdc_check_lookaside (run_ops (empty_cache (0, 7)) ops_clock_back) req_B true).2
      = (true, some reply_ok) ∧
    ops_valid (empty_cache (0, 7)) ops_clock_far ∧
    (run_ops (empty_cache (0, 7)) ops_clock_far).expiration_queue = [1, 2] ∧
    STALE (-2147483648) 2147483647 = false ∧
    STALE_TIME ≤ |(2147483647 : Int) - (-2147483648)| ∧
    (kdc_check_lookaside (run_ops (empty_cache (0, 7)) ops_clock_far) req_A true).2
      = (true, some reply_ok) := by
  decide

/-- C5 (amended): for every cache state reached from the empty cache by cache
calls whose clock readings are non-negative and non-decreasing, and every later
insert call that reads the clock at `now` (also non-negative and not earlier
than the previous readings): after that insert every entry left in the
expiration queue, in a bucket, or found by a lookup has `|now - timein| <
STALE_TIME`; so an entry inserted at a time `T` with `|now - T| >= STALE_TIME`
is no longer in the cache and no lookup returns it. -/
theorem stale_entries_evicted_by_insert (random : Int × Nat) (ops : List cache_op)
    (req : krb5_data) (reply : Option krb5_data) (env : insert_env) (now : Int)
    (hv : ops_valid (empty_cache random) ops)
    (hvi : insert_valid (run_ops (empty_cache random) ops) req reply env)
    (hnow : env.timeofday = some now)
    (hmono : (clock_readings ops ++ [now]).Pairwise (· ≤ ·))
    (hpos : ∀ t ∈ clock_readings ops ++ [now], 0 ≤ t) :
    (∀ p ∈ (kdc_insert_lookaside (run_ops (empty_cache random) ops) req reply
        env).expiration_queue,
      |now - ((kdc_insert_lookaside (run_ops (empty_cache random) ops) req reply env).mem
        p).timein| < STALE_TIME) ∧
    (∀ i, ∀ p ∈ (kdc_insert_lookaside (run_ops (empty_cache random) ops) req reply
        env).hash_table i,
      |now - ((kdc_insert_lookaside (run_ops (empty_cache random) ops) req reply env).mem
        p).timein| < STALE_TIME) ∧
    (∀ R e, find_entry (kdc_insert_lookaside (run_ops (empty_cache random) ops) req reply env)
        R = some e →
      |now - ((kdc_insert_lookaside (run_ops (empty_cache random) ops) req reply env).mem
        e).timein| < STALE_TIME) := by
  have hinv := cache_inv_run_ops ops _ (cache_inv_empty_cache random) hv
  have htime := time_inv_run_ops ops _ [now] (time_inv_empty_cache random _) hv hmono hpos
  have hins := (time_inv_insert _ req reply env now [] htime hvi hnow
    (hpos now (by simp)) (by simp)).2
  have hinv2 : cache_inv (kdc_insert_lookaside (run_ops (empty_cache random) ops) req reply
      env) := cache_inv_apply_op _ (.insert req reply env) hinv hvi
  have hq : ∀ p ∈ (kdc_insert_lookaside (run_ops (empty_cache random) ops) req reply
        env).expiration_queue,
      |now - ((kdc_insert_lookaside (run_ops (empty_cache random) ops) req reply env).mem
        p).timein| < STALE_TIME := by
    intro p hp
    obtain ⟨h1, h2⟩ := hins p hp
    rw [abs_of_nonneg h1]
    exact h2
  refine ⟨hq, fun i p hp => hq p (hinv2.bucket_sub i p hp), ?_⟩
  intro R e hf
  apply hq
  apply hinv2.bucket_sub _ e
  unfold find_entry at hf
  exact List.mem_of_find?_eq_some hf

theorem stale_entries_evicted_by_insert_witness :
    (kdc_insert_lookaside (run_ops (empty_cache (0, 7)) ops_scenario_B) [68]
      (some reply_ok) (env_ok 1123 4)).expiration_queue = [4] ∧
    (kdc_check_lookaside (kdc_insert_lookaside (run_ops (empty_cache (0, 7)) ops_scenario_B)
      [68] (some reply_ok) (env_ok 1123 4)) req_A true).2 = (false, none) ∧
    (kdc_check_lookaside (kdc_insert_lookaside (run_ops (empty_cache (0, 7)) ops_scenario_B)
      [68] (some reply_ok) (env_ok 1123 4)) [68] true).2 = (true, some reply_ok) ∧
    (∀ p ∈ (kdc_insert_lookaside (run_ops (empty_cache (0, 7)) ops_scenario_B) [68]
        (some reply_ok) (env_ok 1123 4)).expiration_queue,
      |1123 - ((kdc_insert_lookaside (run_ops (empty_cache (0, 7)) ops_scenario_B) [68]
        (some reply_ok) (env_ok 1123 4)).mem p).timein| < STALE_TIME) :=
  ⟨by decide, by decide, by decide,
   (stale_entries_evicted_by_insert (0, 7) ops_scenario_B [68] (some reply_ok)
      (env_ok 1123 4) 1123 (by decide) (by decide) rfl (by decide) (by decide)).1⟩

/-! ## Removal -/

theorem bucket_inv_discard_entry {s : lookaside} (h : bucket_inv s)
    (hn : s.expiration_queue.Nodup) (e : Nat) : bucket_inv (discard_entry s e) := by
  constructor
  · intro p hp
    have hp' : p ∈ s.expiration_queue.erase e := hp
    have hne : p ≠ e := fun hpe => by
      rw [hpe] at hp'
      exact (List.Nodup.not_mem_erase hn) hp'
    have := h.in_bucket p (List.mem_of_mem_erase hp')
    exact (List.mem_erase_of_ne hne).mpr this
  · intro i p hp
    have hp' : p ∈ (s.hash_table i).erase e := hp
    exact h.hash_ok i p (List.mem_of_mem_erase hp')

theorem bucket_inv_purge (t : Int) (n : Nat) (q : List Nat) (s : lookaside)
    (h : bucket_inv s) (hn : s.expiration_queue.Nodup) :
    bucket_inv (purge t n s q) := by
  induction q generalizing s with
  | nil => exact h
  | cons e next ih =>
    unfold purge
    split
    · exact h
    · have h1 : bucket_inv (note_max_hits s e) := ⟨h.in_bucket, h.hash_ok⟩
      have hn1 : (note_max_hits s e).expiration_queue.Nodup := hn
      exact ih _ (bucket_inv_discard_entry h1 hn1 e) (hn1.erase e)

theorem bucket_inv_free_loop (q : List Nat) (s : lookaside)
    (h : bucket_inv s) (hn : s.expiration_queue.Nodup) :
    bucket_inv (free_loop s q) := by
  induction q generalizing s with
  | nil => exact h
  | cons e next ih =>
    unfold free_loop
    exact ih _ (bucket_inv_discard_entry h hn e) (hn.erase e)

theorem bucket_inv_remove (s : lookaside) (R : krb5_data) (h : bucket_inv s)
    (hn : s.expiration_queue.Nodup) : bucket_inv (kdc_remove_lookaside s R) := by
  unfold kdc_remove_lookaside
  split
  · exact bucket_inv_discard_entry h hn _
  · exact h

theorem bucket_inv_check (s : lookaside) (R : krb5_data) (ok : Bool) (h : bucket_inv s) :
    bucket_inv (kdc_check_lookaside s R ok).1 := by
  have hq := check_queue s R ok
  have hb := check_hash_table s R ok
  have hs := check_seed s R ok
  constructor
  · intro p hp
    rw [hq] at hp
    rw [hb, hs, (check_mem s R ok p).1]
    exact h.in_bucket p hp
  · intro i p hp
    rw [hb] at hp
    rw [hs, (check_mem s R ok p).1]
    exact h.hash_ok i p hp

theorem bucket_inv_insert (s : lookaside) (req : krb5_data) (reply : Option krb5_data)
    (env : insert_env) (h : bucket_inv s) (hc : cache_inv s)
    (hv : insert_valid s req reply env) :
    bucket_inv (kdc_insert_lookaside s req reply env) := by
  cases hcr : insert_creates reply env with
  | none =>
    rw [kdc_insert_lookaside_of_not_creates s req reply env hcr]
    split
    · exact h
    · exact bucket_inv_purge _ _ _ s h hc.nodup
  | some te =>
    obtain ⟨t, e⟩ := te
    obtain ⟨hclock, halloc⟩ := insert_creates_some hcr
    have hfresh : e ∉ (purge t (entry_size req reply) s s.expiration_queue).expiration_queue := by
      simpa [queue_at_calloc, hclock, halloc, fresh_address] using hv.2.2.2
    have h1 := bucket_inv_purge t (entry_size req reply) s.expiration_queue s h hc.nodup
    have hc1 := (cache_inv_purge t (entry_size req reply) s.expiration_queue s hc rfl).1
    have hseed := purge_seed t (entry_size req reply) s.expiration_queue s
    rw [kdc_insert_lookaside_of_creates s req reply env t e hcr]
    generalize hs1 : purge t (entry_size req reply) s s.expiration_queue = s1 at *
    constructor
    · intro p hp
      simp only at hp ⊢
      rcases List.mem_append.mp hp with hp | hp
      · have hne : p ≠ e := fun hpe => hfresh (hpe ▸ hp)
        simp only [hne, if_false]
        have := h1.in_bucket p hp
        split
        · exact List.mem_cons_of_mem _ this
        · exact this
      · rw [List.mem_singleton.mp hp]
        simp [hseed]
    · intro i p hp
      simp only at hp ⊢
      by_cases hpe : p = e
      · subst hpe
        simp only [if_true]
        split at hp
        · rename_i hi
          rw [hi, hseed]
        · exact absurd (hc1.bucket_sub i p hp) hfresh
      · simp only [hpe, if_false]
        split at hp
        · exact h1.hash_ok i p ((List.mem_cons.mp hp).resolve_left hpe)
        · exact h1.hash_ok i p hp

theorem bucket_inv_apply_op (s : lookaside) (op : cache_op) (h : bucket_inv s)
    (hc : cache_inv s) (hv : op_valid s op) : bucket_inv (apply_op s op) := by
  cases op with
  | insert req reply env => exact bucket_inv_insert s req reply env h hc hv
  | check req ok => exact bucket_inv_check s req ok h
  | remove req => exact bucket_inv_remove s req h hc.nodup
  | free => exact bucket_inv_free_loop _ s h hc.nodup

theorem bucket_inv_run_ops (ops : List cache_op) (s : lookaside) (h : bucket_inv s)
    (hc : cache_inv s) (hv : ops_valid s ops) : bucket_inv (run_ops s ops) := by
  induction ops generalizing s with
  | nil => exact h
  | cons op rest ih =>
    exact ih _ (bucket_inv_apply_op s op h hc hv.1) (cache_inv_apply_op s op hc hv.1) hv.2

theorem bucket_inv_empty_cache (random : Int × Nat) : bucket_inv (empty_cache random) := by
  constructor <;> simp [empty_cache, kdc_init_lookaside, static_init]

/-- The entry `find_entry` returns is in the bucket of `R` and carries `R`. -/
theorem find_entry_some {s : lookaside} {R : krb5_data} {e : Nat}
    (h : find_entry s R = some e) :
    e ∈ s.hash_table (murmurhash3 s.seed R) ∧ (s.mem e).req_packet = R := by
  unfold find_entry at h
  simp only at h
  have h2 : data_eq (s.mem e).req_packet R = true :=
    List.find?_some (p := fun e => data_eq (s.mem e).req_packet R) h
  exact ⟨List.mem_of_find?_eq_some h, (data_eq_iff _ _).mp h2⟩

/-- When `find_entry` returns nothing, no entry of the bucket of `R` carries `R`. -/
theorem find_entry_none {s : lookaside} {R : krb5_data}
    (h : find_entry s R = none) :
    ∀ p ∈ s.hash_table (murmurhash3 s.seed R), (s.mem p).req_packet ≠ R := by
  unfold find_entry at h
  simp only at h
  intro p hp heq
  have := List.find?_eq_none.mp h p hp
  simp [data_eq_iff, heq] at this

theorem find_entry_eq_none_of_absent {s : lookaside} {R : krb5_data}
    (hsub : ∀ i p, p ∈ s.hash_table i → p ∈ s.expiration_queue)
    (h : ∀ p ∈ s.expiration_queue, (s.mem p).req_packet ≠ R) : find_entry s R = none := by
  cases hf : find_entry s R with
  | none => rfl
  | some e =>
    obtain ⟨hb, hr⟩ := find_entry_some hf
    exact absurd hr (h e (hsub _ e hb))

/-- C11 (as stated, refuted): `"AAAA"` is inserted twice; `kdc_remove_lookaside`
discards the entry `find_entry` returns (the newer one) and the older entry
stays, so the following lookup of `"AAAA"` returns true. -/
theorem remove_leaves_older_duplicate :
    ops_valid (empty_cache (0, 7)) ops_twice_A ∧
    (run_ops (empty_cache (0, 7)) ops_twice_A).expiration_queue = [1, 2] ∧
    (kdc_remove_lookaside (run_ops (empty_cache (0, 7)) ops_twice_A) req_A).expiration_queue
      = [1] ∧
    (kdc_check_lookaside
      (kdc_remove_lookaside (run_ops (empty_cache (0, 7)) ops_twice_A) req_A) req_A true).2
      = (true, some reply_ok) := by
  decide

/-- What `kdc_remove_lookaside` does in a well-formed cache. -/
theorem remove_effect (s : lookaside) (R : krb5_data) (hc : cache_inv s) (hb : bucket_inv s) :
    ((∀ p ∈ s.expiration_queue, (s.mem p).req_packet ≠ R) → kdc_remove_lookaside s R = s) ∧
    (kdc_remove_lookaside s R).mem = s.mem ∧
    (∀ p, (s.mem p).req_packet ≠ R →
      (p ∈ s.expiration_queue → p ∈ (kdc_remove_lookaside s R).expiration_queue) ∧
      ∀ i, p ∈ s.hash_table i → p ∈ (kdc_remove_lookaside s R).hash_table i) ∧
    (kdc_remove_lookaside s R).expiration_queue.Sublist s.expiration_queue ∧
    (∀ i, ((kdc_remove_lookaside s R).hash_table i).Sublist (s.hash_table i)) ∧
    ((∀ p ∈ s.expiration_queue, ∀ q ∈ s.expiration_queue,
        (s.mem p).req_packet = R → (s.mem q).req_packet = R → p = q) →
      (∀ p ∈ (kdc_remove_lookaside s R).expiration_queue,
        ((kdc_remove_lookaside s R).mem p).req_packet ≠ R) ∧
      ∀ ok, (kdc_check_lookaside (kdc_remove_lookaside s R) R ok).2 = (false, none)) := by
  have hsh := shrinks_remove s R
  refine ⟨?_, hsh.1, ?_, hsh.2.2.2, hsh.2.2.1, ?_⟩
  · intro habs
    have := find_entry_eq_none_of_absent hc.bucket_sub habs
    unfold kdc_remove_lookaside
    rw [this]
  · intro p hp
    unfold kdc_remove_lookaside
    cases hf : find_entry s R with
    | none => exact ⟨fun h => h, fun i h => h⟩
    | some e =>
      have hne : p ≠ e := fun hpe => hp (hpe ▸ (find_entry_some hf).2)
      exact ⟨fun h => (List.mem_erase_of_ne hne).mpr h,
        fun i h => (List.mem_erase_of_ne hne).mpr h⟩
  · intro huniq
    have hc2 := (cache_inv_remove s R hc).1
    have habs : ∀ p ∈ (kdc_remove_lookaside s R).expiration_queue,
        ((kdc_remove_lookaside s R).mem p).req_packet ≠ R := by
      intro p hp
      rw [hsh.1]
      cases hf : find_entry s R with
      | none =>
        intro hreq
        have hp' : p ∈ s.expiration_queue := hsh.2.2.2.subset hp
        exact find_entry_none hf p (by rw [← hreq]; exact hb.in_bucket p hp') hreq
      | some e =>
        obtain ⟨hbe, hre⟩ := find_entry_some hf
        have hqe : e ∈ s.expiration_queue := hc.bucket_sub _ e hbe
        have hp' : p ∈ s.expiration_queue.erase e := by
          have : (kdc_remove_lookaside s R).expiration_queue = s.expiration_queue.erase e := by
            unfold kdc_remove_lookaside
            rw [hf]
            rfl
          rw [this] at hp
          exact hp
        intro hreq
        have hpe : p = e := huniq p (List.mem_of_mem_erase hp') e hqe hreq hre
        rw [hpe] at hp'
        exact (List.Nodup.not_mem_erase hc.nodup) hp'
    refine ⟨habs, fun ok => ?_⟩
    have hnone := find_entry_eq_none_of_absent hc2.bucket_sub habs
    rw [check_of_find_none _ R ok hnone]

/-- C11 (amended): in every state reached from the empty cache by insert,
check, remove (and free) calls, `kdc_remove_lookaside(R)` changes nothing when
the cache has no entry for `R`; otherwise it discards the entry that
`find_entry` returns.  The heap is unchanged, every entry for another request
stays in its bucket and in the expiration queue, and the remaining entries
keep their order.  When the cache holds at most one entry for `R`, no entry
for `R` is left and a following lookup of `R` returns false. -/
theorem remove_discards_found_entry (random : Int × Nat) (ops : List cache_op)
    (R : krb5_data) (s : lookaside) (hs : s = run_ops (empty_cache random) ops)
    (hv : ops_valid (empty_cache random) ops) :
    ((∀ p ∈ s.expiration_queue, (s.mem p).req_packet ≠ R) → kdc_remove_lookaside s R = s) ∧
    (∀ e, find_entry s R = some e →
      (s.mem e).req_packet = R ∧ kdc_remove_lookaside s R = discard_entry s e) ∧
    (kdc_remove_lookaside s R).mem = s.mem ∧
    (∀ p, (s.mem p).req_packet ≠ R →
      (p ∈ s.expiration_queue → p ∈ (kdc_remove_lookaside s R).expiration_queue) ∧
      ∀ i, p ∈ s.hash_table i → p ∈ (kdc_remove_lookaside s R).hash_table i) ∧
    (kdc_remove_lookaside s R).expiration_queue.Sublist s.expiration_queue ∧
    (∀ i, ((kdc_remove_lookaside s R).hash_table i).Sublist (s.hash_table i)) ∧
    ((∀ p ∈ s.expiration_queue, ∀ q ∈ s.expiration_queue,
        (s.mem p).req_packet = R → (s.mem q).req_packet = R → p = q) →
      (∀ p ∈ (kdc_remove_lookaside s R).expiration_queue,
        ((kdc_remove_lookaside s R).mem p).req_packet ≠ R) ∧
      ∀ ok, (kdc_check_lookaside (kdc_remove_lookaside s R) R ok).2 = (false, none)) := by
  subst hs
  have hc := cache_inv_run_ops ops _ (cache_inv_empty_cache random) hv
  have hb := bucket_inv_run_ops ops _ (bucket_inv_empty_cache random)
    (cache_inv_empty_cache random) hv
  obtain ⟨h1, h2, h3, h4, h5, h6⟩ := remove_effect _ R hc hb
  refine ⟨h1, ?_, h2, h3, h4, h5, h6⟩
  intro e hf
  refine ⟨(find_entry_some hf).2, ?_⟩
  unfold kdc_remove_lookaside
  rw [hf]

theorem remove_discards_found_entry_witness :
    ops_valid (empty_cache (0, 7)) ops_collide ∧
    (run_ops (empty_cache (0, 7)) ops_collide).expiration_queue = [1, 2] ∧
    (kdc_remove_lookaside (run_ops (empty_cache (0, 7)) ops_collide) req_A).expiration_queue
      = [2] ∧
    (∀ ok, (kdc_check_lookaside
      (kdc_remove_lookaside (run_ops (empty_cache (0, 7)) ops_collide) req_A) req_A ok).2
      = (false, none)) :=
  ⟨by decide, by decide, by decide,
   ((remove_discards_found_entry (0, 7) ops_collide req_A _ rfl (by decide)).2.2.2.2.2.2
      (by decide)).2⟩

/-! ## The purge evicts a prefix of the queue -/

theorem purge_cons (t : Int) (n : Nat) (s : lookaside) (e : Nat) (next : List Nat) :
    purge t n s (e :: next) =
      if sweep_stops t n s e then s else purge t n (evict s e) next := by
  rw [purge]
  rfl

theorem evict_all_queue (l kept : List Nat) (s : lookaside)
    (hq : s.expiration_queue = l ++ kept) : (evict_all s l).expiration_queue = kept := by
  induction l generalizing s with
  | nil => simpa [evict_all] using hq
  | cons e rest ih =>
    have h1 : (evict s e).expiration_queue = rest ++ kept := by
      simp [evict, discard_entry, note_max_hits, hq]
    simpa [evict_all] using ih (evict s e) h1

/-- The purge loop evicts a prefix of the list it walks: every evicted entry
failed the `break` test in the state reached when it was examined, and the
first entry that is kept passed it. -/
theorem purge_split (t : Int) (n : Nat) (q : List Nat) (s : lookaside) :
    ∃ evicted kept, q = evicted ++ kept ∧ purge t n s q = evict_all s evicted ∧
      (∀ k (hk : k < evicted.length),
        sweep_stops t n (evict_all s (evicted.take k)) (evicted.get ⟨k, hk⟩) = false) ∧
      (∀ e rest, kept = e :: rest → sweep_stops t n (evict_all s evicted) e = true) := by
  induction q generalizing s with
  | nil =>
    refine ⟨[], [], rfl, rfl, ?_, ?_⟩
    · intro k hk
      cases hk
    · intro e rest h
      cases h
  | cons e next ih =>
    rw [purge_cons]
    by_cases hstop : sweep_stops t n s e = true
    · refine ⟨[], e :: next, rfl, by simp [hstop, evict_all], ?_, ?_⟩
      · intro k hk
        cases hk
      · intro e2 rest h
        cases h
        exact hstop
    · obtain ⟨ev, kept, hq, hp, hev, hkept⟩ := ih (evict s e)
      refine ⟨e :: ev, kept, by rw [hq]; rfl, ?_, ?_, ?_⟩
      · simp only [hstop, if_false, Bool.false_eq_true]
        rw [hp]
        rfl
      · intro k hk
        cases k with
        | zero => simpa [evict_all] using hstop
        | succ k =>
          have hk' : k < ev.length := by simpa using hk
          have := hev k hk'
          simpa [evict_all] using this
      · intro e2 rest h
        have := hkept e2 rest h
        simpa [evict_all] using this

/-- C17: for every cache state and every insert call that reads the clock at
`now`, the purge evicts exactly a prefix `evicted` of the expiration queue,
from its oldest end: each evicted entry was stale or over the size budget in
the state reached after the evictions before it, the first entry that is kept
is not stale and fits the budget with `total_size` as left by the evictions,
and the kept entries are the rest of the queue in their order.  On success
the new entry is appended at the tail of the expiration queue and placed at
the head of bucket `hash(request)`; other buckets are as the purge left them. -/
theorem purge_evicts_queue_prefix (s : lookaside) (req : krb5_data)
    (reply : Option krb5_data) (env : insert_env) (now : Int)
    (hnow : env.timeofday = some now) :
    ∃ evicted kept, s.expiration_queue = evicted ++ kept ∧
      (∀ k (hk : k < evicted.length),
        sweep_stops now (entry_size req reply) (evict_all s (evicted.take k))
          (evicted.get ⟨k, hk⟩) = false) ∧
      (∀ e rest, kept = e :: rest →
        STALE ((evict_all s evicted).mem e).timein now = false ∧
        ((evict_all s evicted).total_size + entry_size req reply) % SIZE_MOD
          ≤ LOOKASIDE_MAX_SIZE) ∧
      (evict_all s evicted).expiration_queue = kept ∧
      (insert_creates reply env = none →
        kdc_insert_lookaside s req reply env = evict_all s evicted) ∧
      (∀ e, insert_creates reply env = some (now, e) →
        (kdc_insert_lookaside s req reply env).expiration_queue = kept ++ [e] ∧
        (kdc_insert_lookaside s req reply env).hash_table (murmurhash3 s.seed req)
          = e :: (evict_all s evicted).hash_table (murmurhash3 s.seed req) ∧
        ∀ i, i ≠ murmurhash3 s.seed req →
          (kdc_insert_lookaside s req reply env).hash_table i
            = (evict_all s evicted).hash_table i) := by
  obtain ⟨ev, kept, hq, hp, hev, hkept⟩ :=
    purge_split now (entry_size req reply) s.expiration_queue s
  have hqueue := evict_all_queue ev kept s hq
  refine ⟨ev, kept, hq, hev, ?_, hqueue, ?_, ?_⟩
  · intro e rest h
    have := hkept e rest h
    simpa [sweep_stops] using this
  · intro hc
    rw [kdc_insert_lookaside_of_not_creates s req reply env hc, hnow]
    exact hp
  · intro e hc
    rw [kdc_insert_lookaside_of_creates s req reply env now e hc]
    simp only [hp, hqueue, if_true]
    refine ⟨trivial, trivial, ?_⟩
    intro i hi
    simp [hi]

theorem purge_evicts_queue_prefix_witness :
    (purge 1123 (entry_size [68] (some reply_ok)) (run_ops (empty_cache (0, 7)) ops_scenario_B)
      (run_ops (empty_cache (0, 7)) ops_scenario_B).expiration_queue).expiration_queue = [] ∧
    (purge 1121 (entry_size [68] (some reply_ok)) (run_ops (empty_cache (0, 7)) ops_scenario_B)
      (run_ops (empty_cache (0, 7)) ops_scenario_B).expiration_queue).expiration_queue = [3] ∧
    (kdc_insert_lookaside (run_ops (empty_cache (0, 7)) ops_scenario_B) [68] (some reply_ok)
      (env_ok 1121 4)).expiration_queue = [3, 4] ∧
    ∃ evicted kept,
      (run_ops (empty_cache (0, 7)) ops_scenario_B).expiration_queue = evicted ++ kept ∧
      (evict_all (run_ops (empty_cache (0, 7)) ops_scenario_B) evicted).expiration_queue
        = kept ∧
      ∀ e, insert_creates (some reply_ok) (env_ok 1121 4) = some (1121, e) →
        (kdc_insert_lookaside (run_ops (empty_cache (0, 7)) ops_scenario_B) [68]
          (some reply_ok) (env_ok 1121 4)).expiration_queue = kept ++ [e] := by
  refine ⟨by decide, by decide, by decide, ?_⟩
  obtain ⟨ev, kept, h1, _, _, h4, _, h6⟩ :=
    purge_evicts_queue_prefix (run_ops (empty_cache (0, 7)) ops_scenario_B) [68]
      (some reply_ok) (env_ok 1121 4) 1121 rfl
  exact ⟨ev, kept, h1, h4, fun e he => (h6 e he).1⟩

/-! ## The staleness test in 32-bit arithmetic -/

theorem wrap32_of_range (x : Int) (h1 : -(2 : Int) ^ 31 ≤ x) (h2 : x < 2 ^ 31) :
    wrap32 x = x := by
  unfold wrap32
  rw [Int.emod_eq_of_lt (by omega) (by omega)]
  omega

theorem STALE_of_no_overflow (timein now : Int) (h : |now - timein| < 2 ^ 31) :
    STALE timein now = decide (120 ≤ |now - timein|) := by
  have habs := abs_lt.mp h
  have hw : wrap32 (timein - now) = timein - now :=
    wrap32_of_range _ (by omega) (by omega)
  have ha : c_abs (timein - now) = |now - timein| := by
    unfold c_abs
    by_cases hlt : timein - now < 0
    · rw [if_pos hlt, abs_of_nonneg (by omega)]
      omega
    · rw [if_neg hlt, abs_of_nonpos (by omega)]
      omega
  unfold STALE STALE_TIME
  rw [hw, ha]
  simp

/-- C18 (as stated, refuted): for the 32-bit timestamps `timein = -2147483648`
and `now = 2147483647` the difference `timein - now` wraps to 1, so the test is
false although `|now - timein| >= 120`; with the two timestamps exchanged the
difference wraps to -1 and the test is false as well. -/
theorem STALE_false_on_overflow :
    STALE (-2147483648) 2147483647 = false ∧
    STALE_TIME ≤ |(2147483647 : Int) - (-2147483648)| ∧
    STALE 2147483647 (-2147483648) = false ∧
    STALE_TIME ≤ |(-2147483648 : Int) - 2147483647| := by
  decide

/-- C18 (amended): for all timestamps `timein` and `now` whose difference
does not overflow 32-bit signed arithmetic (`|now - timein| < 2^31`), the
`STALE` test is true exactly when `|now - timein| >= 120`; it is symmetric in
the sign of the difference, so a clock that moved backward by 120 s or more
makes the entry stale. -/
theorem STALE_iff_abs_diff (timein now : Int) (h : |now - timein| < 2 ^ 31) :
    (STALE timein now = true ↔ STALE_TIME ≤ |now - timein|) ∧
    STALE timein now = STALE now timein ∧
    (now + STALE_TIME ≤ timein → STALE timein now = true) := by
  have h1 := STALE_of_no_overflow timein now h
  have h2 := STALE_of_no_overflow now timein (by rw [abs_sub_comm]; exact h)
  refine ⟨?_, ?_, ?_⟩
  · rw [h1]
    simp [STALE_TIME]
  · rw [h1, h2, abs_sub_comm]
  · intro hback
    rw [h1]
    unfold STALE_TIME at hback
    have : 120 ≤ |now - timein| := by
      rw [abs_of_nonpos (by omega)]
      omega
    simpa using this

theorem STALE_iff_abs_diff_witness :
    STALE 1000 880 = true ∧ STALE 880 1000 = true ∧ STALE 1000 881 = false ∧
    (STALE 1000 880 = true ↔ STALE_TIME ≤ |(880 : Int) - 1000|) :=
  ⟨by decide, by decide, by decide, (STALE_iff_abs_diff 1000 880 (by decide)).1⟩

/-! ## Order of the expiration queue -/

theorem order_inv_of_shrinks {s1 s2 : lookaside} {F : List Int} (h : shrinks s1 s2)
    (ho : order_inv s1 F) : order_inv s2 F := by
  constructor
  · rw [h.1]
    exact ho.sorted.sublist (h.2.2.2.map _)
  · intro p hp
    rw [h.1]
    exact ho.bounded p (h.2.2.2.subset hp)

theorem order_inv_future_tail {s : lookaside} {t : Int} {F : List Int}
    (ho : order_inv s (t :: F)) : order_inv s F :=
  ⟨ho.sorted, fun p hp u hu => ho.bounded p hp u (List.mem_cons_of_mem _ hu)⟩

theorem order_inv_check {s : lookaside} {F : List Int} (R : krb5_data) (ok : Bool)
    (ho : order_inv s F) : order_inv (kdc_check_lookaside s R ok).1 F := by
  have hq := check_queue s R ok
  have hm : ∀ p, ((kdc_check_lookaside s R ok).1.mem p).timein = (s.mem p).timein :=
    fun p => (check_mem s R ok p).2.2
  constructor
  · rw [hq, List.map_congr_left (fun p _ => hm p)]
    exact ho.sorted
  · intro p hp
    rw [hq] at hp
    rw [hm p]
    exact ho.bounded p hp

theorem order_inv_insert (s : lookaside) (req : krb5_data) (reply : Option krb5_data)
    (env : insert_env) (now : Int) (F : List Int)
    (ho : order_inv s (now :: F)) (hv : insert_valid s req reply env)
    (hnow : env.timeofday = some now) (hF : ∀ t ∈ F, now ≤ t) :
    order_inv (kdc_insert_lookaside s req reply env) F := by
  have hsh := shrinks_purge now (entry_size req reply) s.expiration_queue s
  have ho1 := order_inv_of_shrinks hsh ho
  cases hc : insert_creates reply env with
  | none =>
    rw [kdc_insert_lookaside_of_not_creates s req reply env hc, hnow]
    exact order_inv_future_tail ho1
  | some te =>
    obtain ⟨t, e⟩ := te
    obtain ⟨hclock, halloc⟩ := insert_creates_some hc
    rw [hnow] at hclock
    cases hclock
    have hfresh : e ∉ (purge now (entry_size req reply) s s.expiration_queue).expiration_queue := by
      simpa [queue_at_calloc, hnow, halloc, fresh_address] using hv.2.2.2
    rw [kdc_insert_lookaside_of_creates s req reply env now e hc]
    generalize hs1 : purge now (entry_size req reply) s s.expiration_queue = s1 at *
    have hmem : ∀ p ∈ s1.expiration_queue,
        (if p = e then
          ({ num_hits := 0, timein := now, req_packet := req, reply_packet := reply.getD [] }
            : entry)
        else s1.mem p) = s1.mem p := by
      intro p hp
      have hne : p ≠ e := fun hpe => hfresh (hpe ▸ hp)
      simp [hne]
    constructor
    · simp only [List.map_append, List.map_cons, List.map_nil, if_true]
      rw [List.pairwise_append]
      refine ⟨?_, List.pairwise_singleton _ _, ?_⟩
      · rw [List.map_congr_left (fun p hp => by rw [hmem p hp])]
        exact ho1.sorted
      · intro a ha b hb
        rw [List.mem_singleton] at hb
        obtain ⟨p, hp, rfl⟩ := List.mem_map.mp ha
        rw [hb, hmem p hp]
        exact ho1.bounded p hp now (List.mem_cons_self _ _)
    · intro p hp
      simp only at hp ⊢
      rcases List.mem_append.mp hp with hp | hp
      · rw [hmem p hp]
        exact fun u hu => ho1.bounded p hp u (List.mem_cons_of_mem _ hu)
      · rw [List.mem_singleton.mp hp]
        simp only [if_true]
        exact hF

theorem order_inv_apply_op (s : lookaside) (op : cache_op) (F : List Int)
    (ho : order_inv s (clock_readings [op] ++ F)) (hv : op_valid s op)
    (hmono : (clock_readings [op] ++ F).Pairwise (· ≤ ·)) : order_inv (apply_op s op) F := by
  cases op with
  | insert req reply env =>
    cases hclock : env.timeofday with
    | none =>
      have hs : kdc_insert_lookaside s req reply env = s := by
        unfold kdc_insert_lookaside
        simp [hclock]
      simp only [clock_readings, hclock, List.append_nil, List.nil_append] at ho
      simpa [apply_op, hs] using ho
    | some now =>
      simp only [clock_readings, hclock, List.append_nil, List.singleton_append] at ho hmono
      exact order_inv_insert s req reply env now F ho hv hclock (List.pairwise_cons.mp hmono).1
  | check req ok =>
    simp only [clock_readings, List.nil_append] at ho
    exact order_inv_check req ok ho
  | remove req =>
    simp only [clock_readings, List.nil_append] at ho
    exact order_inv_of_shrinks (shrinks_remove s req) ho
  | free =>
    simp only [clock_readings, List.nil_append] at ho
    exact order_inv_of_shrinks (shrinks_free_loop s.expiration_queue s) ho

theorem order_inv_run_ops (ops : List cache_op) (s : lookaside) (F : List Int)
    (ho : order_inv s (clock_readings ops ++ F)) (hv : ops_valid s ops)
    (hmono : (clock_readings ops ++ F).Pairwise (· ≤ ·)) : order_inv (run_ops s ops) F := by
  induction ops generalizing s with
  | nil => simpa [clock_readings, run_ops] using ho
  | cons op rest ih =>
    rw [clock_readings_cons, List.append_assoc] at ho hmono
    have h1 := order_inv_apply_op s op (clock_readings rest ++ F) ho hv.1 hmono
    exact ih (apply_op s op) h1 hv.2 (List.Pairwise.sublist (List.sublist_append_right _ _) hmono)

theorem order_inv_empty_cache (random : Int × Nat) (F : List Int) :
    order_inv (empty_cache random) F := by
  constructor <;> simp [empty_cache, kdc_init_lookaside, static_init]

/-- C19 (as stated, refuted): the clock readings -2147483648, -2147483647,
2147483647 are non-decreasing.  At the third insert the 32-bit difference
`timein - now` of the head entry is `-2147483648 - 2147483647`, which wraps to
1, so the purge stops at once and both earlier entries remain in the cache
although `now - timein >= STALE_TIME` for each of them. -/
theorem stale_entry_remains_with_monotone_clock :
    ops_valid (empty_cache (0, 7))
      (ops_clock_span ++ [.insert req_K (some reply_ok) (env_ok 2147483647 3)]) ∧
    (clock_readings
      (ops_clock_span ++ [.insert req_K (some reply_ok) (env_ok 2147483647 3)])).Pairwise
        (· ≤ ·) ∧
    (run_ops (empty_cache (0, 7)) ops_clock_span).expiration_queue = [1, 2] ∧
    (kdc_insert_lookaside (run_ops (empty_cache (0, 7)) ops_clock_span) req_K (some reply_ok)
      (env_ok 2147483647 3)).expiration_queue = [1, 2, 3] ∧
    ((kdc_insert_lookaside (run_ops (empty_cache (0, 7)) ops_clock_span) req_K
        (some reply_ok) (env_ok 2147483647 3)).mem 1).timein = -2147483648 ∧
    ((kdc_insert_lookaside (run_ops (empty_cache (0, 7)) ops_clock_span) req_K
        (some reply_ok) (env_ok 2147483647 3)).mem 2).timein = -2147483647 ∧
    STALE_TIME ≤ 2147483647 -
      ((kdc_insert_lookaside (run_ops (empty_cache (0, 7)) ops_clock_span) req_K
        (some reply_ok) (env_ok 2147483647 3)).mem 1).timein ∧
    STALE_TIME ≤ 2147483647 -
      ((kdc_insert_lookaside (run_ops (empty_cache (0, 7)) ops_clock_span) req_K
        (some reply_ok) (env_ok 2147483647 3)).mem 2).timein := by
  decide

/-- C19 (amended): if the clock readings of successive insert calls are
non-decreasing, then in every state reached from the empty cache the
expiration queue is sorted by non-decreasing `timein` from head to tail; and
if the readings are also non-negative (so that 32-bit differences do not
overflow), then immediately after an insert call made at time `now` no entry
remaining in the expiration queue satisfies `now - timein >= STALE_TIME`. -/
theorem queue_sorted_by_timein (random : Int × Nat) (ops : List cache_op)
    (hv : ops_valid (empty_cache random) ops)
    (hmono : (clock_readings ops).Pairwise (· ≤ ·)) :
    ((run_ops (empty_cache random) ops).expiration_queue.map
      (fun p => ((run_ops (empty_cache random) ops).mem p).timein)).Pairwise (· ≤ ·) ∧
    (∀ req reply env now,
      insert_valid (run_ops (empty_cache random) ops) req reply env →
      env.timeofday = some now →
      (∀ t ∈ clock_readings ops, 0 ≤ t ∧ t ≤ now) → 0 ≤ now →
      ∀ p ∈ (kdc_insert_lookaside (run_ops (empty_cache random) ops) req reply
          env).expiration_queue,
        ¬ STALE_TIME ≤ now -
          ((kdc_insert_lookaside (run_ops (empty_cache random) ops) req reply env).mem
            p).timein) := by
  constructor
  · have := order_inv_run_ops ops _ [] (order_inv_empty_cache random _) hv
      (by simpa using hmono)
    exact this.sorted
  · intro req reply env now hvi hnow hread h0 p hp
    have hmono2 : (clock_readings ops ++ [now]).Pairwise (· ≤ ·) := by
      rw [List.pairwise_append]
      refine ⟨hmono, List.pairwise_singleton _ _, ?_⟩
      intro a ha b hb
      rw [List.mem_singleton.mp hb]
      exact (hread a ha).2
    have hpos : ∀ t ∈ clock_readings ops ++ [now], 0 ≤ t := by
      intro t ht
      rcases List.mem_append.mp ht with ht | ht
      · exact (hread t ht).1
      · rw [List.mem_singleton.mp ht]; exact h0
    have htime := time_inv_run_ops ops _ [now] (time_inv_empty_cache random _) hv hmono2 hpos
    have := ((time_inv_insert _ req reply env now [] htime hvi hnow h0 (by simp)).2 p hp).2
    unfold STALE_TIME
    omega

theorem queue_sorted_by_timein_witness :
    (run_ops (empty_cache (0, 7)) ops_mixed).expiration_queue = [2, 1] ∧
    ((run_ops (empty_cache (0, 7)) ops_mixed).mem 2).timein = 1010 ∧
    ((run_ops (empty_cache (0, 7)) ops_mixed).mem 1).timein = 1030 ∧
    ((run_ops (empty_cache (0, 7)) ops_mixed).expiration_queue.map
      (fun p => ((run_ops (empty_cache (0, 7)) ops_mixed).mem p).timein)).Pairwise (· ≤ ·) :=
  ⟨by decide, by decide, by decide,
   (queue_sorted_by_timein (0, 7) ops_mixed (by decide) (by decide)).1⟩

/-! ## Requests stay distinct under dispatch -/

theorem no_dup_req_of_shrinks {s1 s2 : lookaside} (h : shrinks s1 s2) (hn : no_dup_req s1) :
    no_dup_req s2 := by
  intro p hp q hq heq
  rw [h.1] at heq
  exact hn p (h.2.2.2.subset hp) q (h.2.2.2.subset hq) heq

theorem no_dup_req_check (s : lookaside) (R : krb5_data) (ok : Bool) (hn : no_dup_req s) :
    no_dup_req (kdc_check_lookaside s R ok).1 := by
  intro p hp q hq heq
  rw [check_queue] at hp hq
  rw [(check_mem s R ok p).1, (check_mem s R ok q).1] at heq
  exact hn p hp q hq heq

/-- With no entry for `req` in a bucket-consistent cache, the entries stay
distinct after an insert of `req`. -/
theorem no_dup_req_insert (s : lookaside) (req : krb5_data) (reply : Option krb5_data)
    (env : insert_env) (hn : no_dup_req s) (hv : insert_valid s req reply env)
    (habs : ∀ p ∈ s.expiration_queue, (s.mem p).req_packet ≠ req) :
    no_dup_req (kdc_insert_lookaside s req reply env) := by
  cases hc : insert_creates reply env with
  | none =>
    rw [kdc_insert_lookaside_of_not_creates s req reply env hc]
    split
    · exact hn
    · exact no_dup_req_of_shrinks (shrinks_purge _ _ _ _) hn
  | some te =>
    obtain ⟨t, e⟩ := te
    obtain ⟨hclock, halloc⟩ := insert_creates_some hc
    have hfresh : e ∉ (purge t (entry_size req reply) s s.expiration_queue).expiration_queue := by
      simpa [queue_at_calloc, hclock, halloc, fresh_address] using hv.2.2.2
    have hsh := shrinks_purge t (entry_size req reply) s.expiration_queue s
    have hn1 := no_dup_req_of_shrinks hsh hn
    rw [kdc_insert_lookaside_of_creates s req reply env t e hc]
    generalize hs1 : purge t (entry_size req reply) s s.expiration_queue = s1 at *
    have habs1 : ∀ p ∈ s1.expiration_queue, (s1.mem p).req_packet ≠ req := by
      intro p hp
      rw [hsh.1]
      exact habs p (hsh.2.2.2.subset hp)
    intro p hp q hq heq
    simp only at hp hq heq
    rcases List.mem_append.mp hp with hp | hp
    · have hpe : p ≠ e := fun h => hfresh (h ▸ hp)
      rcases List.mem_append.mp hq with hq | hq
      · have hqe : q ≠ e := fun h => hfresh (h ▸ hq)
        simp only [hpe, hqe, if_false] at heq
        exact hn1 p hp q hq heq
      · have hqe : q = e := List.mem_singleton.mp hq
        simp only [hpe, hqe, if_false, if_true] at heq
        exact absurd heq (habs1 p hp)
    · have hpe : p = e := List.mem_singleton.mp hp
      rcases List.mem_append.mp hq with hq | hq
      · have hqe : q ≠ e := fun h => hfresh (h ▸ hq)
        simp only [hpe, hqe, if_false, if_true] at heq
        exact absurd heq.symm (habs1 q hq)
      · rw [hpe, List.mem_singleton.mp hq]

theorem absent_of_find_entry_none {s : lookaside} {R : krb5_data} (hb : bucket_inv s)
    (h : find_entry s R = none) : ∀ p ∈ s.expiration_queue, (s.mem p).req_packet ≠ R := by
  intro p hp heq
  have hin := hb.in_bucket p hp
  rw [heq] at hin
  exact find_entry_none h p hin heq

/-- One `dispatch` call whose reply copy cannot fail keeps the cache
well-formed, bucket-consistent and free of duplicate requests. -/
theorem dispatch_preserves_distinct {Req Addr : Type} (s : lookaside)
    (d : dispatch_input Req Addr) (hc : cache_inv s) (hb : bucket_inv s) (hn : no_dup_req s)
    (hcopy : d.copy_ok = true)
    (hv : dispatch_inserts s d = true →
      insert_valid (kdc_check_lookaside s d.pkt d.copy_ok).1 d.pkt
        (dispatch_process d.collab d.pkt d.src).2.1 d.ienv) :
    cache_inv (dispatch d.collab s d.pkt d.src d.copy_ok d.ienv).cache ∧
    bucket_inv (dispatch d.collab s d.pkt d.src d.copy_ok d.ienv).cache ∧
    no_dup_req (dispatch d.collab s d.pkt d.src d.copy_ok d.ienv).cache := by
  have hc1 := cache_inv_check s d.pkt d.copy_ok hc
  have hb1 := bucket_inv_check s d.pkt d.copy_ok hb
  have hn1 := no_dup_req_check s d.pkt d.copy_ok hn
  cases hhit : (kdc_check_lookaside s d.pkt d.copy_ok).2.1 with
  | true =>
    rw [dispatch_of_hit d.collab s d.pkt d.src d.copy_ok d.ienv hhit]
    exact ⟨hc1, hb1, hn1⟩
  | false =>
    by_cases hp : (dispatch_process d.collab d.pkt d.src).1 = 0
    · have hins : dispatch_inserts s d = true := by
        simp [dispatch_inserts, hhit, hp]
      have hvi := hv hins
      have hfind : find_entry s d.pkt = none := by
        cases hf : find_entry s d.pkt with
        | none => rfl
        | some e =>
          rw [check_of_find_some s d.pkt d.copy_ok e hf, hcopy] at hhit
          cases hhit
      have habs : ∀ p ∈ (kdc_check_lookaside s d.pkt d.copy_ok).1.expiration_queue,
          ((kdc_check_lookaside s d.pkt d.copy_ok).1.mem p).req_packet ≠ d.pkt := by
        intro p hp2
        rw [check_queue] at hp2
        rw [(check_mem s d.pkt d.copy_ok p).1]
        exact absent_of_find_entry_none hb hfind p hp2
      rw [dispatch_of_miss_ok d.collab s d.pkt d.src d.copy_ok d.ienv hhit hp]
      exact ⟨cache_inv_apply_op _ (.insert d.pkt _ d.ienv) hc1 hvi,
        bucket_inv_insert _ d.pkt _ d.ienv hb1 hc1 hvi,
        no_dup_req_insert _ d.pkt _ d.ienv hn1 hvi habs⟩
    · rw [dispatch_of_miss_err d.collab s d.pkt d.src d.copy_ok d.ienv hhit hp]
      exact ⟨hc1, hb1, hn1⟩

theorem run_dispatch_preserves_distinct {Req Addr : Type}
    (steps : List (dispatch_input Req Addr)) (s : lookaside)
    (hc : cache_inv s) (hb : bucket_inv s) (hn : no_dup_req s)
    (hcopy : ∀ d ∈ steps, d.copy_ok = true) (hv : dispatch_valid s steps) :
    no_dup_req (run_dispatch s steps) := by
  induction steps generalizing s with
  | nil => exact hn
  | cons d rest ih =>
    obtain ⟨h1, h2, h3⟩ := dispatch_preserves_distinct s d hc hb hn
      (hcopy d (List.mem_cons_self _ _)) hv.1
    exact ih _ h1 h2 h3 (fun d2 hd2 => hcopy d2 (List.mem_cons_of_mem _ hd2)) hv.2

theorem no_dup_req_empty_cache (random : Int × Nat) : no_dup_req (empty_cache random) := by
  intro p hp
  simp [empty_cache, kdc_init_lookaside, static_init] at hp

/-- C20: if the cache is modified only by `dispatch` calls, starting from the
empty cache, and the reply copy of the lookup never fails, then in every
state reached no two entries of the cache carry equal request bytes.
`kdc_insert_lookaside` alone does not guarantee this: two inserts of `"AAAA"`
leave the two distinct entries 1 and 2 with the same request bytes. -/
theorem dispatch_keeps_requests_distinct {Req Addr : Type} (random : Int × Nat)
    (steps : List (dispatch_input Req Addr))
    (hcopy : ∀ d ∈ steps, d.copy_ok = true)
    (hv : dispatch_valid (empty_cache random) steps) :
    (∀ p ∈ (run_dispatch (empty_cache random) steps).expiration_queue,
      ∀ q ∈ (run_dispatch (empty_cache random) steps).expiration_queue,
        ((run_dispatch (empty_cache random) steps).mem p).req_packet
          = ((run_dispatch (empty_cache random) steps).mem q).req_packet → p = q) ∧
    (ops_valid (empty_cache (0, 7)) ops_twice_A ∧
     (run_ops (empty_cache (0, 7)) ops_twice_A).expiration_queue = [1, 2] ∧
     ((run_ops (empty_cache (0, 7)) ops_twice_A).mem 1).req_packet
       = ((run_ops (empty_cache (0, 7)) ops_twice_A).mem 2).req_packet) := by
  refine ⟨?_, by decide⟩
  exact run_dispatch_preserves_distinct steps _ (cache_inv_empty_cache random)
    (bucket_inv_empty_cache random) (no_dup_req_empty_cache random) hcopy hv

theorem dispatch_keeps_requests_distinct_witness :
    dispatch_valid (empty_cache (0, 7)) steps_A_A_B_A ∧
    (run_dispatch (empty_cache (0, 7)) steps_A_A_B_A).expiration_queue = [1, 2] ∧
    (∀ p ∈ (run_dispatch (empty_cache (0, 7)) steps_A_A_B_A).expiration_queue,
      ∀ q ∈ (run_dispatch (empty_cache (0, 7)) steps_A_A_B_A).expiration_queue,
        ((run_dispatch (empty_cache (0, 7)) steps_A_A_B_A).mem p).req_packet
          = ((run_dispatch (empty_cache (0, 7)) steps_A_A_B_A).mem q).req_packet → p = q) :=
  ⟨by decide, by decide,
   (dispatch_keeps_requests_distinct (0, 7) steps_A_A_B_A (by decide) (by decide)).1⟩

/-! ## The authenticated request builder -/

/-- C12: when `ap_req_options` has `AP_OPTS_USE_SESSION_KEY` set and the
ticket in `creds` is empty, `krb5_mk_req_extended` returns
`KRB5_NO_TKT_SUPPLIED`, makes no call at all (no `krb5_get_credentials`), and
leaves `creds` unchanged and `*newkey`, `*authentp`, `*outbuf` unwritten. -/
theorem mk_req_no_ticket_supplied {T : Type} (c : mk_req_collab T)
    (ap_req_options checksum kdc_options : Nat) (sequence : Int) (newkey : Bool)
    (ccache : Nat) (creds : krb5_creds) (authentp : Bool)
    (hopt : ap_req_options &&& AP_OPTS_USE_SESSION_KEY ≠ 0)
    (hticket : creds.ticket.length = 0) :
    krb5_mk_req_extended c ap_req_options checksum kdc_options sequence newkey ccache creds
        authentp
      = { retval := KRB5_NO_TKT_SUPPLIED, creds := creds, newkey := none, authentp := none,
          outbuf := none, trace := [] } ∧
    KRB5_NO_TKT_SUPPLIED ≠ 0 := by
  refine ⟨?_, by decide⟩
  unfold krb5_mk_req_extended
  rw [if_pos ⟨hopt, hticket⟩]

theorem mk_req_no_ticket_supplied_witness :
    (krb5_mk_req_extended (collab_sample 0) 0x40000000 0 0 1 true 0 creds_no_ticket true).retval
      = KRB5_NO_TKT_SUPPLIED ∧
    (krb5_mk_req_extended (collab_sample 0) 0x40000000 0 0 1 true 0 creds_no_ticket true).trace
      = [] ∧
    (krb5_mk_req_extended (collab_sample 0) 0 0 0 1 true 0 creds_no_ticket true).retval = 0 ∧
    krb5_mk_req_extended (collab_sample 0) 0x40000000 0 0 1 true 0 creds_no_ticket true
      = { retval := KRB5_NO_TKT_SUPPLIED, creds := creds_no_ticket, newkey := none,
          authentp := none, outbuf := none, trace := [] } :=
  ⟨by decide, by decide, by decide,
   (mk_req_no_ticket_supplied (collab_sample 0) 0x40000000 0 0 1 true 0 creds_no_ticket true
      (by decide) (by decide)).1⟩

/-- Past the first two checks, the function continues with the credentials in
use and the calls made so far. -/
theorem mk_req_extended_eq_with_creds {T : Type} (c : mk_req_collab T)
    (ap_req_options checksum kdc_options : Nat) (sequence : Int) (newkey : Bool)
    (ccache : Nat) (creds : krb5_creds) (authentp : Bool)
    (havail : creds.ticket.length ≠ 0 ∨
      ((ap_req_options &&& AP_OPTS_USE_SESSION_KEY) = 0 ∧
        (c.krb5_get_credentials kdc_options ccache creds).1 = 0)) :
    krb5_mk_req_extended c ap_req_options checksum kdc_options sequence newkey ccache creds
        authentp
      = mk_req_with_creds c ap_req_options checksum sequence newkey
          (creds_in_use c kdc_options ccache creds) authentp (calls_before_validation creds) := by
  unfold krb5_mk_req_extended creds_in_use calls_before_validation
  by_cases hlen : creds.ticket.length = 0
  · rcases havail with h | ⟨h1, h2⟩
    · exact absurd hlen h
    · simp [hlen, h1, h2]
  · simp [hlen]

theorem mk_req_encrypt_ok {T : Type} (c : mk_req_collab T) (ap_req_options : Nat)
    (newkey : Bool) (creds : krb5_creds) (etype : Nat) (ticket : T)
    (key : Option krb5_keyblock) (aout : Option krb5_authenticator) (scratch : krb5_data)
    (tr : List mk_req_call)
    (h : (mk_req_encrypt c ap_req_options newkey creds etype ticket key aout scratch
      tr).retval = 0) :
    ∃ ciphertext : krb5_data,
      ciphertext.length = c.krb5_encrypt_size scratch.length etype ∧
      (c.encode_krb5_ap_req
        { ap_options := ap_req_options, ticket := ticket,
          authenticator := { etype := etype, kvno := 0, ciphertext := ciphertext } }).1 = 0 ∧
      (mk_req_encrypt c ap_req_options newkey creds etype ticket key aout scratch tr).outbuf
        = some (c.encode_krb5_ap_req
            { ap_options := ap_req_options, ticket := ticket,
              authenticator := { etype := etype, kvno := 0, ciphertext := ciphertext } }).2 ∧
      (mk_req_encrypt c ap_req_options newkey creds etype ticket key aout scratch tr).creds
        = creds := by
  have hnomem : ENOMEM ≠ 0 := by decide
  unfold mk_req_encrypt at h ⊢
  simp only at h ⊢
  split at h
  · exact absurd h hnomem
  · split at h
    · exact absurd h hnomem
    · split at h
      · rename_i hx
        exact absurd h hx
      · split at h
        · rename_i hx
          exact absurd h hx
        · split at h
          · rename_i hx
            exact absurd h hx
          · rename_i h1 h2 h3 h4 h5
            rw [if_neg h1, if_neg h2, if_neg h3, if_neg h4, if_neg h5]
            split at h
            · rename_i h6
              rw [if_pos h6]
              refine ⟨_, ?_, h6, rfl, rfl⟩
              simp [write_bytes]
            · rename_i h6
              exact absurd h h6

theorem mk_req_authent_ok {T : Type} (c : mk_req_collab T)
    (ap_req_options checksum : Nat) (sequence : Int) (newkey : Bool) (creds : krb5_creds)
    (authentp : Bool) (etype : Nat) (ticket : T) (key : Option krb5_keyblock)
    (tr : List mk_req_call)
    (h : (mk_req_authent c ap_req_options checksum sequence newkey creds authentp etype
      ticket key tr).retval = 0) :
    ∃ ciphertext : krb5_data,
      (c.encode_krb5_ap_req
        { ap_options := ap_req_options, ticket := ticket,
          authenticator := { etype := etype, kvno := 0, ciphertext := ciphertext } }).1 = 0 ∧
      (mk_req_authent c ap_req_options checksum sequence newkey creds authentp etype
        ticket key tr).outbuf
        = some (c.encode_krb5_ap_req
            { ap_options := ap_req_options, ticket := ticket,
              authenticator := { etype := etype, kvno := 0, ciphertext := ciphertext } }).2 ∧
      (mk_req_authent c ap_req_options checksum sequence newkey creds authentp etype
        ticket key tr).creds = creds := by
  unfold mk_req_authent at h ⊢
  simp only at h ⊢
  split at h
  · rename_i hx
    exact absurd h hx
  · split at h
    · rename_i hx
      exact absurd h hx
    · rename_i h1 h2
      rw [if_neg h1, if_neg h2]
      split at h
      · rename_i h3
        rw [if_pos h3]
        obtain ⟨ct, _, h5, h6, h7⟩ := mk_req_encrypt_ok c _ _ _ _ _ _ _ _ _ h
        exact ⟨ct, h5, h6, h7⟩
      · rename_i h3
        rw [if_neg h3]
        obtain ⟨ct, _, h5, h6, h7⟩ := mk_req_encrypt_ok c _ _ _ _ _ _ _ _ _ h
        exact ⟨ct, h5, h6, h7⟩

theorem mk_req_with_creds_ok {T : Type} (c : mk_req_collab T)
    (ap_req_options checksum : Nat) (sequence : Int) (newkey : Bool) (creds : krb5_creds)
    (authentp : Bool) (tr : List mk_req_call)
    (h : (mk_req_with_creds c ap_req_options checksum sequence newkey creds authentp
      tr).retval = 0) :
    (c.decode_krb5_ticket creds.ticket).1 = 0 ∧
    ∃ ciphertext : krb5_data,
      (c.encode_krb5_ap_req
        { ap_options := ap_req_options,
          ticket := (c.decode_krb5_ticket creds.ticket).2,
          authenticator := { etype := select_etype c creds.keyblock, kvno := 0,
                             ciphertext := ciphertext } }).1 = 0 ∧
      (mk_req_with_creds c ap_req_options checksum sequence newkey creds authentp tr).outbuf
        = some (c.encode_krb5_ap_req
            { ap_options := ap_req_options,
              ticket := (c.decode_krb5_ticket creds.ticket).2,
              authenticator := { etype := select_etype c creds.keyblock, kvno := 0,
                                 ciphertext := ciphertext } }).2 ∧
      (mk_req_with_creds c ap_req_options checksum sequence newkey creds authentp tr).creds
        = creds := by
  have hk : KRB5_PROG_KEYTYPE_NOSUPP ≠ 0 := by decide
  have he : KRB5_PROG_ETYPE_NOSUPP ≠ 0 := by decide
  unfold mk_req_with_creds at h ⊢
  split at h
  · exact absurd h hk
  · split at h
    · exact absurd h he
    · split at h
      · rename_i hx
        exact absurd h hx
      · rename_i h1 h2 h3
        rw [if_neg h1, if_neg h2, if_neg h3]
        refine ⟨not_not.mp h3, ?_⟩
        split at h
        · rename_i h4
          rw [if_pos h4]
          split at h
          · rename_i hx
            exact absurd h hx
          · rename_i h5
            rw [if_neg h5]
            exact mk_req_authent_ok c _ _ _ _ _ _ _ _ _ _ h
        · rename_i h4
          rw [if_neg h4]
          exact mk_req_authent_ok c _ _ _ _ _ _ _ _ _ _ h

/-- C14: whenever `krb5_mk_req_extended` returns 0, the ticket of the
credentials in use decoded, and the output buffer is exactly what
`encode_krb5_ap_req` returned (with code 0) for the request record whose
`ap_options` are `ap_req_options`, whose ticket is the decoding of the
credentials' ticket bytes, and whose authenticator part carries the selected
encryption type (the key block's `etype`, or `proto_enctype` of its key type
when that is `ETYPE_UNKNOWN`), `kvno` 0 and the ciphertext. -/
theorem mk_req_output_is_encoded_request {T : Type} (c : mk_req_collab T)
    (ap_req_options checksum kdc_options : Nat) (sequence : Int) (newkey : Bool)
    (ccache : Nat) (creds : krb5_creds) (authentp : Bool)
    (h : (krb5_mk_req_extended c ap_req_options checksum kdc_options sequence newkey ccache
      creds authentp).retval = 0) :
    (krb5_mk_req_extended c ap_req_options checksum kdc_options sequence newkey ccache
      creds authentp).creds = creds_in_use c kdc_options ccache creds ∧
    (c.decode_krb5_ticket (creds_in_use c kdc_options ccache creds).ticket).1 = 0 ∧
    ∃ ciphertext : krb5_data,
      (c.encode_krb5_ap_req
        { ap_options := ap_req_options,
          ticket := (c.decode_krb5_ticket (creds_in_use c kdc_options ccache creds).ticket).2,
          authenticator :=
            { etype :=
                if (creds_in_use c kdc_options ccache creds).keyblock.etype = ETYPE_UNKNOWN
                then c.proto_enctype (creds_in_use c kdc_options ccache creds).keyblock.keytype
                else (creds_in_use c kdc_options ccache creds).keyblock.etype,
              kvno := 0, ciphertext := ciphertext } }).1 = 0 ∧
      (krb5_mk_req_extended c ap_req_options checksum kdc_options sequence newkey ccache
        creds authentp).outbuf
        = some (c.encode_krb5_ap_req
            { ap_options := ap_req_options,
              ticket :=
                (c.decode_krb5_ticket (creds_in_use c kdc_options ccache creds).ticket).2,
              authenticator :=
                { etype :=
                    if (creds_in_use c kdc_options ccache creds).keyblock.etype = ETYPE_UNKNOWN
                    then c.proto_enctype (creds_in_use c kdc_options ccache creds).keyblock.keytype
                    else (creds_in_use c kdc_options ccache creds).keyblock.etype,
                  kvno := 0, ciphertext := ciphertext } }).2 := by
  have hn : KRB5_NO_TKT_SUPPLIED ≠ 0 := by decide
  have havail : creds.ticket.length ≠ 0 ∨
      ((ap_req_options &&& AP_OPTS_USE_SESSION_KEY) = 0 ∧
        (c.krb5_get_credentials kdc_options ccache creds).1 = 0) := by
    by_cases hlen : creds.ticket.length = 0
    · right
      unfold krb5_mk_req_extended at h
      split at h
      · exact absurd h hn
      · rename_i h1
        split at h
        · rename_i hx
          exact absurd h hx
        · rename_i h2
          refine ⟨?_, not_not.mp h2⟩
          by_contra hopt
          exact h1 ⟨hopt, hlen⟩
    · exact Or.inl hlen
  rw [mk_req_extended_eq_with_creds c ap_req_options checksum kdc_options sequence newkey
    ccache creds authentp havail] at h ⊢
  obtain ⟨h1, ct, h2, h3, h4⟩ := mk_req_with_creds_ok c _ _ _ _ _ _ _ h
  exact ⟨h4, h1, ct, h2, h3⟩

/-- Witness for C14: the encoder of `collab_table` writes the options, the
encryption type and the key version number first.  For credentials of key
type 1 and encryption type `ETYPE_UNKNOWN` the output starts with the options
2, the default encryption type 3 and `kvno` 0. -/
theorem mk_req_output_is_encoded_request_witness :
    (krb5_mk_req_extended (collab_sample 0) 0 0 0 1 true 0 creds_no_ticket false).outbuf
      = some [1, 2, 3, 0, 0, 0, 14, 13, 12, 11, 10] ∧
    creds_unknown_etype.keyblock.etype = ETYPE_UNKNOWN ∧
    collab_table.proto_enctype creds_unknown_etype.keyblock.keytype = 3 ∧
    (krb5_mk_req_extended collab_table 2 0 0 1 true 0 creds_unknown_etype false).outbuf
      = some [2, 3, 0, 7, 7, 7, 0, 0, 0, 14, 13, 12, 11, 10] ∧
    (krb5_mk_req_extended collab_table 2 0 0 1 true 0 creds_unknown_etype false).creds
      = creds_in_use collab_table 0 0 creds_unknown_etype :=
  ⟨by decide, by decide, by decide, by decide,
   (mk_req_output_is_encoded_request collab_table 2 0 0 1 true 0 creds_unknown_etype false
      (by decide)).1⟩

/-! ### Release of the decoded ticket -/

theorem count_free_ticket_cleanup_key (newkey : Bool) :
    List.count mk_req_call.free_ticket (cleanup_key newkey) = 0 := by
  cases newkey <;> decide

/-- From `krb5_use_cstype` on, the ticket is released once on every path but
the one where `krb5_finish_key` fails after the encryption, where it is not
released. -/
theorem mk_req_encrypt_free_ticket {T : Type} (c : mk_req_collab T) (ap_req_options : Nat)
    (newkey : Bool) (creds : krb5_creds) (etype : Nat) (ticket : T)
    (key : Option krb5_keyblock) (aout : Option krb5_authenticator) (scratch : krb5_data)
    (tr : List mk_req_call) :
    List.count mk_req_call.free_ticket
        (mk_req_encrypt c ap_req_options newkey creds etype ticket key aout scratch tr).trace
      = List.count mk_req_call.free_ticket tr + 1 ∨
    (List.count mk_req_call.free_ticket
        (mk_req_encrypt c ap_req_options newkey creds etype ticket key aout scratch tr).trace
      = List.count mk_req_call.free_ticket tr ∧
     (mk_req_encrypt c ap_req_options newkey creds etype ticket key aout scratch tr).retval
      = c.krb5_finish_key etype ∧ c.krb5_finish_key etype ≠ 0) := by
  have hk := count_free_ticket_cleanup_key newkey
  unfold mk_req_encrypt
  simp only
  split
  · left
    simp [List.count_append, hk]
  · split
    · left
      simp [List.count_append, hk]
    · split
      · left
        simp [List.count_append, hk]
      · split
        · left
          simp [List.count_append, hk]
        · split
          · rename_i hfk
            right
            refine ⟨?_, rfl, hfk⟩
            simp [List.count_append]
          · split
            · left
              simp [List.count_append]
            · left
              simp [List.count_append]

theorem count_free_ticket_generate_authenticator {T : Type} (c : mk_req_collab T)
    (client cksum : Nat) (key : Option krb5_keyblock) (seq : Int) (authorization : Nat) :
    List.count mk_req_call.free_ticket
      (krb5_generate_authenticator c client cksum key seq authorization).2.2 = 0 := by
  unfold krb5_generate_authenticator
  cases key with
  | none => simp
  | some k =>
    simp only
    split <;> simp

theorem mk_req_authent_free_ticket {T : Type} (c : mk_req_collab T)
    (ap_req_options checksum : Nat) (sequence : Int) (newkey : Bool) (creds : krb5_creds)
    (authentp : Bool) (etype : Nat) (ticket : T) (key : Option krb5_keyblock)
    (tr : List mk_req_call) :
    List.count mk_req_call.free_ticket
        (mk_req_authent c ap_req_options checksum sequence newkey creds authentp etype
          ticket key tr).trace
      = List.count mk_req_call.free_ticket tr + 1 ∨
    (List.count mk_req_call.free_ticket
        (mk_req_authent c ap_req_options checksum sequence newkey creds authentp etype
          ticket key tr).trace
      = List.count mk_req_call.free_ticket tr ∧
     (mk_req_authent c ap_req_options checksum sequence newkey creds authentp etype
        ticket key tr).retval = c.krb5_finish_key etype ∧ c.krb5_finish_key etype ≠ 0) := by
  have hk := count_free_ticket_cleanup_key newkey
  have ha := count_free_ticket_generate_authenticator c creds.client checksum key sequence
    creds.authdata
  unfold mk_req_authent
  simp only
  split
  · left
    simp [List.count_append, hk, ha]
  · split
    · left
      simp [List.count_append, hk, ha]
    · split
      · have := mk_req_encrypt_free_ticket c ap_req_options newkey creds etype ticket key
          (some { (krb5_generate_authenticator c creds.client checksum key sequence
            creds.authdata).2.1 with client := 0, checksum := 0, authorization_data := 0 })
          (c.encode_krb5_authenticator (krb5_generate_authenticator c creds.client checksum
            key sequence creds.authdata).2.1).2
          (tr ++ (krb5_generate_authenticator c creds.client checksum key sequence
            creds.authdata).2.2 ++ [.encode_authenticator (some (c.encode_krb5_authenticator
              (krb5_generate_authenticator c creds.client checksum key sequence
                creds.authdata).2.1).2)])
        simpa [List.count_append, ha] using this
      · have := mk_req_encrypt_free_ticket c ap_req_options newkey creds etype ticket key
          none
          (c.encode_krb5_authenticator (krb5_generate_authenticator c creds.client checksum
            key sequence creds.authdata).2.1).2
          (tr ++ (krb5_generate_authenticator c creds.client checksum key sequence
            creds.authdata).2.2 ++ [.encode_authenticator (some (c.encode_krb5_authenticator
              (krb5_generate_authenticator c creds.client checksum key sequence
                creds.authdata).2.1).2), .free_authenticator_contents])
        simpa [List.count_append, ha] using this

/-- Once the ticket is decoded it is released exactly once on every exit path,
except that it is never released when `krb5_finish_key` fails after the
encryption succeeded; it is never released twice. -/
theorem mk_req_with_creds_free_ticket {T : Type} (c : mk_req_collab T)
    (ap_req_options checksum : Nat) (sequence : Int) (newkey : Bool) (creds : krb5_creds)
    (authentp : Bool)
    (hk : c.valid_keytype creds.keyblock.keytype = true)
    (he : c.valid_etype (select_etype c creds.keyblock) = true)
    (hd : (c.decode_krb5_ticket creds.ticket).1 = 0) :
    List.count mk_req_call.free_ticket
        (mk_req_with_creds c ap_req_options checksum sequence newkey creds authentp []).trace
      = 1 ∨
    (List.count mk_req_call.free_ticket
        (mk_req_with_creds c ap_req_options checksum sequence newkey creds authentp []).trace
      = 0 ∧
     (mk_req_with_creds c ap_req_options checksum sequence newkey creds authentp []).retval
      = c.krb5_finish_key (select_etype c creds.keyblock) ∧
     c.krb5_finish_key (select_etype c creds.keyblock) ≠ 0) := by
  unfold mk_req_with_creds
  rw [if_neg (by simp [hk]), if_neg (by simp [he]), if_neg (by simp [hd])]
  split
  · split
    · left
      simp
    · have := mk_req_authent_free_ticket c ap_req_options checksum sequence newkey creds
        authentp (select_etype c creds.keyblock) (c.decode_krb5_ticket creds.ticket).2
        (some (c.krb5_generate_subkey creds.keyblock).2)
        ([] ++ [.decode_ticket, .generate_subkey])
      simpa using this
  · have := mk_req_authent_free_ticket c ap_req_options checksum sequence newkey creds
      authentp (select_etype c creds.keyblock) (c.decode_krb5_ticket creds.ticket).2 none
      ([] ++ [.decode_ticket])
    simpa using this

/-- C15 (the code at the failing input): every collaborator succeeds except
`krb5_finish_key`, which returns 5.  The ticket was decoded, the call returns
5, and `krb5_free_ticket` is not called at all; with `krb5_finish_key`
succeeding the same call releases the ticket exactly once. -/
theorem ticket_not_freed_when_finish_key_fails :
    mk_req_call.decode_ticket ∈
      (krb5_mk_req_extended (collab_sample 5) 0 0 0 1 true 0 creds_sample false).trace ∧
    ((collab_sample 5).decode_krb5_ticket creds_sample.ticket).1 = 0 ∧
    (krb5_mk_req_extended (collab_sample 5) 0 0 0 1 true 0 creds_sample false).retval = 5 ∧
    List.count mk_req_call.free_ticket
      (krb5_mk_req_extended (collab_sample 5) 0 0 0 1 true 0 creds_sample false).trace = 0 ∧
    List.count mk_req_call.free_ticket
      (krb5_mk_req_extended (collab_sample 0) 0 0 0 1 true 0 creds_sample false).trace = 1 := by
  decide

/-! ### Padding of the plaintext -/

theorem realloc_bytes_length (old : krb5_data) (m : Nat) (residue : Nat → UInt8) :
    (realloc_bytes old m residue).length = m := by
  simp [realloc_bytes]

theorem memset_zero_length (buf : krb5_data) (start len : Nat) :
    (memset_zero buf start len).length = buf.length := by
  simp [memset_zero]

/-- After `realloc` to `m >= n` bytes and the `memset` of the tail, the buffer
is the old `n` bytes followed by `m - n` zero bytes, whatever the new memory
held. -/
theorem padded_plaintext_eq {T : Type} (c : mk_req_collab T) (scratch : krb5_data) (m : Nat)
    (h : scratch.length ≤ m) :
    padded_plaintext c scratch m = scratch ++ List.replicate (m - scratch.length) 0 := by
  unfold padded_plaintext
  apply List.ext_getElem
  · simp [memset_zero_length, realloc_bytes_length]
    omega
  · intro i h1 h2
    have hi : i < m := by
      simpa [memset_zero_length, realloc_bytes_length] using h1
    by_cases hlt : i < scratch.length
    · rw [List.getElem_append_left hlt]
      simp only [memset_zero, realloc_bytes, List.getElem_map, List.getElem_range,
        List.length_map, List.length_range]
      have hn : ¬ (scratch.length ≤ i ∧ i < scratch.length + (m - scratch.length)) := by omega
      rw [if_neg hn]
      rw [List.getD_eq_getElem _ _ (by simpa using hi)]
      simp only [List.getElem_map, List.getElem_range, hlt, if_true]
      exact List.getD_eq_getElem _ _ hlt
    · rw [List.getElem_append_right (by omega)]
      simp only [memset_zero, realloc_bytes, List.getElem_map, List.getElem_range,
        List.length_map, List.length_range, List.getElem_replicate]
      have hp : scratch.length ≤ i ∧ i < scratch.length + (m - scratch.length) := by omega
      rw [if_pos hp]

theorem filter_carries_data_cleanup_key (newkey : Bool) :
    (cleanup_key newkey).filter carries_data = [] := by
  cases newkey <;> rfl

theorem mk_req_encrypt_data {T : Type} (c : mk_req_collab T) (ap_req_options : Nat)
    (newkey : Bool) (creds : krb5_creds) (etype : Nat) (ticket : T)
    (key : Option krb5_keyblock) (aout : Option krb5_authenticator) (scratch : krb5_data)
    (tr : List mk_req_call) :
    ∃ rest, (mk_req_encrypt c ap_req_options newkey creds etype ticket key aout scratch
        tr).trace.filter carries_data = tr.filter carries_data ++ rest ∧
      encrypt_data_calls c etype scratch rest := by
  have hk := filter_carries_data_cleanup_key newkey
  unfold mk_req_encrypt encrypt_data_calls padded_plaintext
  simp only
  split
  · exact ⟨[.realloc _], by simp [List.filter_append, hk, carries_data], Or.inl rfl⟩
  · split
    · exact ⟨[.realloc _, .malloc _], by simp [List.filter_append, hk, carries_data],
        Or.inr (Or.inl rfl)⟩
    · split
      · exact ⟨[.realloc _, .malloc _], by simp [List.filter_append, hk, carries_data],
          Or.inr (Or.inl rfl)⟩
      · split
        · exact ⟨[.realloc _, .malloc _, .encrypt _ _ _],
            by simp [List.filter_append, hk, carries_data], Or.inr (Or.inr rfl)⟩
        · split
          · exact ⟨[.realloc _, .malloc _, .encrypt _ _ _],
              by simp [List.filter_append, carries_data], Or.inr (Or.inr rfl)⟩
          · split
            · exact ⟨[.realloc _, .malloc _, .encrypt _ _ _],
                by simp [List.filter_append, carries_data], Or.inr (Or.inr rfl)⟩
            · exact ⟨[.realloc _, .malloc _, .encrypt _ _ _],
                by simp [List.filter_append, carries_data], Or.inr (Or.inr rfl)⟩

theorem filter_carries_data_generate_authenticator {T : Type} (c : mk_req_collab T)
    (client cksum : Nat) (key : Option krb5_keyblock) (seq : Int) (authorization : Nat) :
    (krb5_generate_authenticator c client cksum key seq authorization).2.2.filter carries_data
      = [] := by
  unfold krb5_generate_authenticator
  cases key with
  | none => rfl
  | some k =>
    simp only
    split <;> rfl

/-- The data-carrying calls from the authenticator step on: none, or one
successful encoding of the authenticator followed by the data calls of the
encryption part for the encoded bytes. -/
theorem mk_req_authent_data {T : Type} (c : mk_req_collab T)
    (ap_req_options checksum : Nat) (sequence : Int) (newkey : Bool) (creds : krb5_creds)
    (authentp : Bool) (etype : Nat) (ticket : T) (key : Option krb5_keyblock)
    (tr : List mk_req_call) (htr : tr.filter carries_data = []) :
    (mk_req_authent c ap_req_options checksum sequence newkey creds authentp etype ticket key
        tr).trace.filter carries_data = [] ∨
    ∃ scratch rest,
      (mk_req_authent c ap_req_options checksum sequence newkey creds authentp etype ticket
        key tr).trace.filter carries_data
        = mk_req_call.encode_authenticator (some scratch) :: rest ∧
      encrypt_data_calls c etype scratch rest := by
  have hk := filter_carries_data_cleanup_key newkey
  have ha := filter_carries_data_generate_authenticator c creds.client checksum key sequence
    creds.authdata
  unfold mk_req_authent
  simp only
  split
  · left
    simp [List.filter_append, hk, ha, htr, carries_data]
  · split
    · left
      simp [List.filter_append, hk, ha, htr, carries_data]
    · right
      split
      · obtain ⟨rest, h1, h2⟩ := mk_req_encrypt_data c ap_req_options newkey creds etype
          ticket key
          (some { (krb5_generate_authenticator c creds.client checksum key sequence
            creds.authdata).2.1 with client := 0, checksum := 0, authorization_data := 0 })
          (c.encode_krb5_authenticator (krb5_generate_authenticator c creds.client checksum
            key sequence creds.authdata).2.1).2
          (tr ++ (krb5_generate_authenticator c creds.client checksum key sequence
            creds.authdata).2.2 ++ [.encode_authenticator (some (c.encode_krb5_authenticator
              (krb5_generate_authenticator c creds.client checksum key sequence
                creds.authdata).2.1).2)])
        refine ⟨_, rest, ?_, h2⟩
        rw [h1]
        simp [List.filter_append, ha, htr, carries_data]
      · obtain ⟨rest, h1, h2⟩ := mk_req_encrypt_data c ap_req_options newkey creds etype
          ticket key none
          (c.encode_krb5_authenticator (krb5_generate_authenticator c creds.client checksum
            key sequence creds.authdata).2.1).2
          (tr ++ (krb5_generate_authenticator c creds.client checksum key sequence
            creds.authdata).2.2 ++ [.encode_authenticator (some (c.encode_krb5_authenticator
              (krb5_generate_authenticator c creds.client checksum key sequence
                creds.authdata).2.1).2), .free_authenticator_contents])
        refine ⟨_, rest, ?_, h2⟩
        rw [h1]
        simp [List.filter_append, ha, htr, carries_data]

theorem mk_req_with_creds_data {T : Type} (c : mk_req_collab T)
    (ap_req_options checksum : Nat) (sequence : Int) (newkey : Bool) (creds : krb5_creds)
    (authentp : Bool) (tr : List mk_req_call) (htr : tr.filter carries_data = []) :
    (mk_req_with_creds c ap_req_options checksum sequence newkey creds authentp
        tr).trace.filter carries_data = [] ∨
    ∃ scratch rest,
      (mk_req_with_creds c ap_req_options checksum sequence newkey creds authentp
        tr).trace.filter carries_data
        = mk_req_call.encode_authenticator (some scratch) :: rest ∧
      encrypt_data_calls c (select_etype c creds.keyblock) scratch rest := by
  unfold mk_req_with_creds
  split
  · exact Or.inl htr
  · split
    · exact Or.inl htr
    · split
      · left
        simp [List.filter_append, htr, carries_data]
      · split
        · split
          · left
            simp [List.filter_append, htr, carries_data]
          · exact mk_req_authent_data c _ _ _ _ _ _ _ _ _ _
              (by simp [List.filter_append, htr, carries_data])
        · exact mk_req_authent_data c _ _ _ _ _ _ _ _ _ _
            (by simp [List.filter_append, htr, carries_data])

theorem mk_req_extended_data {T : Type} (c : mk_req_collab T)
    (ap_req_options checksum kdc_options : Nat) (sequence : Int) (newkey : Bool)
    (ccache : Nat) (creds : krb5_creds) (authentp : Bool) :
    (krb5_mk_req_extended c ap_req_options checksum kdc_options sequence newkey ccache creds
        authentp).trace.filter carries_data = [] ∨
    ∃ scratch rest,
      (krb5_mk_req_extended c ap_req_options checksum kdc_options sequence newkey ccache creds
        authentp).trace.filter carries_data
        = mk_req_call.encode_authenticator (some scratch) :: rest ∧
      encrypt_data_calls c (select_etype c (creds_in_use c kdc_options ccache creds).keyblock)
        scratch rest := by
  unfold krb5_mk_req_extended creds_in_use
  split
  · left; rfl
  · split
    · split
      · left; rfl
      · exact mk_req_with_creds_data c _ _ _ _ _ _ _ rfl
    · exact mk_req_with_creds_data c _ _ _ _ _ _ _ rfl

/-- C16: in `krb5_mk_req_extended`, for the encoded authenticator `scratch`
of length `n` and the padded length `m = krb5_encrypt_size(n)`, the call of
`krb5_encrypt` gets the size `n`, a plaintext buffer that was reallocated to
`m` bytes and a ciphertext buffer allocated with `m` bytes; when `m >= n` the
plaintext buffer has length `m`, its first `n` bytes are the encoded
authenticator and its bytes `n..m-1` are all zero, whatever the reallocated
memory held. -/
theorem mk_req_plaintext_zero_padded {T : Type} (c : mk_req_collab T)
    (ap_req_options checksum kdc_options : Nat) (sequence : Int) (newkey : Bool)
    (ccache : Nat) (creds : krb5_creds) (authentp : Bool)
    (scratch inbuf : krb5_data) (size capacity : Nat)
    (hs : mk_req_call.encode_authenticator (some scratch) ∈
      (krb5_mk_req_extended c ap_req_options checksum kdc_options sequence newkey ccache creds
        authentp).trace)
    (he : mk_req_call.encrypt inbuf size capacity ∈
      (krb5_mk_req_extended c ap_req_options checksum kdc_options sequence newkey ccache creds
        authentp).trace) :
    size = scratch.length ∧
    capacity = c.krb5_encrypt_size scratch.length
      (select_etype c (creds_in_use c kdc_options ccache creds).keyblock) ∧
    mk_req_call.realloc capacity ∈
      (krb5_mk_req_extended c ap_req_options checksum kdc_options sequence newkey ccache creds
        authentp).trace ∧
    mk_req_call.malloc capacity ∈
      (krb5_mk_req_extended c ap_req_options checksum kdc_options sequence newkey ccache creds
        authentp).trace ∧
    (scratch.length ≤ capacity →
      inbuf.length = capacity ∧
      inbuf = scratch ++ List.replicate (capacity - scratch.length) 0 ∧
      inbuf.take scratch.length = scratch ∧
      ∀ i, scratch.length ≤ i → i < capacity → inbuf[i]? = some 0) := by
  have hs' := (List.mem_filter (p := carries_data)).mpr ⟨hs, rfl⟩
  have he' := (List.mem_filter (p := carries_data)).mpr ⟨he, rfl⟩
  have hsub : ∀ ev, ev ∈ (krb5_mk_req_extended c ap_req_options checksum kdc_options sequence
      newkey ccache creds authentp).trace.filter carries_data →
      ev ∈ (krb5_mk_req_extended c ap_req_options checksum kdc_options sequence
      newkey ccache creds authentp).trace := fun ev h => (List.mem_filter.mp h).1
  rcases mk_req_extended_data c ap_req_options checksum kdc_options sequence newkey ccache
    creds authentp with h | ⟨s0, rest, h, hrest⟩
  · rw [h] at hs'
    cases hs'
  · rw [h] at hs' he'
    have hs0 : scratch = s0 := by
      rcases List.mem_cons.mp hs' with h1 | h1
      · injection h1 with h1
        injection h1
      · rcases hrest with hr | hr | hr <;> rw [hr] at h1 <;> simp at h1
    subst hs0
    have hmem : ∀ ev, ev ∈ rest → ev ∈ (krb5_mk_req_extended c ap_req_options checksum
        kdc_options sequence newkey ccache creds authentp).trace := by
      intro ev hev
      apply hsub
      rw [h]
      exact List.mem_cons_of_mem _ hev
    have he2 : mk_req_call.encrypt inbuf size capacity ∈ rest := by
      rcases List.mem_cons.mp he' with h1 | h1
      · cases h1
      · exact h1
    rcases hrest with hr | hr | hr
    · rw [hr] at he2
      simp at he2
    · rw [hr] at he2
      simp at he2
    · have he3 := he2
      rw [hr] at he3
      simp only [List.mem_cons, List.mem_singleton, List.not_mem_nil, or_false,
        reduceCtorEq, false_or, mk_req_call.encrypt.injEq] at he3
      obtain ⟨h1, h2, h3⟩ := he3
      refine ⟨h2, h3, ?_, ?_, ?_⟩
      · apply hmem
        rw [hr, h3]
        simp
      · apply hmem
        rw [hr, h3]
        simp
      · intro hle
        rw [h3] at hle
        have hp := padded_plaintext_eq c scratch _ hle
        rw [← h1] at hp
        rw [← h3] at hp hle
        refine ⟨?_, hp, ?_, ?_⟩
        · rw [hp]
          simp
          omega
        · rw [hp]
          simp
        · intro i hi1 hi2
          rw [hp, List.getElem?_append_right hi1, List.getElem?_replicate]
          simp
          omega

/-- Witness for C16: with the sample collaborators the encoded authenticator
has 5 bytes, the padded length is 8, the reallocated memory holds 255 in its
new bytes, and `krb5_encrypt` is handed the 5 bytes followed by three zero
bytes. -/
theorem mk_req_plaintext_zero_padded_witness :
    mk_req_call.encode_authenticator (some ([10, 11, 12, 13, 14] : krb5_data)) ∈
      (krb5_mk_req_extended (collab_sample 0) 0 0 0 1 true 0 creds_sample false).trace ∧
    mk_req_call.encrypt ([10, 11, 12, 13, 14, 0, 0, 0] : krb5_data) 5 8 ∈
      (krb5_mk_req_extended (collab_sample 0) 0 0 0 1 true 0 creds_sample false).trace ∧
    (collab_sample 0).realloc_residue 6 = 255 ∧
    (5 = ([10, 11, 12, 13, 14] : krb5_data).length ∧
    8 = (collab_sample 0).krb5_encrypt_size ([10, 11, 12, 13, 14] : krb5_data).length
      (select_etype (collab_sample 0)
        (creds_in_use (collab_sample 0) 0 0 creds_sample).keyblock) ∧
    mk_req_call.realloc 8 ∈
      (krb5_mk_req_extended (collab_sample 0) 0 0 0 1 true 0 creds_sample false).trace ∧
    mk_req_call.malloc 8 ∈
      (krb5_mk_req_extended (collab_sample 0) 0 0 0 1 true 0 creds_sample false).trace ∧
    (([10, 11, 12, 13, 14] : krb5_data).length ≤ 8 →
      ([10, 11, 12, 13, 14, 0, 0, 0] : krb5_data).length = 8 ∧
      ([10, 11, 12, 13, 14, 0, 0, 0] : krb5_data)
        = ([10, 11, 12, 13, 14] : krb5_data)
            ++ List.replicate (8 - ([10, 11, 12, 13, 14] : krb5_data).length) 0 ∧
      ([10, 11, 12, 13, 14, 0, 0, 0] : krb5_data).take ([10, 11, 12, 13, 14] : krb5_data).length
        = ([10, 11, 12, 13, 14] : krb5_data) ∧
      ∀ i, ([10, 11, 12, 13, 14] : krb5_data).length ≤ i → i < 8 →
        ([10, 11, 12, 13, 14, 0, 0, 0] : krb5_data)[i]? = some 0)) :=
  ⟨by decide, by decide, rfl,
    mk_req_plaintext_zero_padded (collab_sample 0) 0 0 0 1 true 0 creds_sample false
      [10, 11, 12, 13, 14] [10, 11, 12, 13, 14, 0, 0, 0] 5 8 (by decide) (by decide)⟩

end Kdc
